import Mathlib

/-!
# A shallow embedding of the `scheme` interpreter

The development follows the C++ sources: `tokenizer.h` / `tokenizer.cpp`
(the lexer), `parser.cpp` (the reader), `object.h` / `object.cpp` (values,
scopes, the evaluator and the builtins) and `scheme.cpp` (`Interpreter::Run`).

Modelling conventions.

* A `std::shared_ptr<Object>` is an `Obj`; the null pointer is `Obj.null`.
  `Cell` objects are never modified after construction, so cells are plain
  trees.  Scopes are modified in place and are reached through pointers, so
  they live in a heap (`State.scopes`) and are referred to by index.
* `int64_t` is an `Int` kept in range by `wrap64` wherever the C++ code does
  arithmetic.
* A C++ exception is an `Err`.  Dereferencing a null pointer and other
  undefined behaviour is `Err.UndefinedBehaviour`; a computation that has
  not finished within the fuel it was given is `Err.OutOfFuel`.
* The random names that `CreateLambda::Apply` draws are supplied by an
  arbitrary function `gen : Nat → String` (the `k`-th name drawn).
-/

namespace Scheme

/-! ## Errors and 64-bit integers -/

/-- The three exception types of `error.h`, undefined behaviour, and lack of fuel. -/
inductive Err where
  | SyntaxError
  | RuntimeError
  | NameError
  | UndefinedBehaviour
  | OutOfFuel
  deriving DecidableEq, Repr

deriving instance DecidableEq for Except

/-- Two's complement reduction of an integer to the range of `int64_t`. -/
def wrap64 (x : Int) : Int := (x + 9223372036854775808) % 18446744073709551616 - 9223372036854775808

/-- The range of `int64_t`. -/
def isInt64 (x : Int) : Prop := -9223372036854775808 ≤ x ∧ x ≤ 9223372036854775807

instance (x : Int) : Decidable (isInt64 x) := by unfold isInt64; infer_instance

/-- The function `std::to_string` on `int64_t`: a minus sign for negative values, then the
decimal digits. -/
def to_string (v : Int) : String :=
  if v < 0 then "-" ++ Nat.repr v.natAbs else Nat.repr v.natAbs

/-! ## Tokens (`tokenizer.h`) -/

/-- The two values of `enum class BracketToken`. -/
inductive BracketToken where
  | OPEN
  | CLOSE
  deriving DecidableEq, Repr

/-- The variant `Token`. -/
inductive Token where
  | ConstantToken (value : Int)
  | BracketToken (b : BracketToken)
  | SymbolToken (name : String)
  | QuoteToken
  | DotToken
  | BooleanToken (value : Bool)
  deriving DecidableEq, Repr

/-- The function `std::isspace` in the C locale. -/
def isspace (c : Char) : Bool :=
  c == ' ' || c == '\t' || c == '\n' || c == Char.ofNat 11 || c == Char.ofNat 12 || c == '\r'

/-- The function `std::isdigit`. -/
def isdigit (c : Char) : Bool := c.isDigit

/-- The function `std::isalpha` in the C locale. -/
def isalpha (c : Char) : Bool := c.isAlpha

/-- `Tokenizer::BeginsWith`. -/
def BeginsWith (c : Char) : Bool :=
  isalpha c || "<=>*#/".toList.contains c

/-- `Tokenizer::AvailableCharsInSymbol`. -/
def AvailableCharsInSymbol (c : Char) : Bool :=
  BeginsWith c || isdigit c || "?!-".toList.contains c

/-- `Tokenizer::AvailableChars`. -/
def AvailableChars (c : Char) : Bool :=
  AvailableCharsInSymbol c || isspace c || ['(', ')', '.', Char.ofNat 39, '+', '-'].contains c

/-- The state of a `Tokenizer`: the characters of the stream that have not been consumed.
Every `get` that `GetToken` performs is undone by an `unget`, so the position only moves in
the constructor, in `Next` and in `SkipSpaces`. -/
abbrev Tokenizer := List Char

/-- `Tokenizer::SkipSpaces`. -/
def Tokenizer_SkipSpaces : Tokenizer → Tokenizer
  | [] => []
  | c :: cs => if isspace c then Tokenizer_SkipSpaces cs else c :: cs

/-- `Tokenizer::IsEnd`. -/
def Tokenizer_IsEnd (t : Tokenizer) : Bool := t.isEmpty

/-- The constructor `Tokenizer::Tokenizer`: the pre-scan of every character, the rewind, and
the first `SkipSpaces`. -/
def Tokenizer_new (code : List Char) : Except Err Tokenizer :=
  if code.all AvailableChars then .ok (Tokenizer_SkipSpaces code) else .error .SyntaxError

/-- The digit loop of `Tokenizer::GetToken`: `curr_digit = curr_digit * 10 + (curr - '0')`
while the next character is a digit. -/
def readDigits : Int → List Char → Int
  | curr_digit, [] => curr_digit
  | curr_digit, c :: cs =>
    if isdigit c then readDigits (wrap64 (curr_digit * 10 + ((c.toNat : Int) - 48))) cs
    else curr_digit

/-- `Tokenizer::GetToken`, returning the token together with the value left in `token_len_`. -/
def Tokenizer_GetToken (t : Tokenizer) : Except Err (Token × Nat) :=
  match t with
  | [] => .error .SyntaxError
  | curr :: rest =>
    if curr == Char.ofNat 39 then .ok (.QuoteToken, 1)
    else if curr == '.' then .ok (.DotToken, 1)
    else if curr == '#' && (rest.head? == some 't' || rest.head? == some 'f') then
      .ok (.BooleanToken (rest.head? == some 't'), 2)
    else if curr == '(' then .ok (.BracketToken .OPEN, 1)
    else if curr == ')' then .ok (.BracketToken .CLOSE, 1)
    else
      let is_digit : Bool :=
        isdigit curr || ((curr == '+' || curr == '-') && (rest.head?.map isdigit == some true))
      if is_digit then
        let sgn : Int := if curr == '-' then -1 else 1
        let token_len_ : Nat := if curr == '+' then 1 else 0
        let curr_digit : Int := if curr != '+' && curr != '-' then (curr.toNat : Int) - 48 else 0
        let curr_digit := wrap64 (readDigits curr_digit rest * sgn)
        .ok (.ConstantToken curr_digit, token_len_ + (to_string curr_digit).length)
      else if curr == '+' || curr == '-' then .ok (.SymbolToken (String.mk [curr]), 0)
      else if !BeginsWith curr then .error .SyntaxError
      else .ok (.SymbolToken (String.mk (curr :: rest.takeWhile AvailableCharsInSymbol)), 0)

/-- `Tokenizer::Next`. -/
def Tokenizer_Next (t : Tokenizer) : Except Err Tokenizer :=
  match Tokenizer_GetToken t with
  | .error e => .error e
  | .ok (token, token_len_) =>
    let token_len_ : Nat :=
      match token with
      | .SymbolToken name => name.length
      | _ => token_len_
    .ok (Tokenizer_SkipSpaces (t.drop token_len_))

/-! ## Values (`object.h`) -/

/-- The builtin function objects stored in `Symbol::k_functions`, one constructor per class
(or per instantiation of a class template). -/
inductive Function where
  | ReturnItself | IsBoolean | IsNumber | IsSymbol | Not | Abs
  | Equal | Less | Greater | LessEqual | GreaterEqual
  | Plus | Prod | Minus | Divide | Max | Min
  | IsPair | IsNull | IsList | Cons | Car | Cdr | List | ListRef | ListTail
  | And | Or | If | Define | Set | SetCar | SetCdr | CreateLambda
  deriving DecidableEq, Repr

/-- A `std::shared_ptr<Object>`: the null pointer or an object of one of the classes
`Number`, `Boolean`, `Symbol`, `Cell`, `LambdaFunction` or a builtin `Function`.  A
`LambdaFunction` holds the index of its own scope `scope_` in the heap. -/
inductive Obj where
  | null
  | Number (value_ : Int)
  | Boolean (value_ : Bool)
  | Symbol (value_ : String)
  | Cell (first_ second_ : Obj)
  | LambdaFunction (scope_ : Nat) (body_ : Obj) (args_ : List String)
  | Function (f : Function)
  deriving DecidableEq, Repr

/-- `Is<Cell>`. -/
def Obj.isCell : Obj → Bool
  | .Cell _ _ => true
  | _ => false

/-- `Is<Number>`. -/
def Obj.isNumber : Obj → Bool
  | .Number _ => true
  | _ => false

/-- `Is<Boolean>`. -/
def Obj.isBoolean : Obj → Bool
  | .Boolean _ => true
  | _ => false

/-- `Is<Symbol>`. -/
def Obj.isSymbol : Obj → Bool
  | .Symbol _ => true
  | _ => false

/-- `Is<LambdaFunction>`. -/
def Obj.isLambdaFunction : Obj → Bool
  | .LambdaFunction _ _ _ => true
  | _ => false

/-- The test `!ptr` on a shared pointer. -/
def Obj.isNull : Obj → Bool
  | .null => true
  | _ => false

/-! ## The reader (`parser.cpp`) -/

/-- The local variables of the `while (true)` loop of `ReadList`. -/
structure ReadListVars where
  list : List Obj
  number_of_dots : Nat
  dot_pos : Nat
  curr_pos : Nat
  deriving DecidableEq, Repr

/-- The `while (true)` loop of `ReadList`; `Read` is the reader for the elements.  The first
argument bounds the number of iterations. -/
def ReadList_loop (Read : Tokenizer → Except Err (Obj × Tokenizer)) :
    Nat → ReadListVars → Tokenizer → Except Err (ReadListVars × Tokenizer)
  | 0, _, _ => .error .OutOfFuel
  | fuel + 1, v, tokenizer =>
    if Tokenizer_IsEnd tokenizer then .error .SyntaxError
    else
      match Tokenizer_GetToken tokenizer with
      | .error e => .error e
      | .ok (token, _) =>
        if token = .BracketToken .CLOSE then
          match Tokenizer_Next tokenizer with
          | .error e => .error e
          | .ok tokenizer => .ok (v, tokenizer)
        else if token = .DotToken then
          if v.number_of_dots + 1 > 1 then .error .SyntaxError
          else
            match Tokenizer_Next tokenizer with
            | .error e => .error e
            | .ok tokenizer =>
              ReadList_loop Read fuel
                ⟨v.list ++ [.null], v.number_of_dots + 1, v.curr_pos, v.curr_pos + 1⟩ tokenizer
        else
          match Read tokenizer with
          | .error e => .error e
          | .ok (obj, tokenizer) =>
            ReadList_loop Read fuel
              ⟨v.list ++ [obj], v.number_of_dots, v.dot_pos, v.curr_pos + 1⟩ tokenizer

/-- The part of `ReadList` after the loop: the cells are built from the back of `list`, and
the shape of `if`, `define`, `set!` and `lambda` forms is checked. -/
def ReadList_build (v : ReadListVars) : Except Err Obj :=
  let list := v.list
  let sz := list.length
  if v.number_of_dots = 0 then
    if list.isEmpty then .ok .null
    else
      let cell := (list.take (sz - 1)).foldr Obj.Cell (.Cell (list.getD (sz - 1) .null) .null)
      match list.head? with
      | some (.Symbol name) =>
        if name = "if" && !(sz = 3 || sz = 4) then .error .SyntaxError
        else if name = "define" || name = "set!" then
          if sz = 4 then
            if !(list.getD 1 .null).isCell then .error .SyntaxError else .ok cell
          else if sz ≠ 3 then .error .SyntaxError
          else .ok cell
        else if name = "lambda" && sz < 3 then .error .SyntaxError
        else .ok cell
      | _ => .ok cell
  else
    if v.dot_pos + 2 ≠ sz then .error .SyntaxError
    else if sz < 3 then .error .SyntaxError
    else
      .ok ((list.take (sz - 3)).foldr Obj.Cell
        (.Cell (list.getD (sz - 3) .null) (list.getD (sz - 1) .null)))

/-- `ReadList`, given the reader for the elements. -/
def ReadList (Read : Tokenizer → Except Err (Obj × Tokenizer)) (fuel : Nat)
    (tokenizer : Tokenizer) : Except Err (Obj × Tokenizer) :=
  match ReadList_loop Read fuel ⟨[], 0, 0, 0⟩ tokenizer with
  | .error e => .error e
  | .ok (v, tokenizer) =>
    match ReadList_build v with
    | .error e => .error e
    | .ok obj => .ok (obj, tokenizer)

/-- `Read`.  The fuel bounds the nesting depth and the number of list elements; every call
consumes at least one character, so the number of characters left plus one is enough. -/
def Read : Nat → Tokenizer → Except Err (Obj × Tokenizer)
  | 0, _ => .error .OutOfFuel
  | fuel + 1, tokenizer =>
    if Tokenizer_IsEnd tokenizer then .error .SyntaxError
    else
      match Tokenizer_GetToken tokenizer with
      | .error e => .error e
      | .ok (token, _) =>
        match Tokenizer_Next tokenizer with
        | .error e => .error e
        | .ok tokenizer =>
          match token with
          | .QuoteToken =>
            if Tokenizer_IsEnd tokenizer then .error .SyntaxError
            else
              match Tokenizer_GetToken tokenizer with
              | .error e => .error e
              | .ok (.BracketToken x, _) =>
                if x ≠ .OPEN then .error .SyntaxError
                else
                  match Tokenizer_Next tokenizer with
                  | .error e => .error e
                  | .ok tokenizer =>
                    match ReadList (Read fuel) fuel tokenizer with
                    | .error e => .error e
                    | .ok (list, tokenizer) =>
                      if list.isNull then .ok (.Cell (.Symbol "quote") .null, tokenizer)
                      else .ok (.Cell (.Symbol "quote") (.Cell list .null), tokenizer)
              | .ok _ =>
                match Read fuel tokenizer with
                | .error e => .error e
                | .ok (obj, tokenizer) => .ok (.Cell (.Symbol "quote") obj, tokenizer)
          | .ConstantToken value => .ok (.Number value, tokenizer)
          | .BooleanToken value => .ok (.Boolean value, tokenizer)
          | .SymbolToken name => .ok (.Symbol name, tokenizer)
          | .BracketToken x =>
            if x ≠ .OPEN then .error .SyntaxError
            else ReadList (Read fuel) fuel tokenizer
          | .DotToken => .error .SyntaxError

/-! ## Scopes (`object.h`) -/

/-- The class `Scope`: the pointer `anc_scope_` to the enclosing scope (an index into the
heap, `none` for the null pointer) and the map `vars_`. -/
structure Scope where
  anc_scope_ : Option Nat
  vars_ : List (String × Obj)
  deriving DecidableEq, Repr

/-- The mutable state of the program.  `scopes` is the heap of scopes: index `0` is the
`global_scope_` of the interpreter, the other entries are the scopes kept alive by
`LambdaFunction::k_scopes`, in order of creation.  `names` counts the random lambda names
drawn so far. -/
structure State where
  scopes : List Scope
  names : Nat
  deriving DecidableEq, Repr

/-- The state of a freshly constructed `Interpreter`: an empty global scope. -/
def State.init : State := ⟨[⟨none, []⟩], 0⟩

/-- The outcome of a computation that may modify the state: a value or a thrown exception,
with the state reached in either case. -/
inductive Res (α : Type) where
  | ok (value : α) (st : State)
  | throw (e : Err) (st : State)
  deriving DecidableEq, Repr

/-- Sequencing: an exception propagates, keeping the state in which it was thrown. -/
def Res.bind {α β : Type} (r : Res α) (f : α → State → Res β) : Res β :=
  match r with
  | .ok value st => f value st
  | .throw e st => .throw e st

/-- A computation that does not touch the state. -/
def Res.lift {α : Type} (x : Except Err α) (st : State) : Res α :=
  match x with
  | .ok value => .ok value st
  | .error e => .throw e st

/-- The state after a computation. -/
def Res.state {α : Type} : Res α → State
  | .ok _ st => st
  | .throw _ st => st

/-- The returned value or the exception, without the state. -/
def Res.result {α : Type} : Res α → Except Err α
  | .ok value _ => .ok value
  | .throw e _ => .error e

/-- `std::map::find` on `vars_`. -/
def vars_find (name : String) : List (String × Obj) → Option Obj
  | [] => none
  | (k, v) :: m => if k = name then some v else vars_find name m

/-- The assignment `vars_[name] = value` of `std::map`. -/
def vars_assign (name : String) (value : Obj) : List (String × Obj) → List (String × Obj)
  | [] => [(name, value)]
  | (k, v) :: m => if k = name then (k, value) :: m else (k, v) :: vars_assign name value m

/-- The walk along `anc_scope_` shared by `Scope::At` and `Scope::CheckToSet`, starting at
`anc`: the index of the first scope on the chain whose `vars_` contains `name` together with
the value found, or `NameError` at the end of the chain.  The chain has no cycle, so the
number of scopes bounds its length. -/
def Scope_walk (scopes : List Scope) (name : String) : Nat → Option Nat → Except Err (Nat × Obj)
  | 0, _ => .error .OutOfFuel
  | _ + 1, none => .error .NameError
  | fuel + 1, some anc =>
    match scopes[anc]? with
    | none => .error .UndefinedBehaviour
    | some s =>
      match vars_find name s.vars_ with
      | some value => .ok (anc, value)
      | none => Scope_walk scopes name fuel s.anc_scope_

/-- `Scope::CheckToSet` called on the scope with index `scope`. -/
def Scope_CheckToSet (st : State) (scope : Nat) (name : String) : Except Err Nat :=
  match Scope_walk st.scopes name (st.scopes.length + 1) (some scope) with
  | .ok (anc, _) => .ok anc
  | .error e => .error e

/-- `Scope::At` called on the scope with index `scope`. -/
def Scope_At (st : State) (scope : Nat) (name : String) : Except Err Obj :=
  match Scope_walk st.scopes name (st.scopes.length + 1) (some scope) with
  | .ok (_, value) => .ok value
  | .error e => .error e

/-- `Scope::Assign` called on the scope with index `scope`. -/
def Scope_Assign (st : State) (scope : Nat) (name : String) (value : Obj) : State :=
  match st.scopes[scope]? with
  | some s => { st with scopes := st.scopes.set scope { s with vars_ := vars_assign name value s.vars_ } }
  | none => st

/-- `Scope::GetVars` of the scope with index `scope`. -/
def Scope_GetVars (st : State) (scope : Nat) : List (String × Obj) :=
  match st.scopes[scope]? with
  | some s => s.vars_
  | none => []

/-- The allocation `k_scopes.emplace_back(std::make_shared<Scope>(anc_scope))`: the index of
the new scope and the new state. -/
def Scope_new (st : State) (anc_scope : Nat) : Nat × State :=
  (st.scopes.length, { st with scopes := st.scopes ++ [⟨some anc_scope, []⟩] })

/-! ## The printer (`Stringify`) -/

/-- `Stringify` for the objects that are not cells: `Number::Stringify`,
`Boolean::Stringify`, `Symbol::Stringify`, the throwing default `Object::Stringify`, and a
call through the null pointer. -/
def Stringify_atom : Obj → Except Err String
  | .Number value_ => .ok (to_string value_)
  | .Boolean value_ => .ok (if value_ then "#t" else "#f")
  | .Symbol value_ => .ok value_
  | .LambdaFunction _ _ _ => .error .RuntimeError
  | .Function _ => .error .RuntimeError
  | _ => .error .UndefinedBehaviour

/-- The virtual function `Stringify` when `tail = false`.  `Cell::Stringify` first walks the
chain of cells collecting `list` and then prints its elements; with `tail = true` the
function prints the part of `list` that comes from the rest of the chain (the argument is
the `second_` field reached), each element preceded by its separator. -/
def Stringify_aux : Bool → Obj → Except Err String
  | false, .Cell first_ second_ =>
    if first_.isNull then .ok "(())"
    else
      match Stringify_aux false first_ with
      | .error e => .error e
      | .ok a =>
        match Stringify_aux true second_ with
        | .error e => .error e
        | .ok b => .ok ("(" ++ a ++ b ++ ")")
  | false, obj => Stringify_atom obj
  | true, .null => .ok ""
  | true, .Cell first_ second_ =>
    match Stringify_aux false first_ with
    | .error e => .error e
    | .ok a =>
      match Stringify_aux true second_ with
      | .error e => .error e
      | .ok b => .ok (" " ++ a ++ b)
  | true, second =>
    match Stringify_atom second with
    | .error e => .error e
    | .ok a => .ok (" . " ++ a)

/-- The virtual function `Stringify`. -/
def Stringify (obj : Obj) : Except Err String := Stringify_aux false obj

/-! ## Helpers of the evaluator (`object.cpp`) -/

/-- The virtual call `obj->Eval(scope)`: object, index of the scope, state. -/
abbrev Evaluator := Obj → Nat → State → Res Obj

/-- `GetNumberOfArguments`. -/
def GetNumberOfArguments : Obj → Nat
  | .null => 0
  | .Cell _ second_ => 1 + GetNumberOfArguments second_
  | _ => 1

/-- `As<Cell>`: the object itself when it is a cell, the null pointer otherwise. -/
def As_Cell : Obj → Obj
  | .Cell first_ second_ => .Cell first_ second_
  | _ => .null

/-- `Number::GetValue` after `As<Number>`. -/
def Obj.GetValue : Obj → Int
  | .Number value_ => value_
  | _ => 0

/-- The `while (curr)` loop of `MakeVector<Number>`. -/
def MakeVector_loop (Eval : Evaluator) (scope : Nat) : Obj → List Obj → State → Res (List Obj)
  | .null, result, st => .ok result st
  | .Cell first_ second_, result, st =>
    (Eval first_ scope st).bind fun t st =>
      if !t.isNumber then .throw .RuntimeError st
      else if !second_.isNull && !second_.isCell then .throw .RuntimeError st
      else MakeVector_loop Eval scope second_ (result ++ [t]) st
  | _, _, st => .throw .UndefinedBehaviour st

/-- `MakeVector<Number>`, the only instantiation of the template `MakeVector<T>`. -/
def MakeVector (Eval : Evaluator) (head : Obj) (scope : Nat) (st : State) : Res (List Obj) :=
  if head.isNull then .ok [] st
  else
    match head with
    | .Cell first_ _ =>
      if first_.isNull then .throw .RuntimeError st
      else MakeVector_loop Eval scope head [] st
    | _ => .throw .RuntimeError st

/-- The cells built from the back of a vector: `Cell(list[sz - 1], nullptr)` and then
`Cell(list[i], cell)` for `i = sz - 2` down to `0`. -/
def build_list (list : List Obj) : Obj :=
  (list.take (list.length - 1)).foldr Obj.Cell (.Cell (list.getD (list.length - 1) .null) .null)

/-! ## The builtins (`object.cpp`) -/

/-- `ReturnItself::Apply`. -/
def ReturnItself_Apply (head : Obj) (st : State) : Res Obj :=
  match head with
  | .Cell first_ second_ => if second_.isNull then .ok first_ st else .ok head st
  | _ => .ok head st

/-- `IsType<T>::Apply`; `is` is the test `Is<T>`. -/
def IsType_Apply (is : Obj → Bool) (Eval : Evaluator) (head : Obj) (scope : Nat) (st : State) :
    Res Obj :=
  if GetNumberOfArguments head ≠ 1 then .throw .RuntimeError st
  else
    match head with
    | .Cell first_ _ => (Eval first_ scope st).bind fun value st => .ok (.Boolean (is value)) st
    | _ => .throw .RuntimeError st

/-- `Not::Apply`. -/
def Not_Apply (head : Obj) (st : State) : Res Obj :=
  if GetNumberOfArguments head ≠ 1 then .throw .RuntimeError st
  else
    match head with
    | .Cell (.Boolean value_) _ => if value_ then .ok (.Boolean false) st else .ok (.Boolean true) st
    | .Cell _ _ => .ok (.Boolean false) st
    | _ => .throw .RuntimeError st

/-- `Abs::Apply`; `std::abs` of the least `int64_t` wraps around. -/
def Abs_Apply (head : Obj) (st : State) : Res Obj :=
  if GetNumberOfArguments head ≠ 1 then .throw .RuntimeError st
  else
    match head with
    | .Cell (.Number value_) _ => .ok (.Number (wrap64 (value_.natAbs : Int))) st
    | .Cell _ _ => .throw .RuntimeError st
    | _ => .throw .RuntimeError st

/-- The `for` loop of `CompareNumbers<F>::Apply`: `false` at the first adjacent pair that
fails `cmp`. -/
def CompareNumbers_loop (cmp : Int → Int → Bool) : List Obj → Bool
  | a :: b :: rest => if !cmp a.GetValue b.GetValue then false else CompareNumbers_loop cmp (b :: rest)
  | _ => true

/-- `CompareNumbers<F>::Apply`. -/
def CompareNumbers_Apply (cmp : Int → Int → Bool) (Eval : Evaluator) (head : Obj) (scope : Nat)
    (st : State) : Res Obj :=
  (MakeVector Eval head scope st).bind fun list st => .ok (.Boolean (CompareNumbers_loop cmp list)) st

/-- The `for` loop of `AccumulateNumbers<F, init, has_one>::Apply`. -/
def AccumulateNumbers_loop (op : Int → Int → Except Err Int) : Int → List Obj → Except Err Int
  | res, [] => .ok res
  | res, x :: rest =>
    match op res x.GetValue with
    | .error e => .error e
    | .ok res => AccumulateNumbers_loop op res rest

/-- `AccumulateNumbers<F, init, has_one>::Apply`. -/
def AccumulateNumbers_Apply (op : Int → Int → Except Err Int) (init : Int) (has_one : Bool)
    (Eval : Evaluator) (head : Obj) (scope : Nat) (st : State) : Res Obj :=
  (MakeVector Eval head scope st).bind fun list st =>
    match list with
    | [] => if has_one then .ok (.Number init) st else .throw .RuntimeError st
    | front :: rest =>
      match AccumulateNumbers_loop op front.GetValue rest with
      | .error e => .throw e st
      | .ok res => .ok (.Number res) st

/-- `std::plus<int64_t>`. -/
def plus (a b : Int) : Except Err Int := .ok (wrap64 (a + b))

/-- `std::multiplies<int64_t>`. -/
def multiplies (a b : Int) : Except Err Int := .ok (wrap64 (a * b))

/-- `std::minus<int64_t>`. -/
def minus (a b : Int) : Except Err Int := .ok (wrap64 (a - b))

/-- `std::divides<int64_t>`: truncating division; a zero divisor and the quotient of the
least `int64_t` by `-1` are undefined. -/
def divides (a b : Int) : Except Err Int :=
  if b = 0 then .error .UndefinedBehaviour
  else if a = -9223372036854775808 ∧ b = -1 then .error .UndefinedBehaviour
  else .ok (Int.tdiv a b)

/-- `MaxClass<int64_t>`. -/
def MaxClass (lhs rhs : Int) : Except Err Int := .ok (max lhs rhs)

/-- `MinClass<int64_t>`. -/
def MinClass (lhs rhs : Int) : Except Err Int := .ok (min lhs rhs)

/-- `IsPair::Apply`. -/
def IsPair_Apply (Eval : Evaluator) (head_ : Obj) (scope : Nat) (st : State) : Res Obj :=
  match head_ with
  | .Cell first_ _ =>
    (Eval first_ scope st).bind fun head st =>
      match head with
      | .Cell _ (.Cell _ second_) => if !second_.isNull then .ok (.Boolean false) st else .ok (.Boolean true) st
      | .Cell _ second_ => .ok (.Boolean second_.isNumber) st
      | _ => .ok (.Boolean false) st
  | _ => .throw .UndefinedBehaviour st

/-- `IsNull::Apply`. -/
def IsNull_Apply (Eval : Evaluator) (head_ : Obj) (scope : Nat) (st : State) : Res Obj :=
  match head_ with
  | .Cell first_ _ => (Eval first_ scope st).bind fun head st => .ok (.Boolean head.isNull) st
  | _ => .throw .UndefinedBehaviour st

/-- The `while` loop of `IsList::Apply` followed by the test of the last `second_` field;
`none` when `cell` is not a cell, which dereferences a null pointer. -/
def IsList_loop : Obj → Option Bool
  | .Cell _ second_ => if second_.isCell then IsList_loop second_ else some (!second_.isNumber)
  | _ => none

/-- `IsList::Apply`. -/
def IsList_Apply (Eval : Evaluator) (head_ : Obj) (scope : Nat) (st : State) : Res Obj :=
  match head_ with
  | .Cell first_ _ =>
    (Eval first_ scope st).bind fun head st =>
      if head.isNull then .ok (.Boolean true) st
      else
        match IsList_loop head with
        | some b => .ok (.Boolean b) st
        | none => .throw .UndefinedBehaviour st
  | _ => .throw .UndefinedBehaviour st

/-- `Cons::Apply`. -/
def Cons_Apply (Eval : Evaluator) (head : Obj) (scope : Nat) (st : State) : Res Obj :=
  if GetNumberOfArguments head ≠ 2 then .throw .RuntimeError st
  else
    match head with
    | .Cell first_ (.Cell second_first_ _) =>
      (Eval first_ scope st).bind fun first st =>
        (Eval second_first_ scope st).bind fun second st => .ok (.Cell first second) st
    | .Cell first_ _ => (Eval first_ scope st).bind fun _ st => .throw .UndefinedBehaviour st
    | _ => .throw .UndefinedBehaviour st

/-- `Car::Apply`. -/
def Car_Apply (Eval : Evaluator) (head_ : Obj) (scope : Nat) (st : State) : Res Obj :=
  match head_ with
  | .Cell first_ _ =>
    (Eval first_ scope st).bind fun head st =>
      if head.isNull then .throw .RuntimeError st
      else
        match head with
        | .Cell first_ _ => .ok first_ st
        | _ =>
          (Eval head scope st).bind fun cell st =>
            match cell with
            | .Cell first_ _ => .ok first_ st
            | _ => .throw .UndefinedBehaviour st
  | _ => .throw .UndefinedBehaviour st

/-- The loop `while (!cell) cell = As<Cell>(head->Eval(scope))` of `Cdr::Apply`; the first
argument bounds the number of iterations. -/
def Cdr_loop (Eval : Evaluator) (head : Obj) (scope : Nat) : Nat → State → Res Obj
  | 0, st => .throw .OutOfFuel st
  | fuel + 1, st =>
    (Eval head scope st).bind fun cell st =>
      if cell.isCell then .ok cell st else Cdr_loop Eval head scope fuel st

/-- `Cdr::Apply`. -/
def Cdr_Apply (Eval : Evaluator) (fuel : Nat) (head_ : Obj) (scope : Nat) (st : State) : Res Obj :=
  match head_ with
  | .Cell first_ _ =>
    (Eval first_ scope st).bind fun head st =>
      if head.isNull then .throw .RuntimeError st
      else
        match head with
        | .Cell _ second_ => .ok second_ st
        | _ =>
          (Cdr_loop Eval head scope fuel st).bind fun cell st =>
            match cell with
            | .Cell _ second_ => .ok second_ st
            | _ => .throw .UndefinedBehaviour st
  | _ => .throw .UndefinedBehaviour st

/-- `List::Apply`. -/
def List_Apply (Eval : Evaluator) (head : Obj) (scope : Nat) (st : State) : Res Obj :=
  if head.isNull then .ok .null st
  else (MakeVector Eval head scope st).bind fun list st => .ok (build_list list) st

/-- `ListRef::Apply`. -/
def ListRef_Apply (Eval : Evaluator) (head : Obj) (scope : Nat) (st : State) : Res Obj :=
  match head with
  | .Cell first_ second_ =>
    (Eval first_ scope st).bind fun first st =>
      (MakeVector Eval first scope st).bind fun elems st =>
        match second_ with
        | .Cell (.Number value_) _ =>
          let idx : Nat := (value_ % 18446744073709551616).toNat
          if idx ≥ elems.length then .throw .RuntimeError st
          else .ok (.Number (elems.getD idx .null).GetValue) st
        | .Cell _ _ => .throw .RuntimeError st
        | _ => .throw .UndefinedBehaviour st
  | _ => .throw .RuntimeError st

/-- The loop `for (size_t i = static_cast<int>(sz) - 2; i >= idx; --i)` of `ListTail::Apply`,
with `i` an unsigned 64-bit counter; reading `elems[i]` past the end is undefined.  The first
argument bounds the number of iterations. -/
def ListTail_loop (elems : List Obj) (idx : Nat) : Nat → Nat → Obj → Except Err Obj
  | 0, _, _ => .error .OutOfFuel
  | fuel + 1, i, list =>
    if i ≥ idx then
      if i < elems.length then
        ListTail_loop elems idx fuel ((i + 18446744073709551615) % 18446744073709551616)
          (.Cell (elems.getD i .null) list)
      else .error .UndefinedBehaviour
    else .ok list

/-- `ListTail::Apply`. -/
def ListTail_Apply (Eval : Evaluator) (head : Obj) (scope : Nat) (st : State) : Res Obj :=
  match head with
  | .Cell first_ second_ =>
    (Eval first_ scope st).bind fun first st =>
      (MakeVector Eval first scope st).bind fun elems st =>
        match second_ with
        | .Cell (.Number value_) _ =>
          let idx : Nat := (value_ % 18446744073709551616).toNat
          if idx > elems.length then .throw .RuntimeError st
          else if idx = elems.length then .ok .null st
          else
            let sz := elems.length
            Res.lift
              (ListTail_loop elems idx (sz + 1) ((sz + 18446744073709551614) % 18446744073709551616)
                (.Cell (elems.getD (sz - 1) .null) .null)) st
        | .Cell _ _ => .throw .RuntimeError st
        | _ => .throw .UndefinedBehaviour st
  | _ => .throw .RuntimeError st

/-- The loop `while (args--)` of `LogicOp<op>::Apply`. -/
def LogicOp_loop (op : Bool) (Eval : Evaluator) (scope : Nat) : Nat → Obj → Obj → State → Res Obj
  | 0, _, last, st => .ok last st
  | args + 1, arg, _, st =>
    match arg with
    | .Cell first_ second_ =>
      (Eval first_ scope st).bind fun val st =>
        match val with
        | .Boolean curr =>
          if (if op then !curr else curr) then .ok val st
          else LogicOp_loop op Eval scope args second_ val st
        | _ => LogicOp_loop op Eval scope args second_ val st
    | _ => .throw .UndefinedBehaviour st

/-- `LogicOp<op>::Apply`. -/
def LogicOp_Apply (op : Bool) (Eval : Evaluator) (head : Obj) (scope : Nat) (st : State) : Res Obj :=
  if head.isNull then .ok (.Boolean op) st
  else LogicOp_loop op Eval scope (GetNumberOfArguments head) head .null st

/-- `If::Apply`. -/
def If_Apply (Eval : Evaluator) (head : Obj) (scope : Nat) (st : State) : Res Obj :=
  match head with
  | .Cell first_ second_ =>
    (Eval first_ scope st).bind fun cond st =>
      match cond with
      | .Boolean true =>
        match second_ with
        | .Cell first_ _ => Eval first_ scope st
        | _ => .throw .UndefinedBehaviour st
      | .Boolean false =>
        match second_ with
        | .Cell _ second_branch =>
          if !second_branch.isNull then
            match second_branch with
            | .Cell first_ _ => Eval first_ scope st
            | _ => .throw .UndefinedBehaviour st
          else .ok .null st
        | _ => .throw .UndefinedBehaviour st
      | _ => .throw .RuntimeError st
  | _ => .throw .UndefinedBehaviour st

/-- The loop that collects the parameter names in `Define::Apply` and `CreateLambda::Apply`;
`none` when it dereferences a null pointer (an element that is not a symbol, or a tail that
is not a cell). -/
def collect_args : Obj → Option (List String)
  | .null => some []
  | .Cell (.Symbol value_) second_ =>
    match collect_args second_ with
    | some args => some (value_ :: args)
    | none => none
  | _ => none

/-- `Define::Apply`. -/
def Define_Apply (Eval : Evaluator) (head : Obj) (scope : Nat) (st : State) : Res Obj :=
  match head with
  | .Cell (.Symbol name) second_ =>
    match second_ with
    | .Cell first_ _ =>
      (Eval first_ scope st).bind fun value st => .ok .null (Scope_Assign st scope name value)
    | _ => .throw .UndefinedBehaviour st
  | .Cell (.Cell lambda_first_ lambda_second_) second_ =>
    match lambda_first_ with
    | .Symbol curr_name =>
      match collect_args lambda_second_ with
      | some args =>
        let body := As_Cell second_
        let (lambda_scope, st) := Scope_new st scope
        .ok .null (Scope_Assign st scope curr_name (.LambdaFunction lambda_scope body args))
      | none => .throw .UndefinedBehaviour st
    | _ => .throw .UndefinedBehaviour st
  | .Cell _ _ => .throw .RuntimeError st
  | _ => .throw .UndefinedBehaviour st

/-- `Set::Apply`. -/
def Set_Apply (Eval : Evaluator) (head : Obj) (scope : Nat) (st : State) : Res Obj :=
  match head with
  | .Cell (.Symbol name) second_ =>
    match Scope_CheckToSet st scope name with
    | .error e => .throw e st
    | .ok to_assign =>
      match second_ with
      | .Cell first_ _ =>
        (Eval first_ scope st).bind fun value st => .ok .null (Scope_Assign st to_assign name value)
      | _ => .throw .UndefinedBehaviour st
  | .Cell _ _ => .throw .RuntimeError st
  | _ => .throw .UndefinedBehaviour st

/-- The part of `SetPair<car>::Apply` after `name` has been determined. -/
def SetPair_body (car : Bool) (Eval : Evaluator) (name : String) (second_ : Obj) (scope : Nat)
    (st : State) : Res Obj :=
  match Scope_CheckToSet st scope name with
  | .error e => .throw e st
  | .ok _ =>
    match second_ with
    | .Cell new_value _ =>
      (if new_value.isCell then Eval new_value scope st else .ok new_value st).bind fun new_value st =>
        match Scope_At st scope name with
        | .error e => .throw e st
        | .ok (.Cell old_first old_second) =>
          if car then .ok .null (Scope_Assign st scope name (.Cell new_value old_second))
          else .ok .null (Scope_Assign st scope name (.Cell old_first new_value))
        | .ok _ => .throw .UndefinedBehaviour st
    | _ => .throw .UndefinedBehaviour st

/-- `SetPair<car>::Apply`. -/
def SetPair_Apply (car : Bool) (Eval : Evaluator) (head : Obj) (scope : Nat) (st : State) : Res Obj :=
  match head with
  | .Cell (.Symbol name) second_ => SetPair_body car Eval name second_ scope st
  | .Cell first_ second_ =>
    (Eval first_ scope st).bind fun name st =>
      match name with
      | .Symbol name => SetPair_body car Eval name second_ scope st
      | _ => .throw .UndefinedBehaviour st
  | _ => .throw .UndefinedBehaviour st

/-- `CreateLambda::Apply`; `gen` gives the names returned by `gen_lambda_name`. -/
def CreateLambda_Apply (gen : Nat → String) (head : Obj) (scope : Nat) (st : State) : Res Obj :=
  let curr_name := gen st.names
  let st := { st with names := st.names + 1 }
  match head with
  | .Cell first_ second_ =>
    match collect_args first_ with
    | some args =>
      let body := As_Cell second_
      let (lambda_scope, st) := Scope_new st scope
      let lambda := Obj.LambdaFunction lambda_scope body args
      .ok lambda (Scope_Assign st scope curr_name lambda)
    | none => .throw .UndefinedBehaviour st
  | _ => .throw .UndefinedBehaviour st

/-- The first loop of `LambdaFunction::Apply`: each argument is evaluated in the scope of the
lambda itself and assigned there to the next parameter. -/
def LambdaFunction_bind (Eval : Evaluator) (scope : Nat) : List String → Obj → State → Res Unit
  | [], _, st => .ok () st
  | name :: args, cell, st =>
    match cell with
    | .Cell first_ second_ =>
      (Eval first_ scope st).bind fun arg st =>
        LambdaFunction_bind Eval scope args (As_Cell second_) (Scope_Assign st scope name arg)
    | _ => .throw .UndefinedBehaviour st

/-- The loop `while (body)` of `LambdaFunction::Apply`; `body` is always the result of an
`As<Cell>`, so the loop ends at the first object that is not a cell. -/
def LambdaFunction_body (Eval : Evaluator) (new_scope : Nat) : Obj → Obj → State → Res Obj
  | .Cell first_ second_, _, st =>
    (Eval first_ new_scope st).bind fun res st =>
      LambdaFunction_body Eval new_scope second_ res st
  | _, res, st => .ok res st

/-- `LambdaFunction::Apply` of the lambda with fields `scope_`, `body_`, `args_`; the scope of
the caller is not used. -/
def LambdaFunction_Apply (Eval : Evaluator) (scope_ : Nat) (body_ : Obj) (args_ : List String)
    (head : Obj) (st : State) : Res Obj :=
  (LambdaFunction_bind Eval scope_ args_ (As_Cell head) st).bind fun _ st =>
    let (new_scope, st) := Scope_new st scope_
    let st := { st with scopes := st.scopes.set new_scope ⟨some scope_, Scope_GetVars st scope_⟩ }
    LambdaFunction_body Eval new_scope body_ .null st

/-- The table `Symbol::k_functions`. -/
def k_functions (name : String) : Option Function :=
  if name = "quote" then some .ReturnItself
  else if name = "boolean?" then some .IsBoolean
  else if name = "number?" then some .IsNumber
  else if name = "symbol?" then some .IsSymbol
  else if name = "not" then some .Not
  else if name = "abs" then some .Abs
  else if name = "=" then some .Equal
  else if name = "<" then some .Less
  else if name = ">" then some .Greater
  else if name = "<=" then some .LessEqual
  else if name = ">=" then some .GreaterEqual
  else if name = "+" then some .Plus
  else if name = "*" then some .Prod
  else if name = "-" then some .Minus
  else if name = "/" then some .Divide
  else if name = "max" then some .Max
  else if name = "min" then some .Min
  else if name = "pair?" then some .IsPair
  else if name = "null?" then some .IsNull
  else if name = "list?" then some .IsList
  else if name = "cons" then some .Cons
  else if name = "car" then some .Car
  else if name = "cdr" then some .Cdr
  else if name = "list" then some .List
  else if name = "list-ref" then some .ListRef
  else if name = "list-tail" then some .ListTail
  else if name = "and" then some .And
  else if name = "or" then some .Or
  else if name = "if" then some .If
  else if name = "define" then some .Define
  else if name = "set!" then some .Set
  else if name = "set-car!" then some .SetCar
  else if name = "set-cdr!" then some .SetCdr
  else if name = "lambda" then some .CreateLambda
  else none

/-- The virtual call `f->Apply(head, scope)` on a builtin. -/
def Function_Apply (gen : Nat → String) (Eval : Evaluator) (fuel : Nat) (f : Function) (head : Obj)
    (scope : Nat) (st : State) : Res Obj :=
  match f with
  | .ReturnItself => ReturnItself_Apply head st
  | .IsBoolean => IsType_Apply Obj.isBoolean Eval head scope st
  | .IsNumber => IsType_Apply Obj.isNumber Eval head scope st
  | .IsSymbol => IsType_Apply Obj.isSymbol Eval head scope st
  | .Not => Not_Apply head st
  | .Abs => Abs_Apply head st
  | .Equal => CompareNumbers_Apply (fun a b => decide (a = b)) Eval head scope st
  | .Less => CompareNumbers_Apply (fun a b => decide (a < b)) Eval head scope st
  | .Greater => CompareNumbers_Apply (fun a b => decide (a > b)) Eval head scope st
  | .LessEqual => CompareNumbers_Apply (fun a b => decide (a ≤ b)) Eval head scope st
  | .GreaterEqual => CompareNumbers_Apply (fun a b => decide (a ≥ b)) Eval head scope st
  | .Plus => AccumulateNumbers_Apply plus 0 true Eval head scope st
  | .Prod => AccumulateNumbers_Apply multiplies 1 true Eval head scope st
  | .Minus => AccumulateNumbers_Apply minus 0 false Eval head scope st
  | .Divide => AccumulateNumbers_Apply divides 0 false Eval head scope st
  | .Max => AccumulateNumbers_Apply MaxClass 0 false Eval head scope st
  | .Min => AccumulateNumbers_Apply MinClass 0 false Eval head scope st
  | .IsPair => IsPair_Apply Eval head scope st
  | .IsNull => IsNull_Apply Eval head scope st
  | .IsList => IsList_Apply Eval head scope st
  | .Cons => Cons_Apply Eval head scope st
  | .Car => Car_Apply Eval head scope st
  | .Cdr => Cdr_Apply Eval fuel head scope st
  | .List => List_Apply Eval head scope st
  | .ListRef => ListRef_Apply Eval head scope st
  | .ListTail => ListTail_Apply Eval head scope st
  | .And => LogicOp_Apply true Eval head scope st
  | .Or => LogicOp_Apply false Eval head scope st
  | .If => If_Apply Eval head scope st
  | .Define => Define_Apply Eval head scope st
  | .Set => Set_Apply Eval head scope st
  | .SetCar => SetPair_Apply true Eval head scope st
  | .SetCdr => SetPair_Apply false Eval head scope st
  | .CreateLambda => CreateLambda_Apply gen head scope st

/-- The virtual call `obj->Apply(head, scope)`: `LambdaFunction::Apply`, the `Apply` of a
builtin, or the throwing default `Object::Apply`. -/
def Object_Apply (gen : Nat → String) (Eval : Evaluator) (fuel : Nat) (obj head : Obj) (scope : Nat)
    (st : State) : Res Obj :=
  match obj with
  | .LambdaFunction scope_ body_ args_ => LambdaFunction_Apply Eval scope_ body_ args_ head st
  | .Function f => Function_Apply gen Eval fuel f head scope st
  | .null => .throw .UndefinedBehaviour st
  | _ => .throw .RuntimeError st

/-- `Symbol::Eval`. -/
def Symbol_Eval (value_ : String) (scope : Nat) (st : State) : Res Obj :=
  match k_functions value_ with
  | some f => .ok (.Function f) st
  | none => Res.lift (Scope_At st scope value_) st

/-- `Cell::Eval`. -/
def Cell_Eval (gen : Nat → String) (Eval : Evaluator) (fuel : Nat) (first_ second_ : Obj)
    (scope : Nat) (st : State) : Res Obj :=
  if first_.isNull then .throw .RuntimeError st
  else
    (Eval first_ scope st).bind fun eval st =>
      if eval.isNull then .throw .RuntimeError st
      else
        match second_ with
        | .Cell second_first_ second_second_ =>
          if eval.isLambdaFunction && second_first_.isCell && second_second_.isNull then
            (Eval second_first_ scope st).bind fun new_args st =>
              Object_Apply gen Eval fuel eval (.Cell new_args .null) scope st
          else Object_Apply gen Eval fuel eval second_ scope st
        | _ => Object_Apply gen Eval fuel eval second_ scope st

/-- The virtual function `Eval`: `Number::Eval`, `Boolean::Eval`, `Symbol::Eval`,
`Cell::Eval`, the throwing default `Object::Eval` of lambdas and builtins, and a call through
the null pointer.  The fuel bounds the depth of nested calls. -/
def Eval (gen : Nat → String) : Nat → Evaluator
  | 0, _, _, st => .throw .OutOfFuel st
  | fuel + 1, obj, scope, st =>
    match obj with
    | .null => .throw .UndefinedBehaviour st
    | .Number _ => .ok obj st
    | .Boolean _ => .ok obj st
    | .Symbol value_ => Symbol_Eval value_ scope st
    | .Cell first_ second_ => Cell_Eval gen (Eval gen fuel) fuel first_ second_ scope st
    | .LambdaFunction _ _ _ => .throw .RuntimeError st
    | .Function _ => .throw .RuntimeError st

/-! ## The interpreter (`scheme.cpp`) -/

/-- `Interpreter::Run` on the interpreter whose global scope is scope `0` of `st`.  `fuel`
bounds the depth of evaluation; the reader gets as much fuel as it can use. -/
def Interpreter_Run (gen : Nat → String) (fuel : Nat) (code : String) (st : State) : Res String :=
  match Tokenizer_new code.toList with
  | .error e => .throw e st
  | .ok tokenizer =>
    match Read (tokenizer.length + 1) tokenizer with
    | .error e => .throw e st
    | .ok (result, tokenizer) =>
      if !Tokenizer_IsEnd tokenizer then .throw .SyntaxError st
      else if result.isNull then .throw .RuntimeError st
      else
        (Eval gen fuel result 0 st).bind fun to_string st =>
          if to_string.isNull then .ok "()" st
          else Res.lift (Stringify to_string) st

/-- Successive calls of `Interpreter::Run` on one interpreter, each call starting in the
state that the previous one left: the outcomes of the calls and the final state. -/
def Interpreter_RunAll (gen : Nat → String) (fuel : Nat) : List String → State →
    List (Except Err String) × State
  | [], st => ([], st)
  | code :: codes, st =>
    let r := Interpreter_Run gen fuel code st
    let rest := Interpreter_RunAll gen fuel codes r.state
    (r.result :: rest.1, rest.2)

/-! ## Vocabulary of the statements

Texts, expressions and states that the theorems below speak about. -/

/-- One exact step of reading a decimal digit. -/
def digitStep (a : Int) (c : Char) : Int := a * 10 + ((c.toNat : Int) - 48)

/-- An integer or boolean literal. -/
inductive Literal where
  | int (n : Int)
  | bool (b : Bool)
  deriving DecidableEq, Repr

/-- The text of a literal: the canonical decimal text of the integer, `#t` or `#f`. -/
def Literal.text : Literal → String
  | .int n => to_string n
  | .bool b => if b then "#t" else "#f"

/-- The object that a literal denotes. -/
def Literal.value : Literal → Obj
  | .int n => .Number n
  | .bool b => .Boolean b

/-- An integer literal has to fit in `int64_t`. -/
def Literal.valid : Literal → Prop
  | .int n => isInt64 n
  | .bool _ => True

instance (l : Literal) : Decidable l.valid := by
  cases l <;> unfold Literal.valid <;> infer_instance

/-- The proper list of the given objects: `Cell(e1, Cell(e2, ... Cell(en, nullptr)))`. -/
def properList (elems : List Obj) : Obj := elems.foldr Obj.Cell .null

/-- The text of the operands `x1 ... xn` of a form, each preceded by one space, the closing
parenthesis, and whatever follows the form. -/
def operandsText (rest : List Char) : List Literal → List Char
  | [] => ')' :: rest
  | x :: xs => ' ' :: (x.text.data ++ operandsText rest xs)

/-- The text `(name x1 ... xn)`. -/
def formText (name : String) (xs : List Literal) : String :=
  String.mk ('(' :: (name.data ++ operandsText [] xs))

/-- A name that the tokenizer reads as one symbol when a space or a closing parenthesis
follows, and that is not one of the heads whose shape `ReadList` checks. -/
structure PlainSymbol (name : String) : Prop where
  token : ∀ (d : Char) (rest : List Char), d = ' ' ∨ d = ')' →
    Tokenizer_GetToken (name.data ++ d :: rest) = .ok (.SymbolToken name, 0)
  skip : ∀ rest : List Char, Tokenizer_SkipSpaces (name.data ++ rest) = name.data ++ rest
  chars : name.data.all AvailableChars = true
  notKeyword : name ≠ "if" ∧ name ≠ "define" ∧ name ≠ "set!" ∧ name ≠ "lambda"

/-- The last steps of `Interpreter::Run`: a null result prints as `()`, any other is
stringified. -/
def Run_print (r : Res Obj) : Res String :=
  r.bind fun to_string st =>
    if to_string.isNull then .ok "()" st else Res.lift (Stringify to_string) st

/-- The five comparison builtins. -/
inductive CompareOp where
  | eq | lt | gt | le | ge
  deriving DecidableEq, Repr

/-- The name of a comparison in `Symbol::k_functions`. -/
def CompareOp.name : CompareOp → String
  | .eq => "="
  | .lt => "<"
  | .gt => ">"
  | .le => "<="
  | .ge => ">="

/-- The predicate that a comparison stands for. -/
def CompareOp.holds : CompareOp → Int → Int → Prop
  | .eq => fun a b => a = b
  | .lt => fun a b => a < b
  | .gt => fun a b => a > b
  | .le => fun a b => a ≤ b
  | .ge => fun a b => a ≥ b

instance (op : CompareOp) : DecidableRel op.holds := by
  cases op <;> unfold CompareOp.holds <;> infer_instance

/-- The body `((set! x (+ x 1)) x)` of the inner lambda of `range`. -/
def counterBody : Obj :=
  .Cell (.Cell (.Symbol "set!") (.Cell (.Symbol "x")
      (.Cell (.Cell (.Symbol "+") (.Cell (.Symbol "x") (.Cell (.Number 1) .null))) .null)))
    (.Cell (.Symbol "x") .null)

/-- The heap while the counter runs: the global scope `G`, the scope `s1` of `range`, the
scope of the call `(range n)` in which `x` holds `v`, the scope of the inner lambda, the
scopes `rest` of earlier calls of the counter, and the scope of the running call. -/
def counterHeap (G s1 : Scope) (g1 : String) (v : Int) (rest : List Scope) (names : Nat) : State :=
  ⟨G :: s1 :: ⟨some 1, [("x", .Number v), (g1, .LambdaFunction 3 counterBody [])]⟩ ::
    ⟨some 2, []⟩ :: (rest ++ [⟨some 3, []⟩]), names⟩

/-- The text of the definition of `range`. -/
def rangeDef : String := "(define range (lambda (x) (lambda () (set! x (+ x 1)) x)))"

/-- The body `((lambda () (set! x (+ x 1)) x))` of `range`. -/
def rangeBody : Obj :=
  .Cell (.Cell (.Symbol "lambda") (.Cell .null counterBody)) .null

/-- The state after `rangeDef` has been run on a fresh interpreter. -/
def rangeState (gen : Nat → String) : State :=
  ⟨[⟨none, vars_assign "range" (.LambdaFunction 1 rangeBody ["x"])
      [(gen 0, .LambdaFunction 1 rangeBody ["x"])]⟩, ⟨some 0, []⟩], 1⟩

/-- The expression read from `(define r (range n))`. -/
def counterDefExpr (n : Int) : Obj :=
  .Cell (.Symbol "define") (.Cell (.Symbol "r")
    (.Cell (.Cell (.Symbol "range") (.Cell (.Number n) .null)) .null))

/-- The text `(define r (range n))`. -/
def counterDef (n : Int) : String := "(define r (range " ++ to_string n ++ "))"

/-- The state after `(define r (range n))` has been run in `rangeState`. -/
def counterState (gen : Nat → String) (n : Int) : State :=
  ⟨[⟨none, [(gen 0, .LambdaFunction 1 rangeBody ["x"]), ("range", .LambdaFunction 1 rangeBody ["x"]),
      ("r", .LambdaFunction 3 counterBody [])]⟩,
    ⟨some 0, [("x", .Number n)]⟩,
    ⟨some 1, [("x", .Number n), (gen 1, .LambdaFunction 3 counterBody [])]⟩,
    ⟨some 2, []⟩], 2⟩

/-- The state after `j` calls `(r)` made in `counterState gen n`. -/
def counterStateAfter (gen : Nat → String) (n : Int) (j : Nat) : State :=
  ⟨⟨none, [(gen 0, .LambdaFunction 1 rangeBody ["x"]), ("range", .LambdaFunction 1 rangeBody ["x"]),
      ("r", .LambdaFunction 3 counterBody [])]⟩ ::
    ⟨some 0, [("x", .Number n)]⟩ ::
    ⟨some 1, [("x", .Number (n + j)), (gen 1, .LambdaFunction 3 counterBody [])]⟩ ::
    ⟨some 2, []⟩ :: List.replicate j ⟨some 3, []⟩, 2⟩

/-- The text of the definition of `fact`. -/
def factDef : String := "(define (fact n) (if (= n 0) 1 (* n (fact (- n 1)))))"

/-- The expression `(* n (fact (- n 1)))`. -/
def factProduct : Obj :=
  .Cell (.Symbol "*") (.Cell (.Symbol "n")
    (.Cell (.Cell (.Symbol "fact")
      (.Cell (.Cell (.Symbol "-") (.Cell (.Symbol "n") (.Cell (.Number 1) .null))) .null)) .null))

/-- The body `((if (= n 0) 1 (* n (fact (- n 1)))))` of `fact`. -/
def factBody : Obj :=
  .Cell (.Cell (.Symbol "if")
    (.Cell (.Cell (.Symbol "=") (.Cell (.Symbol "n") (.Cell (.Number 0) .null)))
      (.Cell (.Number 1) (.Cell factProduct .null)))) .null

/-- The global scope once `fact` is defined. -/
def factGlobal : Scope := ⟨none, [("fact", .LambdaFunction 1 factBody ["n"])]⟩

/-- The state after `factDef` has been run on a fresh interpreter. -/
def factState : State := ⟨[factGlobal, ⟨some 0, []⟩], 0⟩

/-- The heap between calls of `fact`: the global scope, the scope of the lambda, in which `n`
is unbound or bound by an earlier call, and the scopes of earlier calls. -/
def FactInv (st : State) : Prop :=
  ∃ v1 rest, st.scopes = factGlobal :: ⟨some 0, v1⟩ :: rest ∧ (v1 = [] ∨ ∃ x, v1 = [("n", x)])

/-- The heap during a call of `fact` with argument `m`. -/
def factHeap (m : Int) (rest : List Scope) (names : Nat) : State :=
  ⟨factGlobal :: ⟨some 0, [("n", .Number m)]⟩ :: (rest ++ [⟨some 1, [("n", .Number m)]⟩]), names⟩

/-- The text `(fact n)`. -/
def factCall (n : Nat) : String := "(fact " ++ to_string (n : Int) ++ ")"

/-- The state after `(define x 100)` and `(define (f x y) y)` on a fresh interpreter. -/
def shadowState : State :=
  ⟨[⟨none, [("x", .Number 100), ("f", .LambdaFunction 1 (.Cell (.Symbol "y") .null) ["x", "y"])]⟩,
    ⟨some 0, []⟩], 0⟩

/-- The state after the call `(f 1 x)` in `shadowState`. -/
def shadowStateAfter : State :=
  ⟨[⟨none, [("x", .Number 100), ("f", .LambdaFunction 1 (.Cell (.Symbol "y") .null) ["x", "y"])]⟩,
    ⟨some 0, [("x", .Number 1), ("y", .Number 1)]⟩,
    ⟨some 1, [("x", .Number 1), ("y", .Number 1)]⟩], 0⟩

/-- The number of characters that `Next` consumes for a token. -/
def tokenLength (tok : Token) (token_len_ : Nat) : Nat :=
  match tok with
  | .SymbolToken name => name.length
  | _ => token_len_

/-- What `GetToken` can return: a `SyntaxError`, or a token for which `Next` consumes at
least one character. -/
def goodToken : Except Err (Token × Nat) → Prop
  | .error e => e = .SyntaxError
  | .ok (tok, len) => 1 ≤ tokenLength tok len

/-- What the reader can return on the tokenizer `t` when it has enough fuel: an exception
other than `OutOfFuel`, or a result together with a strictly shorter tokenizer. -/
def goodRead {α : Type} (t : Tokenizer) : Except Err (α × Tokenizer) → Prop
  | .error e => e ≠ .OutOfFuel
  | .ok (_, t2) => t2.length < t.length

/-- Evaluating the expressions `es` from left to right in the scope `scope`: the list of their
values and the state reached, or the first exception. -/
def evalOperands (E : Evaluator) (scope : Nat) : List Obj → State → Res (List Obj)
  | [], st => .ok [] st
  | e :: es, st =>
    (E e scope st).bind fun v st =>
      (evalOperands E scope es st).bind fun vs st => .ok (v :: vs) st

/-- The expression `(if c t)`. -/
def ifThen (c t : Obj) : Obj := .Cell (.Symbol "if") (.Cell c (.Cell t .null))

/-- The expression `(if c t e)`. -/
def ifThenElse (c t e : Obj) : Obj := .Cell (.Symbol "if") (.Cell c (.Cell t (.Cell e .null)))

/-- The environment chain that starts at the scope pointer `p`: `EnvChain scopes p E` says that
`E` lists the scopes reached from `p` by following `anc_scope_` up to the null pointer,
nearest first, each with its index in the heap. -/
def EnvChain (scopes : List Scope) : Option Nat → List (Nat × Scope) → Prop
  | none, [] => True
  | some i, (j, s) :: rest => i = j ∧ scopes[i]? = some s ∧ EnvChain scopes s.anc_scope_ rest
  | _, _ => False

/-- The names of the table `Symbol::k_functions`. -/
def primitiveNames : List String :=
  ["quote", "boolean?", "number?", "symbol?", "not", "abs", "=", "<", ">", "<=", ">=", "+", "*",
    "-", "/", "max", "min", "pair?", "null?", "list?", "cons", "car", "cdr", "list", "list-ref",
    "list-tail", "and", "or", "if", "define", "set!", "set-car!", "set-cdr!", "lambda"]

/-- An evaluator that never removes a scope from the heap. -/
def KeepsHeap (E : Evaluator) : Prop :=
  ∀ obj scope st, st.scopes.length ≤ (E obj scope st).state.scopes.length

/-- The value bound to `name` in the scope with index `j` of the heap, if any. -/
def binding (st : State) (j : Nat) (name : String) : Option Obj :=
  match st.scopes[j]? with
  | some s => vars_find name s.vars_
  | none => none

/-- The pointer `anc_scope_` of the scope with index `j` of the heap. -/
def parent (st : State) (j : Nat) : Option (Option Nat) :=
  match st.scopes[j]? with
  | some s => some s.anc_scope_
  | none => none

/-- The expression `(set! name expr)`. -/
def setForm (name : String) (expr : Obj) : Obj :=
  .Cell (.Symbol "set!") (.Cell (.Symbol name) (.Cell expr .null))

/-- The expression `(set-car! name c)` or, for `car = false`, `(set-cdr! name c)`. -/
def setPairForm (car : Bool) (name : String) (c : Obj) : Obj :=
  .Cell (.Symbol (if car then "set-car!" else "set-cdr!")) (.Cell (.Symbol name) (.Cell c .null))

/-- The expression `(name e)`. -/
def unaryForm (name : String) (e : Obj) : Obj := .Cell (.Symbol name) (.Cell e .null)

/-- The text `(list-tail (list x1 ... xn) k)`. -/
def listTailText (xs : List Int) (k : Int) : String :=
  String.mk ('(' :: ("list-tail".data ++ ' ' :: '(' ::
    ("list".data ++ operandsText (operandsText [] [.int k]) (xs.map Literal.int))))

/-- What the loop of `ReadList` meets between an opening parenthesis and the closing one that
matches it.  `ReadsItems R t items t2` says that from the tokenizer state `t` the loop meets
the items `items`, an expression `some e` being a place where the next token is neither `)`
nor a dot and the reader `R` returns `e`, and `none` being a dot token, then meets `)`, and
that `t2` is the state after that `)`. -/
def ReadsItems (R : Tokenizer → Except Err (Obj × Tokenizer)) :
    Tokenizer → List (Option Obj) → Tokenizer → Prop
  | t, [], t2 =>
    (∃ len, Tokenizer_GetToken t = .ok (.BracketToken .CLOSE, len)) ∧ Tokenizer_Next t = .ok t2
  | t, some e :: items, t2 =>
    (∃ tok len, Tokenizer_GetToken t = .ok (tok, len) ∧ tok ≠ .BracketToken .CLOSE ∧
        tok ≠ .DotToken) ∧
      ∃ t1, R t = .ok (e, t1) ∧ ReadsItems R t1 items t2
  | t, none :: items, t2 =>
    (∃ len, Tokenizer_GetToken t = .ok (.DotToken, len)) ∧
      ∃ t1, Tokenizer_Next t = .ok t1 ∧ ReadsItems R t1 items t2

/-- The characters that may occur in a source text: letters, digits, ASCII white space and
the characters `<=>*#/?!-+().` and the apostrophe. -/
def allowedChar (c : Char) : Prop :=
  c.isAlpha = true ∨ c.isDigit = true ∨
    c ∈ [' ', '\t', '\n', Char.ofNat 11, Char.ofNat 12, '\r'] ∨
    c ∈ ['<', '=', '>', '*', '#', '/', '?', '!', '-', '+', '(', ')', '.', Char.ofNat 39]

/-! ## Decimal digits -/

theorem digitChar_facts (j : Nat) (hj : j < 10) :
    isdigit (Nat.digitChar j) = true ∧ ((Nat.digitChar j).toNat : Int) - 48 = j ∧
      AvailableChars (Nat.digitChar j) = true ∧ isspace (Nat.digitChar j) = false := by
  interval_cases j <;> decide

theorem toDigitsCore_spec (f : Nat) : ∀ (n : Nat) (ds : List Char), n < f →
    ∃ pre, Nat.toDigitsCore 10 f n ds = pre ++ ds ∧ pre ≠ [] ∧
      (∀ c ∈ pre, ∃ j, j < 10 ∧ c = Nat.digitChar j) ∧
      (∀ a : Int, pre.foldl digitStep a = a * 10 ^ pre.length + n) := by
  induction f with
  | zero => intro n ds h; omega
  | succ f ih =>
    intro n ds h
    unfold Nat.toDigitsCore
    by_cases h0 : n / 10 = 0
    · refine ⟨[Nat.digitChar (n % 10)], by simp [h0], by simp, ?_, ?_⟩
      · intro c hc
        exact ⟨n % 10, Nat.mod_lt _ (by decide), by simpa using hc⟩
      · intro a
        have := (digitChar_facts (n % 10) (Nat.mod_lt _ (by decide))).2.1
        simp only [List.foldl, digitStep, List.length_singleton, pow_one, this]
        have : (n : Int) % 10 = n := by omega
        push_cast
        omega
    · obtain ⟨pre, hpre, _, hdig, hval⟩ := ih (n / 10) (Nat.digitChar (n % 10) :: ds) (by omega)
      refine ⟨pre ++ [Nat.digitChar (n % 10)], by simp [h0, hpre], by simp, ?_, ?_⟩
      · intro c hc
        rcases List.mem_append.1 hc with hc | hc
        · exact hdig c hc
        · exact ⟨n % 10, Nat.mod_lt _ (by decide), by simpa using hc⟩
      · intro a
        have := (digitChar_facts (n % 10) (Nat.mod_lt _ (by decide))).2.1
        simp only [List.foldl_append, List.foldl, hval, digitStep, this, List.length_append,
          List.length_singleton, pow_succ]
        push_cast
        have h2 : (n : Int) = 10 * (n / 10 : Int) + (n % 10 : Int) := by omega
        nlinarith [h2]

theorem wrap64_digitStep (a : Int) (c : Char) :
    wrap64 (digitStep (wrap64 a) c) = wrap64 (digitStep a c) := by
  unfold wrap64 digitStep; omega

theorem wrap64_of_isInt64 {x : Int} (h : isInt64 x) : wrap64 x = x := by
  unfold isInt64 at h; unfold wrap64; omega

theorem readDigits_stop (a : Int) (rest : List Char) (hrest : rest.head?.map isdigit ≠ some true) :
    readDigits a rest = a := by
  cases rest with
  | nil => rfl
  | cons c cs =>
    have : isdigit c = false := by simpa using hrest
    simp [readDigits, this]

theorem readDigits_digits (ds rest : List Char) (hds : ∀ c ∈ ds, isdigit c = true)
    (hrest : rest.head?.map isdigit ≠ some true) :
    ∀ a : Int, readDigits (wrap64 a) (ds ++ rest) = wrap64 (ds.foldl digitStep a) := by
  induction ds with
  | nil => intro a; simpa using readDigits_stop _ rest hrest
  | cons d ds ih =>
    intro a
    have hd : isdigit d = true := hds d (by simp)
    have := ih (fun c hc => hds c (by simp [hc])) (digitStep a d)
    simp only [List.cons_append, readDigits, hd, if_true, List.foldl_cons]
    rw [← this]
    congr 1
    exact wrap64_digitStep a d

theorem GetToken_digit (j : Nat) (hj : j < 10) (rest : List Char) :
    Tokenizer_GetToken (Nat.digitChar j :: rest) =
      .ok (.ConstantToken (wrap64 (readDigits (j : Int) rest * 1)),
        (to_string (wrap64 (readDigits (j : Int) rest * 1))).length) := by
  interval_cases j <;> simp [Tokenizer_GetToken, isdigit, Nat.digitChar]

theorem GetToken_minus (j : Nat) (hj : j < 10) (rest : List Char) :
    Tokenizer_GetToken ('-' :: Nat.digitChar j :: rest) =
      .ok (.ConstantToken (wrap64 (readDigits 0 (Nat.digitChar j :: rest) * -1)),
        (to_string (wrap64 (readDigits 0 (Nat.digitChar j :: rest) * -1))).length) := by
  interval_cases j <;> simp [Tokenizer_GetToken, isdigit, Nat.digitChar]

/-- The decimal digits of a natural number: a non-empty list of digit characters whose value,
read from the left, is the number. -/
theorem toDigits_spec (k : Nat) :
    ∃ j ds, j < 10 ∧ Nat.toDigits 10 k = Nat.digitChar j :: ds ∧
      (∀ c ∈ ds, isdigit c = true) ∧ ds.foldl digitStep (j : Int) = k := by
  obtain ⟨pre, hpre, hne, hdig, hval⟩ := toDigitsCore_spec (k + 1) k [] (by omega)
  cases pre with
  | nil => exact absurd rfl hne
  | cons d ds =>
    obtain ⟨j, hj, rfl⟩ := hdig d (by simp)
    refine ⟨j, ds, hj, by simpa [Nat.toDigits] using hpre, ?_, ?_⟩
    · intro c hc
      obtain ⟨i, hi, rfl⟩ := hdig c (by simp [hc])
      exact (digitChar_facts i hi).1
    · have h0 := hval 0
      simp only [List.foldl_cons, digitStep, (digitChar_facts j hj).2.1] at h0
      simpa [digitStep] using h0

theorem to_string_data (n : Int) :
    (to_string n).data = if n < 0 then '-' :: Nat.toDigits 10 n.natAbs else Nat.toDigits 10 n.natAbs := by
  unfold to_string
  split <;> rfl

/-- Lexing the canonical decimal text of a 64-bit integer gives back that integer. -/
theorem GetToken_to_string (n : Int) (hn : isInt64 n) (rest : List Char)
    (hrest : rest.head?.map isdigit ≠ some true) :
    Tokenizer_GetToken ((to_string n).data ++ rest) =
      .ok (.ConstantToken n, (to_string n).length) := by
  obtain ⟨j, ds, hj, hds, hdig, hval⟩ := toDigits_spec n.natAbs
  have hr := readDigits_digits ds rest hdig hrest
  unfold isInt64 at hn
  rw [to_string_data]
  by_cases hneg : n < 0
  · have hrd : readDigits 0 (Nat.digitChar j :: (ds ++ rest)) = wrap64 (n.natAbs : Int) := by
      have h1 := hr (digitStep 0 (Nat.digitChar j))
      have h2 : digitStep 0 (Nat.digitChar j) = (j : Int) := by
        simp [digitStep, (digitChar_facts j hj).2.1]
      rw [h2, hval] at h1
      simp only [readDigits, (digitChar_facts j hj).1, if_true]
      have h3 := (digitChar_facts j hj).2.1
      rw [← h1, show (0 : Int) * 10 + (((Nat.digitChar j).toNat : Int) - 48) = (j : Int) by omega]
    have hv : wrap64 (wrap64 (n.natAbs : Int) * -1) = n := by
      unfold wrap64; omega
    simp only [hneg, if_true, hds, List.cons_append]
    rw [GetToken_minus j hj, hrd, hv]
  · have hrd : readDigits (j : Int) (ds ++ rest) = wrap64 (n.natAbs : Int) := by
      have h1 := hr (j : Int)
      rw [hval] at h1
      rw [← h1, wrap64_of_isInt64]
      unfold isInt64; omega
    have hv : wrap64 (wrap64 (n.natAbs : Int) * 1) = n := by
      unfold wrap64; omega
    simp only [hneg, if_false, hds, List.cons_append]
    rw [GetToken_digit j hj, hrd, hv]

theorem to_string_chars (n : Int) :
    ∃ c cs, (to_string n).data = c :: cs ∧ isspace c = false ∧
      (c :: cs).all AvailableChars = true := by
  obtain ⟨j, ds, hj, hds, hdig, -⟩ := toDigits_spec n.natAbs
  obtain ⟨pre, hpre, -, hall, -⟩ := toDigitsCore_spec (n.natAbs + 1) n.natAbs [] (by omega)
  have hav : (Nat.toDigits 10 n.natAbs).all AvailableChars = true := by
    rw [List.all_eq_true]
    intro c hc
    have hc2 : c ∈ pre := by simpa [Nat.toDigits, hpre] using hc
    obtain ⟨i, hi, rfl⟩ := hall c hc2
    exact (digitChar_facts i hi).2.2.1
  rw [to_string_data]
  by_cases hneg : n < 0
  · refine ⟨'-', Nat.toDigits 10 n.natAbs, by simp [hneg], by decide, ?_⟩
    rw [List.all_cons, hav]
    decide
  · refine ⟨Nat.digitChar j, ds, by simp [hneg, hds], (digitChar_facts j hj).2.2.2, ?_⟩
    rw [← hds]
    exact hav

theorem Tokenizer_new_to_string (n : Int) :
    Tokenizer_new (to_string n).data = .ok (to_string n).data := by
  obtain ⟨c, cs, h, hsp, hall⟩ := to_string_chars n
  simp [Tokenizer_new, h, hall, Tokenizer_SkipSpaces, hsp]

theorem Next_to_string (n : Int) (hn : isInt64 n) (rest : List Char)
    (hrest : rest.head?.map isdigit ≠ some true) :
    Tokenizer_Next ((to_string n).data ++ rest) = .ok (Tokenizer_SkipSpaces rest) := by
  have hlen : (to_string n).length = (to_string n).data.length := rfl
  simp only [Tokenizer_Next, GetToken_to_string n hn rest hrest, hlen, List.drop_left]

/-- Reading the canonical decimal text of a 64-bit integer, followed by anything that does
not start with a digit, gives the number and leaves the rest without its leading spaces. -/
theorem Read_to_string (n : Int) (hn : isInt64 n) (rest : List Char)
    (hrest : rest.head?.map isdigit ≠ some true) (fuel : Nat) :
    Read (fuel + 1) ((to_string n).data ++ rest) = .ok (.Number n, Tokenizer_SkipSpaces rest) := by
  obtain ⟨c, cs, h, -, -⟩ := to_string_chars n
  have hne : Tokenizer_IsEnd ((to_string n).data ++ rest) = false := by
    simp [Tokenizer_IsEnd, h]
  simp [Read, hne, GetToken_to_string n hn rest hrest, Next_to_string n hn rest hrest]

/-- C1. Atoms are self-evaluating: for every 64-bit integer `n`, running the canonical
decimal text of `n` returns that text, `#t` returns `#t` and `#f` returns `#f`; the state of
the interpreter, hence its global environment, is left as it was. -/
theorem atoms_self_evaluating (gen : Nat → String) (fuel : Nat) (st : State) (hfuel : 0 < fuel) :
    (∀ n : Int, isInt64 n → Interpreter_Run gen fuel (to_string n) st = .ok (to_string n) st) ∧
    Interpreter_Run gen fuel "#t" st = .ok "#t" st ∧
    Interpreter_Run gen fuel "#f" st = .ok "#f" st := by
  obtain ⟨f, rfl⟩ : ∃ f, fuel = f + 1 := ⟨fuel - 1, by omega⟩
  refine ⟨?_, rfl, rfl⟩
  intro n hn
  have hread := Read_to_string n hn [] (by simp) (to_string n).length
  rw [List.append_nil] at hread
  simp [Interpreter_Run, Tokenizer_new_to_string, hread, Tokenizer_SkipSpaces, Tokenizer_IsEnd,
    Obj.isNull, Eval, Res.bind, Res.lift, Stringify, Stringify_aux, Stringify_atom]

/-- C1 (instance). The text `-42` on a fresh interpreter with one unit of fuel. -/
theorem atoms_self_evaluating_witness :
    Interpreter_Run (fun _ => "aaaaaaaaaa") 1 "-42" State.init = .ok "-42" State.init := by
  have h := (atoms_self_evaluating (fun _ => "aaaaaaaaaa") 1 State.init (by decide)).1 (-42) (by decide)
  rwa [show to_string (-42) = "-42" by decide] at h

/-! ## Stepping the reader -/

theorem SkipSpaces_to_string (n : Int) (rest : List Char) :
    Tokenizer_SkipSpaces ((to_string n).data ++ rest) = (to_string n).data ++ rest := by
  obtain ⟨c, cs, h, hsp, -⟩ := to_string_chars n
  simp [h, Tokenizer_SkipSpaces, hsp]

theorem all_to_string (n : Int) : (to_string n).data.all AvailableChars = true := by
  obtain ⟨c, cs, h, -, hall⟩ := to_string_chars n
  rw [h]; exact hall

theorem Read_Constant (f : Nat) (t t2 : Tokenizer) (v : Int) (l : Nat)
    (hg : Tokenizer_GetToken t = .ok (.ConstantToken v, l)) (hn : Tokenizer_Next t = .ok t2) :
    Read (f + 1) t = .ok (.Number v, t2) := by
  cases t with
  | nil => simp [Tokenizer_GetToken] at hg
  | cons c cs => simp only [Read, Tokenizer_IsEnd, List.isEmpty_cons, hg, hn]; rfl

theorem Read_Boolean (f : Nat) (t t2 : Tokenizer) (v : Bool) (l : Nat)
    (hg : Tokenizer_GetToken t = .ok (.BooleanToken v, l)) (hn : Tokenizer_Next t = .ok t2) :
    Read (f + 1) t = .ok (.Boolean v, t2) := by
  cases t with
  | nil => simp [Tokenizer_GetToken] at hg
  | cons c cs => simp only [Read, Tokenizer_IsEnd, List.isEmpty_cons, hg, hn]; rfl

theorem Read_Symbol (f : Nat) (t t2 : Tokenizer) (v : String) (l : Nat)
    (hg : Tokenizer_GetToken t = .ok (.SymbolToken v, l)) (hn : Tokenizer_Next t = .ok t2) :
    Read (f + 1) t = .ok (.Symbol v, t2) := by
  cases t with
  | nil => simp [Tokenizer_GetToken] at hg
  | cons c cs => simp only [Read, Tokenizer_IsEnd, List.isEmpty_cons, hg, hn]; rfl

theorem Read_OPEN (f : Nat) (rest : List Char) :
    Read (f + 1) ('(' :: rest) = ReadList (Read f) f (Tokenizer_SkipSpaces rest) := by
  have hg : Tokenizer_GetToken ('(' :: rest) = .ok (.BracketToken .OPEN, 1) := rfl
  have hn : Tokenizer_Next ('(' :: rest) = .ok (Tokenizer_SkipSpaces rest) := rfl
  simp only [Read, Tokenizer_IsEnd, List.isEmpty_cons, hg, hn]
  rfl

theorem ReadList_loop_CLOSE (R : Tokenizer → Except Err (Obj × Tokenizer)) (g : Nat)
    (v : ReadListVars) (rest : List Char) :
    ReadList_loop R (g + 1) v (')' :: rest) = .ok (v, Tokenizer_SkipSpaces rest) := by
  have hg : Tokenizer_GetToken (')' :: rest) = .ok (.BracketToken .CLOSE, 1) := rfl
  have hn : Tokenizer_Next (')' :: rest) = .ok (Tokenizer_SkipSpaces rest) := rfl
  simp only [ReadList_loop, Tokenizer_IsEnd, List.isEmpty_cons, hg, hn]
  rfl

theorem ReadList_loop_elem (R : Tokenizer → Except Err (Obj × Tokenizer)) (g : Nat)
    (v : ReadListVars) (t t2 : Tokenizer) (tok : Token) (l : Nat) (obj : Obj)
    (hg : Tokenizer_GetToken t = .ok (tok, l)) (h1 : tok ≠ .BracketToken .CLOSE)
    (h2 : tok ≠ .DotToken) (hr : R t = .ok (obj, t2)) :
    ReadList_loop R (g + 1) v t =
      ReadList_loop R g ⟨v.list ++ [obj], v.number_of_dots, v.dot_pos, v.curr_pos + 1⟩ t2 := by
  cases t with
  | nil => simp [Tokenizer_GetToken] at hg
  | cons c cs =>
    simp only [ReadList_loop, Tokenizer_IsEnd, List.isEmpty_cons, hg, hr, h1, h2]
    rfl

/-- A list element that is the canonical text of a 64-bit integer. -/
theorem ReadList_loop_to_string (f g : Nat) (v : ReadListVars) (n : Int) (hn : isInt64 n)
    (rest : List Char) (hrest : rest.head?.map isdigit ≠ some true) :
    ReadList_loop (Read (f + 1)) (g + 1) v ((to_string n).data ++ rest) =
      ReadList_loop (Read (f + 1)) g
        ⟨v.list ++ [.Number n], v.number_of_dots, v.dot_pos, v.curr_pos + 1⟩
        (Tokenizer_SkipSpaces rest) :=
  ReadList_loop_elem _ g v _ _ _ _ _ (GetToken_to_string n hn rest hrest) (by simp) (by simp)
    (Read_to_string n hn rest hrest f)

theorem Read_op_number (c : Char) (hc : c = '+' ∨ c = '*') (n : Int) (hn : isInt64 n) (f : Nat) :
    Read (f + 4) ('(' :: c :: ' ' :: ((to_string n).data ++ [')'])) =
      .ok (.Cell (.Symbol (String.mk [c])) (.Cell (.Number n) .null), []) := by
  have hg : Tokenizer_GetToken (c :: ' ' :: ((to_string n).data ++ [')'])) =
      .ok (.SymbolToken (String.mk [c]), 0) := by
    rcases hc with rfl | rfl <;> rfl
  have hn2 : Tokenizer_Next (c :: ' ' :: ((to_string n).data ++ [')'])) =
      .ok (Tokenizer_SkipSpaces ((to_string n).data ++ [')'])) := by
    rcases hc with rfl | rfl <;> rfl
  have hs : Tokenizer_SkipSpaces (c :: ' ' :: ((to_string n).data ++ [')'])) =
      c :: ' ' :: ((to_string n).data ++ [')']) := by
    rcases hc with rfl | rfl <;> rfl
  have hs2 : Tokenizer_SkipSpaces [')'] = [')'] := rfl
  rw [Read_OPEN, ReadList, hs,
    ReadList_loop_elem _ _ _ _ _ _ _ _ hg (by simp) (by simp) (Read_Symbol _ _ _ _ _ hg hn2),
    SkipSpaces_to_string, ReadList_loop_to_string _ _ _ n hn [')'] (by decide), hs2,
    ReadList_loop_CLOSE]
  rcases hc with rfl | rfl <;> rfl

theorem Tokenizer_new_op_number (c : Char) (hc : c = '+' ∨ c = '*') (n : Int) :
    Tokenizer_new ('(' :: c :: ' ' :: ((to_string n).data ++ [')'])) =
      .ok ('(' :: c :: ' ' :: ((to_string n).data ++ [')'])) := by
  have h := all_to_string n
  rw [List.all_eq_true] at h
  have hall : ('(' :: c :: ' ' :: ((to_string n).data ++ [')'])).all AvailableChars = true := by
    rw [List.all_eq_true]
    intro x hx
    simp only [List.mem_cons, List.mem_append, List.mem_singleton] at hx
    rcases hx with rfl | rfl | rfl | hx | hx
    · decide
    · rcases hc with rfl | rfl <;> decide
    · decide
    · exact h x hx
    · simp at hx; subst hx; decide
  simp only [Tokenizer_new, hall, if_true]
  rfl

/-- C10. Arithmetic identity: `(+)` is `0`, `(*)` is `1`, and for every 64-bit integer `n`
both `(+ n)` and `(* n)` return the decimal text of `n`. -/
theorem arithmetic_identity (gen : Nat → String) (fuel : Nat) (st : State) (hfuel : 2 ≤ fuel) :
    Interpreter_Run gen fuel "(+)" st = .ok "0" st ∧
    Interpreter_Run gen fuel "(*)" st = .ok "1" st ∧
    (∀ n : Int, isInt64 n →
      Interpreter_Run gen fuel ("(+ " ++ to_string n ++ ")") st = .ok (to_string n) st ∧
      Interpreter_Run gen fuel ("(* " ++ to_string n ++ ")") st = .ok (to_string n) st) := by
  obtain ⟨f, rfl⟩ : ∃ f, fuel = f + 2 := ⟨fuel - 2, by omega⟩
  refine ⟨rfl, rfl, ?_⟩
  intro n hn
  have key : ∀ c : Char, c = '+' ∨ c = '*' →
      Interpreter_Run gen (f + 2) (String.mk ('(' :: c :: ' ' :: ((to_string n).data ++ [')']))) st =
        .ok (to_string n) st := by
    intro c hc
    have hlen : ('(' :: c :: ' ' :: ((to_string n).data ++ [')'])).length + 1 =
        (to_string n).data.length + 1 + 4 := by
      simp only [List.length_cons, List.length_append, List.length_nil]
    have hk : k_functions (String.mk [c]) = some .Plus ∨ k_functions (String.mk [c]) = some .Prod := by
      rcases hc with rfl | rfl
      · exact Or.inl (by decide)
      · exact Or.inr (by decide)
    simp only [Interpreter_Run, String.toList, Tokenizer_new_op_number c hc n, hlen,
      Read_op_number c hc n hn]
    rcases hk with hk | hk <;>
      simp [Tokenizer_IsEnd, Obj.isNull, Eval, Cell_Eval, Symbol_Eval, hk, Res.bind, Res.lift,
        Obj.isLambdaFunction, Object_Apply, Function_Apply, AccumulateNumbers_Apply, MakeVector,
        MakeVector_loop, Obj.isNumber, AccumulateNumbers_loop, Obj.GetValue, Stringify,
        Stringify_aux, Stringify_atom]
  exact ⟨key '+' (Or.inl rfl), key '*' (Or.inr rfl)⟩

/-- C10 (instance). `(* -7)` returns `-7` on a fresh interpreter. -/
theorem arithmetic_identity_witness :
    Interpreter_Run (fun _ => "aaaaaaaaaa") 2 "(* -7)" State.init = .ok "-7" State.init := by
  have h := ((arithmetic_identity (fun _ => "aaaaaaaaaa") 2 State.init (by decide)).2.2 (-7)
    (by decide)).2
  rwa [show to_string (-7) = "-7" by decide] at h

/-! ## The reader always has enough fuel -/

theorem SkipSpaces_length (t : Tokenizer) : (Tokenizer_SkipSpaces t).length ≤ t.length := by
  induction t with
  | nil => simp [Tokenizer_SkipSpaces]
  | cons c cs ih =>
    simp only [Tokenizer_SkipSpaces]
    split
    · simp only [List.length_cons]; omega
    · exact Nat.le_refl _

theorem to_string_length_pos (v : Int) : 1 ≤ (to_string v).length := by
  obtain ⟨c, cs, h, -, -⟩ := to_string_chars v
  have : (to_string v).length = (to_string v).data.length := rfl
  rw [this, h]
  simp

theorem GetToken_good (t : Tokenizer) : goodToken (Tokenizer_GetToken t) := by
  cases t with
  | nil => rfl
  | cons curr rest =>
    simp only [Tokenizer_GetToken]
    repeat' split
    all_goals first
      | rfl
      | exact Nat.le_refl 1
      | exact Nat.le_succ 1
      | exact Nat.le_trans (to_string_length_pos _) (Nat.le_add_left _ _)
      | simp [goodToken, tokenLength, String.length]

theorem Next_eq (t : Tokenizer) (tok : Token) (len : Nat)
    (h : Tokenizer_GetToken t = .ok (tok, len)) :
    Tokenizer_Next t = .ok (Tokenizer_SkipSpaces (t.drop (tokenLength tok len))) := by
  unfold Tokenizer_Next
  rw [h]
  cases tok <;> rfl

theorem Next_error (t : Tokenizer) (e : Err) (h : Tokenizer_GetToken t = .error e) :
    Tokenizer_Next t = .error .SyntaxError := by
  have hg := GetToken_good t
  rw [h] at hg
  unfold Tokenizer_Next
  rw [h]
  simp only [goodToken] at hg
  rw [hg]

theorem Next_length (t t2 : Tokenizer) (h : Tokenizer_Next t = .ok t2) :
    t2.length < t.length := by
  have hg := GetToken_good t
  cases hgt : Tokenizer_GetToken t with
  | error e => rw [Next_error t e hgt] at h; simp at h
  | ok p =>
    obtain ⟨tok, len⟩ := p
    rw [hgt] at hg
    simp only [goodToken] at hg
    rw [Next_eq t tok len hgt] at h
    simp only [Except.ok.injEq] at h
    subst h
    have h1 := SkipSpaces_length (t.drop (tokenLength tok len))
    have h2 : t ≠ [] := by
      rintro rfl
      simp [Tokenizer_GetToken] at hgt
    have h3 : 0 < t.length := List.length_pos.2 h2
    rw [List.length_drop] at h1
    omega

theorem Next_not_OutOfFuel (t : Tokenizer) : Tokenizer_Next t ≠ .error .OutOfFuel := by
  cases hgt : Tokenizer_GetToken t with
  | error e => rw [Next_error t e hgt]; simp
  | ok p => rw [Next_eq t p.1 p.2 hgt]; simp

theorem GetToken_not_OutOfFuel (t : Tokenizer) : Tokenizer_GetToken t ≠ .error .OutOfFuel := by
  have hg := GetToken_good t
  intro h
  rw [h] at hg
  simp [goodToken] at hg

theorem ReadList_build_good (v : ReadListVars) : ReadList_build v ≠ .error .OutOfFuel := by
  intro h
  simp only [ReadList_build] at h
  repeat' split at h
  all_goals simp at h

theorem goodRead_mono {α : Type} {t t2 : Tokenizer} (h : t2.length ≤ t.length)
    (r : Except Err (α × Tokenizer)) (hr : goodRead t2 r) : goodRead t r := by
  cases r with
  | error e => exact hr
  | ok p =>
    obtain ⟨a, t3⟩ := p
    simp only [goodRead] at hr ⊢
    omega

theorem ReadList_loop_good (R : Tokenizer → Except Err (Obj × Tokenizer)) :
    ∀ (g : Nat) (v : ReadListVars) (t : Tokenizer), t.length < g →
      (∀ t2 : Tokenizer, t2.length ≤ t.length → goodRead t2 (R t2)) →
      goodRead t (ReadList_loop R g v t) := by
  intro g
  induction g with
  | zero => intro v t h; omega
  | succ g ih =>
    intro v t hlt hR
    simp only [ReadList_loop]
    by_cases hend : Tokenizer_IsEnd t = true
    · simp [hend, goodRead]
    · simp only [hend, Bool.false_eq_true, if_false]
      cases hgt : Tokenizer_GetToken t with
      | error e =>
        have := GetToken_not_OutOfFuel t
        rw [hgt] at this
        simpa [goodRead] using this
      | ok p =>
        obtain ⟨tok, len⟩ := p
        simp only
        have hnext : ∀ k : Tokenizer → Except Err (ReadListVars × Tokenizer),
            (∀ t2, t2.length < t.length → goodRead t (k t2)) →
            goodRead t (match Tokenizer_Next t with
              | .error e => .error e
              | .ok tokenizer => k tokenizer) := by
          intro k hk
          cases hn : Tokenizer_Next t with
          | error e =>
            have := Next_not_OutOfFuel t
            rw [hn] at this
            simpa [goodRead] using this
          | ok t2 => exact hk t2 (Next_length t t2 hn)
        by_cases hc : tok = .BracketToken .CLOSE
        · simp only [hc, if_true]
          exact hnext _ (fun t2 h2 => by simpa [goodRead] using h2)
        · simp only [hc, if_false]
          by_cases hd : tok = .DotToken
          · simp only [hd, if_true]
            by_cases hdots : v.number_of_dots + 1 > 1
            · simp [hdots, goodRead]
            · simp only [hdots, if_false]
              refine hnext _ (fun t2 h2 => ?_)
              exact goodRead_mono (Nat.le_of_lt h2) _
                (ih _ t2 (by omega) (fun t3 h3 => hR t3 (by omega)))
          · simp only [hd, if_false]
            have hr := hR t (Nat.le_refl _)
            cases hrt : R t with
            | error e =>
              rw [hrt] at hr
              simpa [goodRead] using hr
            | ok q =>
              obtain ⟨obj, t2⟩ := q
              rw [hrt] at hr
              simp only [goodRead] at hr
              simp only
              exact goodRead_mono (Nat.le_of_lt hr) _
                (ih _ t2 (by omega) (fun t3 h3 => hR t3 (by omega)))

theorem ReadList_good (R : Tokenizer → Except Err (Obj × Tokenizer)) (g : Nat) (t : Tokenizer)
    (hlt : t.length < g) (hR : ∀ t2 : Tokenizer, t2.length ≤ t.length → goodRead t2 (R t2)) :
    goodRead t (ReadList R g t) := by
  have hl := ReadList_loop_good R g ⟨[], 0, 0, 0⟩ t hlt hR
  unfold ReadList
  cases hloop : ReadList_loop R g ⟨[], 0, 0, 0⟩ t with
  | error e => rw [hloop] at hl; exact hl
  | ok p =>
    obtain ⟨v, t2⟩ := p
    rw [hloop] at hl
    simp only [goodRead] at hl
    simp only
    cases hb : ReadList_build v with
    | error e =>
      have := ReadList_build_good v
      rw [hb] at this
      simpa [goodRead] using this
    | ok obj => simpa [goodRead] using hl

/-- With more fuel than characters left, `Read` does not run out of fuel, and what it returns
comes with a strictly shorter tokenizer. -/
theorem Read_good : ∀ (fuel : Nat) (t : Tokenizer), t.length < fuel → goodRead t (Read fuel t) := by
  intro fuel
  induction fuel with
  | zero => intro t h; omega
  | succ f ih =>
    intro t hlt
    simp only [Read]
    by_cases hend : Tokenizer_IsEnd t = true
    · simp [hend, goodRead]
    · simp only [hend, Bool.false_eq_true, if_false]
      cases hgt : Tokenizer_GetToken t with
      | error e =>
        have := GetToken_not_OutOfFuel t
        rw [hgt] at this
        simpa [goodRead] using this
      | ok p =>
        obtain ⟨tok, len⟩ := p
        simp only
        cases hn : Tokenizer_Next t with
        | error e =>
          have := Next_not_OutOfFuel t
          rw [hn] at this
          simpa [goodRead] using this
        | ok t1 =>
          have h1 := Next_length t t1 hn
          have hlist : ∀ t2 : Tokenizer, t2.length ≤ t1.length →
              goodRead t (ReadList (Read f) f t2) := by
            intro t2 h2
            exact goodRead_mono (by omega) _
              (ReadList_good (Read f) f t2 (by omega) (fun t3 h3 => ih t3 (by omega)))
          simp only
          cases tok with
          | ConstantToken v => simpa [goodRead] using h1
          | BooleanToken v => simpa [goodRead] using h1
          | SymbolToken v => simpa [goodRead] using h1
          | DotToken => simp [goodRead]
          | BracketToken x =>
            by_cases hx : x = .OPEN
            · simp only [hx, ne_eq, not_true_eq_false, if_false]
              exact hlist t1 (Nat.le_refl _)
            · simp [hx, goodRead]
          | QuoteToken =>
            simp only
            by_cases hend1 : Tokenizer_IsEnd t1 = true
            · simp [hend1, goodRead]
            · simp only [hend1, Bool.false_eq_true, if_false]
              cases hgt1 : Tokenizer_GetToken t1 with
              | error e =>
                have := GetToken_not_OutOfFuel t1
                rw [hgt1] at this
                simpa [goodRead] using this
              | ok p1 =>
                obtain ⟨tok1, len1⟩ := p1
                have hrec : goodRead t (match Read f t1 with
                    | .error e => .error e
                    | .ok (obj, tokenizer) => .ok (Obj.Cell (.Symbol "quote") obj, tokenizer)) := by
                  have hr := ih t1 (by omega)
                  cases hrt : Read f t1 with
                  | error e => rw [hrt] at hr; simpa [goodRead] using hr
                  | ok q =>
                    obtain ⟨obj, t2⟩ := q
                    rw [hrt] at hr
                    simp only [goodRead] at hr ⊢
                    omega
                cases tok1 with
                | BracketToken x =>
                  simp only
                  by_cases hx : x = .OPEN
                  · simp only [hx, ne_eq, not_true_eq_false, if_false]
                    cases hn1 : Tokenizer_Next t1 with
                    | error e =>
                      have := Next_not_OutOfFuel t1
                      rw [hn1] at this
                      simpa [goodRead] using this
                    | ok t2 =>
                      have h2 := Next_length t1 t2 hn1
                      have hl := hlist t2 (by omega)
                      simp only
                      cases hrl : ReadList (Read f) f t2 with
                      | error e => rw [hrl] at hl; simpa [goodRead] using hl
                      | ok q =>
                        obtain ⟨list, t3⟩ := q
                        rw [hrl] at hl
                        simp only [goodRead] at hl
                        simp only
                        split <;> simpa [goodRead] using hl
                  · simp [hx, goodRead]
                | ConstantToken v => exact hrec
                | BooleanToken v => exact hrec
                | SymbolToken v => exact hrec
                | DotToken => exact hrec
                | QuoteToken => exact hrec

/-- The reader in `Interpreter_Run` never runs out of fuel. -/
theorem Read_fuel_enough (t : Tokenizer) : Read (t.length + 1) t ≠ .error .OutOfFuel := by
  have h := Read_good (t.length + 1) t (by omega)
  intro hc
  rw [hc] at h
  simp [goodRead] at h

/-! ## Forms whose operands are literals -/

theorem SkipSpaces_literal (l : Literal) (rest : List Char) :
    Tokenizer_SkipSpaces (l.text.data ++ rest) = l.text.data ++ rest := by
  cases l with
  | int n => exact SkipSpaces_to_string n rest
  | bool b => cases b <;> rfl

theorem all_literal (l : Literal) : l.text.data.all AvailableChars = true := by
  cases l with
  | int n => exact all_to_string n
  | bool b => cases b <;> decide

theorem GetToken_literal (l : Literal) (hl : l.valid) (rest : List Char)
    (hrest : rest.head?.map isdigit ≠ some true) :
    ∃ tok len, Tokenizer_GetToken (l.text.data ++ rest) = .ok (tok, len) ∧
      tok ≠ .BracketToken .CLOSE ∧ tok ≠ .DotToken := by
  cases l with
  | int n => exact ⟨_, _, GetToken_to_string n hl rest hrest, by simp, by simp⟩
  | bool b => cases b <;> exact ⟨_, _, rfl, by simp, by simp⟩

/-- Reading a literal, followed by anything that does not start with a digit, gives its value
and leaves the rest without its leading spaces. -/
theorem Read_literal (l : Literal) (hl : l.valid) (rest : List Char)
    (hrest : rest.head?.map isdigit ≠ some true) (f : Nat) :
    Read (f + 1) (l.text.data ++ rest) = .ok (l.value, Tokenizer_SkipSpaces rest) := by
  cases l with
  | int n => exact Read_to_string n hl rest hrest f
  | bool b => cases b <;> exact Read_Boolean _ _ _ _ _ rfl rfl

theorem ReadList_loop_literal (f g : Nat) (v : ReadListVars) (l : Literal) (hl : l.valid)
    (rest : List Char) (hrest : rest.head?.map isdigit ≠ some true) :
    ReadList_loop (Read (f + 1)) (g + 1) v (l.text.data ++ rest) =
      ReadList_loop (Read (f + 1)) g
        ⟨v.list ++ [l.value], v.number_of_dots, v.dot_pos, v.curr_pos + 1⟩
        (Tokenizer_SkipSpaces rest) := by
  obtain ⟨tok, len, hg, h1, h2⟩ := GetToken_literal l hl rest hrest
  exact ReadList_loop_elem _ g v _ _ _ _ _ hg h1 h2 (Read_literal l hl rest hrest f)

theorem operandsText_head (rest : List Char) (xs : List Literal) :
    (operandsText rest xs).head?.map isdigit ≠ some true := by
  cases xs <;> simp [operandsText] <;> decide

theorem operandsText_all (rest : List Char) (hrest : rest.all AvailableChars = true)
    (xs : List Literal) : (operandsText rest xs).all AvailableChars = true := by
  induction xs with
  | nil => simp only [operandsText, List.all_cons, hrest]; decide
  | cons x xs ih =>
    simp only [operandsText, List.all_cons, List.all_append, all_literal, ih]
    decide

theorem operandsText_length (rest : List Char) (xs : List Literal) :
    xs.length + 1 ≤ (operandsText rest xs).length := by
  induction xs with
  | nil => simp [operandsText]
  | cons x xs ih => simp only [operandsText, List.length_cons, List.length_append]; omega

theorem ReadList_loop_operands (f : Nat) (rest : List Char) :
    ∀ (xs : List Literal), (∀ x ∈ xs, x.valid) →
    ∀ (g : Nat) (v : ReadListVars), xs.length + 1 ≤ g →
    ReadList_loop (Read (f + 1)) g v (Tokenizer_SkipSpaces (operandsText rest xs)) =
      .ok (⟨v.list ++ xs.map Literal.value, v.number_of_dots, v.dot_pos, v.curr_pos + xs.length⟩,
        Tokenizer_SkipSpaces rest) := by
  intro xs
  induction xs with
  | nil =>
    intro _ g v hg
    obtain ⟨g, rfl⟩ : ∃ k, g = k + 1 := ⟨g - 1, by simp at hg; omega⟩
    have hs : Tokenizer_SkipSpaces (operandsText rest []) = ')' :: rest := rfl
    rw [hs, ReadList_loop_CLOSE]
    simp
  | cons x xs ih =>
    intro hx g v hg
    obtain ⟨g, rfl⟩ : ∃ k, g = k + 1 := ⟨g - 1, by simp at hg; omega⟩
    have hs : Tokenizer_SkipSpaces (operandsText rest (x :: xs)) =
        x.text.data ++ operandsText rest xs := by
      simp only [operandsText, Tokenizer_SkipSpaces]
      rw [show isspace ' ' = true by decide, if_pos rfl, SkipSpaces_literal]
    rw [hs, ReadList_loop_literal f g v x (hx x (by simp)) _ (operandsText_head rest xs),
      ih (fun y hy => hx y (by simp [hy])) g _ (by simp at hg ⊢; omega)]
    simp only [List.map_cons, List.append_assoc, List.singleton_append, List.length_cons]
    congr 3
    omega

theorem build_properList (elem : Obj) (elems : List Obj) :
    ((elem :: elems).take ((elem :: elems).length - 1)).foldr Obj.Cell
      (.Cell ((elem :: elems).getD ((elem :: elems).length - 1) .null) .null) =
      properList (elem :: elems) := by
  induction elems generalizing elem with
  | nil => rfl
  | cons e es ih =>
    have := ih e
    simp only [List.length_cons, Nat.add_sub_cancel, properList, List.foldr_cons] at this ⊢
    rw [List.take_succ_cons, List.foldr_cons, List.getD_cons_succ, this]

theorem operandsText_cases (rest : List Char) (xs : List Literal) :
    ∃ d tail, operandsText rest xs = d :: tail ∧ (d = ' ' ∨ d = ')') := by
  cases xs with
  | nil => exact ⟨')', rest, rfl, Or.inr rfl⟩
  | cons x xs => exact ⟨' ', _, rfl, Or.inl rfl⟩

theorem Next_PlainSymbol {name : String} (h : PlainSymbol name) (d : Char) (rest : List Char)
    (hd : d = ' ' ∨ d = ')') :
    Tokenizer_Next (name.data ++ d :: rest) = .ok (Tokenizer_SkipSpaces (d :: rest)) := by
  have hlen : name.length = name.data.length := rfl
  simp only [Tokenizer_Next, h.token d rest hd, hlen, List.drop_left]

/-- Reading `(name x1 ... xn)` gives the proper list of the symbol and the values of the
literals, and leaves what follows the form without its leading spaces. -/
theorem Read_form {name : String} (h : PlainSymbol name) (xs : List Literal)
    (hxs : ∀ x ∈ xs, x.valid) (rest : List Char) (f : Nat) (hf : xs.length + 3 ≤ f) :
    Read f ('(' :: (name.data ++ operandsText rest xs)) =
      .ok (.Cell (.Symbol name) (properList (xs.map Literal.value)), Tokenizer_SkipSpaces rest) := by
  obtain ⟨f, rfl⟩ : ∃ k, f = k + 2 := ⟨f - 2, by omega⟩
  obtain ⟨d, tail, hd, hd2⟩ := operandsText_cases rest xs
  have hr : Read (f + 1) (name.data ++ operandsText rest xs) =
      .ok (.Symbol name, Tokenizer_SkipSpaces (operandsText rest xs)) := by
    rw [hd]
    exact Read_Symbol _ _ _ _ _ (h.token d tail hd2) (Next_PlainSymbol h d tail hd2)
  have hg : Tokenizer_GetToken (name.data ++ operandsText rest xs) = .ok (.SymbolToken name, 0) := by
    rw [hd]; exact h.token d tail hd2
  rw [Read_OPEN, ReadList, h.skip,
    ReadList_loop_elem _ _ _ _ _ _ _ _ hg (by simp) (by simp) hr,
    ReadList_loop_operands f rest xs hxs f _ (by omega)]
  obtain ⟨h1, h2, h3, h4⟩ := h.notKeyword
  have hb := build_properList (.Symbol name) (xs.map Literal.value)
  simp only [List.nil_append, List.singleton_append] at hb ⊢
  simp only [ReadList_build, List.isEmpty_cons, List.head?_cons, h1, h2, h3, h4, hb,
    decide_False, Bool.false_and, Bool.false_or, if_true, if_false, Bool.false_eq_true]
  rfl

/-- `Interpreter::Run` on a text that passes the pre-scan and reads as one non-null
expression evaluates that expression in the global scope and prints the result. -/
theorem Run_of_Read (gen : Nat → String) (fuel : Nat) (code : String) (st : State) (result : Obj)
    (hall : code.data.all AvailableChars = true)
    (hread : Read ((Tokenizer_SkipSpaces code.data).length + 1) (Tokenizer_SkipSpaces code.data) =
      .ok (result, []))
    (hres : result.isNull = false) :
    Interpreter_Run gen fuel code st = Run_print (Eval gen fuel result 0 st) := by
  simp only [Interpreter_Run, String.toList, Tokenizer_new, hall, if_true, hread, hres]
  rfl

/-- Running `(name x1 ... xn)` evaluates the list that `Read_form` describes and prints the
result. -/
theorem Run_form {name : String} (h : PlainSymbol name) (xs : List Literal)
    (hxs : ∀ x ∈ xs, x.valid) (gen : Nat → String) (fuel : Nat) (st : State) :
    Interpreter_Run gen fuel (formText name xs) st =
      Run_print (Eval gen fuel (.Cell (.Symbol name) (properList (xs.map Literal.value))) 0 st) := by
  have hall : ('(' :: (name.data ++ operandsText [] xs)).all AvailableChars = true := by
    simp only [List.all_cons, List.all_append, h.chars, operandsText_all [] rfl]
    decide
  have hlen := operandsText_length [] xs
  have hskip : Tokenizer_SkipSpaces ('(' :: (name.data ++ operandsText [] xs)) =
      '(' :: (name.data ++ operandsText [] xs) := rfl
  refine Run_of_Read gen fuel _ st _ hall ?_ rfl
  simp only [formText, hskip]
  exact Read_form h xs hxs [] _ (by simp only [List.length_cons, List.length_append]; omega)

theorem Eval_Number (gen : Nat → String) (f : Nat) (v : Int) (scope : Nat) (st : State) :
    Eval gen (f + 1) (.Number v) scope st = .ok (.Number v) st := rfl

theorem Eval_Boolean (gen : Nat → String) (f : Nat) (v : Bool) (scope : Nat) (st : State) :
    Eval gen (f + 1) (.Boolean v) scope st = .ok (.Boolean v) st := rfl

theorem map_int_value (xs : List Int) :
    (xs.map Literal.int).map Literal.value = xs.map Obj.Number := by
  simp [Literal.value]

theorem valid_map_int (xs : List Int) (hxs : ∀ x ∈ xs, isInt64 x) :
    ∀ l ∈ xs.map Literal.int, l.valid := by
  intro l hl
  obtain ⟨x, hx, rfl⟩ := List.mem_map.1 hl
  exact hxs x hx

theorem MakeVector_loop_numbers (gen : Nat → String) (f : Nat) (scope : Nat) (st : State) :
    ∀ (xs : List Int) (result : List Obj),
      MakeVector_loop (Eval gen (f + 1)) scope (properList (xs.map Obj.Number)) result st =
        .ok (result ++ xs.map Obj.Number) st := by
  intro xs
  induction xs with
  | nil => intro result; simp [properList, MakeVector_loop]
  | cons x xs ih =>
    intro result
    have hsecond : (!(properList (xs.map Obj.Number)).isNull &&
        !(properList (xs.map Obj.Number)).isCell) = false := by
      cases xs <;> rfl
    have := ih (result ++ [Obj.Number x])
    simp only [properList, List.map_cons, List.foldr_cons] at this hsecond ⊢
    simp only [MakeVector_loop, Eval_Number, Res.bind, Obj.isNumber, hsecond, this,
      Bool.not_true, Bool.false_eq_true, if_false, List.append_assoc, List.singleton_append]

/-- `MakeVector` on a list of number literals returns the numbers and leaves the state. -/
theorem MakeVector_numbers (gen : Nat → String) (f : Nat) (scope : Nat) (st : State)
    (xs : List Int) :
    MakeVector (Eval gen (f + 1)) (properList (xs.map Obj.Number)) scope st =
      .ok (xs.map Obj.Number) st := by
  cases xs with
  | nil => rfl
  | cons x xs =>
    have := MakeVector_loop_numbers gen f scope st (x :: xs) []
    simp only [properList, List.map_cons, List.foldr_cons, List.nil_append] at this
    simp only [MakeVector, properList, List.map_cons, List.foldr_cons, Obj.isNull, this,
      Bool.false_eq_true, if_false]

theorem CompareOp_PlainSymbol (op : CompareOp) : PlainSymbol op.name := by
  cases op <;>
    exact ⟨fun d rest hd => by rcases hd with rfl | rfl <;> rfl, fun rest => rfl, by decide,
      by decide⟩

theorem CompareNumbers_loop_numbers (cmp : Int → Int → Bool) (xs : List Int) :
    CompareNumbers_loop cmp (xs.map Obj.Number) =
      decide (xs.Chain' fun a b => cmp a b = true) := by
  induction xs with
  | nil => simp [CompareNumbers_loop]
  | cons a xs ih =>
    cases xs with
    | nil => simp [CompareNumbers_loop]
    | cons b xs =>
      simp only [List.map_cons, CompareNumbers_loop, Obj.GetValue] at ih ⊢
      by_cases hab : cmp a b = true
      · simp only [hab, Bool.not_true, Bool.false_eq_true, if_false, ih, List.chain'_cons,
          true_and]
      · simp [hab, List.chain'_cons]

theorem Cell_Eval_Function (gen : Nat → String) (E : Evaluator) (fuel : Nat)
    (first_ second_ : Obj) (scope : Nat) (st st2 : State) (fn : Function)
    (h1 : first_.isNull = false) (h : E first_ scope st = .ok (.Function fn) st2) :
    Cell_Eval gen E fuel first_ second_ scope st = Function_Apply gen E fuel fn second_ scope st2 := by
  unfold Cell_Eval
  rw [if_neg (by rw [h1]; simp)]
  simp only [h, Res.bind]
  cases second_ <;> simp [Obj.isNull, Obj.isLambdaFunction, Object_Apply]

/-- Evaluating a list whose head names a builtin applies the builtin to the rest of the
list. -/
theorem Eval_builtin_form (gen : Nat → String) (f : Nat) (name : String) (fn : Function)
    (hk : k_functions name = some fn) (args : Obj) (scope : Nat) (st : State) :
    Eval gen (f + 2) (.Cell (.Symbol name) args) scope st =
      Function_Apply gen (Eval gen (f + 1)) (f + 1) fn args scope st := by
  have h : Eval gen (f + 1) (.Symbol name) scope st = .ok (.Function fn) st := by
    simp only [Eval, Symbol_Eval, hk]
  simp only [Eval]
  exact Cell_Eval_Function gen _ _ _ _ _ _ _ _ rfl h

theorem Eval_compare (op : CompareOp) (gen : Nat → String) (f : Nat) (xs : List Int)
    (scope : Nat) (st : State) :
    Eval gen (f + 2) (.Cell (.Symbol op.name) (properList (xs.map Obj.Number))) scope st =
      .ok (.Boolean (decide (xs.Chain' op.holds))) st := by
  cases op
  · rw [Eval_builtin_form gen f _ .Equal (by decide)]
    simp only [Function_Apply, CompareNumbers_Apply, MakeVector_numbers, Res.bind,
      CompareNumbers_loop_numbers, CompareOp.holds, decide_eq_true_eq]
  · rw [Eval_builtin_form gen f _ .Less (by decide)]
    simp only [Function_Apply, CompareNumbers_Apply, MakeVector_numbers, Res.bind,
      CompareNumbers_loop_numbers, CompareOp.holds, decide_eq_true_eq]
  · rw [Eval_builtin_form gen f _ .Greater (by decide)]
    simp only [Function_Apply, CompareNumbers_Apply, MakeVector_numbers, Res.bind,
      CompareNumbers_loop_numbers, CompareOp.holds, decide_eq_true_eq]
  · rw [Eval_builtin_form gen f _ .LessEqual (by decide)]
    simp only [Function_Apply, CompareNumbers_Apply, MakeVector_numbers, Res.bind,
      CompareNumbers_loop_numbers, CompareOp.holds, decide_eq_true_eq]
  · rw [Eval_builtin_form gen f _ .GreaterEqual (by decide)]
    simp only [Function_Apply, CompareNumbers_Apply, MakeVector_numbers, Res.bind,
      CompareNumbers_loop_numbers, CompareOp.holds, decide_eq_true_eq]

/-- C9. Chained comparison: for each of `=`, `<`, `>`, `<=`, `>=` and every list of 64-bit
integer literals `x1 ... xn` (`n ≥ 0`), running `(op x1 ... xn)` returns `#t` when the
predicate holds for every adjacent pair and `#f` otherwise, so zero or one operand gives
`#t`; in particular `(op a b c)` is `#t` iff `(op a b)` and `(op b c)` are both `#t`. -/
theorem chained_comparison (op : CompareOp) (gen : Nat → String) (fuel : Nat) (st : State)
    (hfuel : 2 ≤ fuel) :
    (∀ xs : List Int, (∀ x ∈ xs, isInt64 x) →
      Interpreter_Run gen fuel (formText op.name (xs.map Literal.int)) st =
        .ok (if xs.Chain' op.holds then "#t" else "#f") st) ∧
    (∀ a b c : Int, isInt64 a → isInt64 b → isInt64 c →
      (Interpreter_Run gen fuel (formText op.name [.int a, .int b, .int c]) st = .ok "#t" st ↔
        Interpreter_Run gen fuel (formText op.name [.int a, .int b]) st = .ok "#t" st ∧
        Interpreter_Run gen fuel (formText op.name [.int b, .int c]) st = .ok "#t" st)) := by
  obtain ⟨f, rfl⟩ : ∃ f, fuel = f + 2 := ⟨fuel - 2, by omega⟩
  have main : ∀ xs : List Int, (∀ x ∈ xs, isInt64 x) →
      Interpreter_Run gen (f + 2) (formText op.name (xs.map Literal.int)) st =
        .ok (if xs.Chain' op.holds then "#t" else "#f") st := by
    intro xs hxs
    rw [Run_form (CompareOp_PlainSymbol op) _ (valid_map_int xs hxs), map_int_value, Eval_compare]
    by_cases h : xs.Chain' op.holds <;>
      simp [Run_print, Res.bind, Obj.isNull, Res.lift, Stringify, Stringify_aux, Stringify_atom, h]
  refine ⟨main, ?_⟩
  intro a b c ha hb hc
  have h3 : ∀ x ∈ [a, b, c], isInt64 x := by
    intro x hx; simp at hx; rcases hx with rfl | rfl | rfl <;> assumption
  have h2 : ∀ x ∈ [a, b], isInt64 x := by
    intro x hx; simp at hx; rcases hx with rfl | rfl <;> assumption
  have h2b : ∀ x ∈ [b, c], isInt64 x := by
    intro x hx; simp at hx; rcases hx with rfl | rfl <;> assumption
  have e3 := main _ h3
  have e2 := main _ h2
  have e2b := main _ h2b
  simp only [List.map_cons, List.map_nil] at e3 e2 e2b
  rw [e3, e2, e2b]
  by_cases hab : op.holds a b <;> by_cases hbc : op.holds b c <;> simp [hab, hbc]

/-- C9 (instance). `(< 1 2 3)` is `#t` and `(>= 3 3 4)` is `#f`. -/
theorem chained_comparison_witness :
    Interpreter_Run (fun _ => "aaaaaaaaaa") 2 "(< 1 2 3)" State.init = .ok "#t" State.init ∧
    Interpreter_Run (fun _ => "aaaaaaaaaa") 2 "(>= 3 3 4)" State.init = .ok "#f" State.init := by
  have h1 := (chained_comparison .lt (fun _ => "aaaaaaaaaa") 2 State.init (by decide)).1 [1, 2, 3]
    (by decide)
  have h2 := (chained_comparison .ge (fun _ => "aaaaaaaaaa") 2 State.init (by decide)).1 [3, 3, 4]
    (by decide)
  rw [show formText CompareOp.lt.name ([1, 2, 3].map Literal.int) = "(< 1 2 3)" by decide,
    if_pos (by simp [CompareOp.holds])] at h1
  rw [show formText CompareOp.ge.name ([3, 3, 4].map Literal.int) = "(>= 3 3 4)" by decide,
    if_neg (by simp [CompareOp.holds])] at h2
  exact ⟨h1, h2⟩

/-! ## `cons`, `car` and `cdr` on literals -/

/-- Reading `(outer (inner x1 ... xn))`. -/
theorem Read_nested_form {outer inner : String} (ho : PlainSymbol outer) (hi : PlainSymbol inner)
    (xs : List Literal) (hxs : ∀ x ∈ xs, x.valid) (rest : List Char) (f : Nat)
    (hf : xs.length + 5 ≤ f) :
    Read f ('(' :: (outer.data ++ ' ' :: '(' :: (inner.data ++ operandsText (')' :: rest) xs))) =
      .ok (.Cell (.Symbol outer)
        (.Cell (.Cell (.Symbol inner) (properList (xs.map Literal.value))) .null),
        Tokenizer_SkipSpaces rest) := by
  obtain ⟨f, rfl⟩ : ∃ k, f = k + 2 := ⟨f - 2, by omega⟩
  have hg := ho.token ' ' ('(' :: (inner.data ++ operandsText (')' :: rest) xs)) (Or.inl rfl)
  have hn := Next_PlainSymbol ho ' ' ('(' :: (inner.data ++ operandsText (')' :: rest) xs))
    (Or.inl rfl)
  have hs : Tokenizer_SkipSpaces (' ' :: '(' :: (inner.data ++ operandsText (')' :: rest) xs)) =
      '(' :: (inner.data ++ operandsText (')' :: rest) xs) := rfl
  have hg2 : Tokenizer_GetToken ('(' :: (inner.data ++ operandsText (')' :: rest) xs)) =
      .ok (.BracketToken .OPEN, 1) := rfl
  have hr2 := Read_form hi xs hxs (')' :: rest) (f + 1) (by omega)
  have hs2 : Tokenizer_SkipSpaces (')' :: rest) = ')' :: rest := rfl
  obtain ⟨f, rfl⟩ : ∃ k, f = k + 3 := ⟨f - 3, by omega⟩
  rw [hs] at hn
  rw [hs2] at hr2
  rw [Read_OPEN, ReadList, ho.skip,
    ReadList_loop_elem _ _ _ _ _ _ _ _ hg (by simp) (by simp) (Read_Symbol _ _ _ _ _ hg hn),
    ReadList_loop_elem _ _ _ _ _ _ _ _ hg2 (by simp) (by simp) hr2,
    ReadList_loop_CLOSE]
  obtain ⟨h1, h2, h3, h4⟩ := ho.notKeyword
  simp only [ReadList_build, List.nil_append, List.singleton_append, List.isEmpty_cons,
    List.head?_cons, h1, h2, h3, h4, decide_False, Bool.false_and, Bool.false_or, if_true,
    if_false, Bool.false_eq_true]
  rfl

theorem Run_nested_form {outer inner : String} (ho : PlainSymbol outer) (hi : PlainSymbol inner)
    (xs : List Literal) (hxs : ∀ x ∈ xs, x.valid) (gen : Nat → String) (fuel : Nat) (st : State) :
    Interpreter_Run gen fuel
        (String.mk ('(' :: (outer.data ++ ' ' :: '(' :: (inner.data ++ operandsText [')'] xs)))) st =
      Run_print (Eval gen fuel (.Cell (.Symbol outer)
        (.Cell (.Cell (.Symbol inner) (properList (xs.map Literal.value))) .null)) 0 st) := by
  have hall : ('(' :: (outer.data ++ ' ' :: '(' :: (inner.data ++ operandsText [')'] xs))).all
      AvailableChars = true := by
    simp only [List.all_cons, List.all_append, ho.chars, hi.chars, operandsText_all [')'] rfl]
    decide
  have hlen := operandsText_length [')'] xs
  have hskip : Tokenizer_SkipSpaces
      ('(' :: (outer.data ++ ' ' :: '(' :: (inner.data ++ operandsText [')'] xs))) =
      '(' :: (outer.data ++ ' ' :: '(' :: (inner.data ++ operandsText [')'] xs)) := rfl
  refine Run_of_Read gen fuel _ st _ hall ?_ rfl
  simp only [hskip]
  exact Read_nested_form ho hi xs hxs [] _
    (by simp only [List.length_cons, List.length_append]; omega)

theorem Eval_literal (gen : Nat → String) (f : Nat) (l : Literal) (scope : Nat) (st : State) :
    Eval gen (f + 1) l.value scope st = .ok l.value st := by
  cases l <;> rfl

theorem Stringify_literal (l : Literal) : Stringify l.value = .ok l.text := by
  cases l with
  | int n => rfl
  | bool b => cases b <;> rfl

theorem Run_print_literal (l : Literal) (st : State) :
    Run_print (.ok l.value st) = .ok l.text st := by
  have h : l.value.isNull = false := by cases l <;> rfl
  simp only [Run_print, Res.bind, h, Stringify_literal, Res.lift, Bool.false_eq_true, if_false]

theorem Stringify_cons_literal (a b : Literal) :
    Stringify (.Cell a.value b.value) = .ok ("(" ++ a.text ++ " . " ++ b.text ++ ")") := by
  have ha : a.value.isNull = false := by cases a <;> rfl
  have h1 : Stringify_aux false a.value = .ok a.text := Stringify_literal a
  have h2 : Stringify_aux true b.value = .ok (" . " ++ b.text) := by
    cases b with
    | int n => rfl
    | bool v => cases v <;> rfl
  simp only [Stringify, Stringify_aux, ha, h1, h2, Bool.false_eq_true, if_false,
    String.append_assoc]

theorem Eval_cons_literal (gen : Nat → String) (f : Nat) (a b : Literal) (scope : Nat)
    (st : State) :
    Eval gen (f + 2) (.Cell (.Symbol "cons") (properList ([a, b].map Literal.value))) scope st =
      .ok (.Cell a.value b.value) st := by
  rw [Eval_builtin_form gen f _ .Cons (by decide)]
  simp only [Function_Apply, Cons_Apply, properList, List.map_cons, List.map_nil, List.foldr_cons,
    List.foldr_nil, GetNumberOfArguments, Eval_literal, Res.bind]
  rfl

theorem PlainSymbol_cons : PlainSymbol "cons" :=
  ⟨fun d rest hd => by rcases hd with rfl | rfl <;> rfl, fun rest => rfl, by decide, by decide⟩

theorem PlainSymbol_car : PlainSymbol "car" :=
  ⟨fun d rest hd => by rcases hd with rfl | rfl <;> rfl, fun rest => rfl, by decide, by decide⟩

theorem PlainSymbol_cdr : PlainSymbol "cdr" :=
  ⟨fun d rest hd => by rcases hd with rfl | rfl <;> rfl, fun rest => rfl, by decide, by decide⟩

/-- C7. Cons/car/cdr laws: for all integer or boolean literals `a` and `b` (an integer
literal being the canonical decimal text of a 64-bit integer), `(car (cons a b))` returns the
rendering of `a`, `(cdr (cons a b))` returns the rendering of `b`, and `(cons a b)` returns
`(a . b)`. -/
theorem cons_car_cdr (a b : Literal) (ha : a.valid) (hb : b.valid) (gen : Nat → String)
    (fuel : Nat) (st : State) (hfuel : 3 ≤ fuel) :
    Interpreter_Run gen fuel ("(car (cons " ++ a.text ++ " " ++ b.text ++ "))") st =
      .ok a.text st ∧
    Interpreter_Run gen fuel ("(cdr (cons " ++ a.text ++ " " ++ b.text ++ "))") st =
      .ok b.text st ∧
    Interpreter_Run gen fuel ("(cons " ++ a.text ++ " " ++ b.text ++ ")") st =
      .ok ("(" ++ a.text ++ " . " ++ b.text ++ ")") st := by
  obtain ⟨f, rfl⟩ : ∃ f, fuel = f + 3 := ⟨fuel - 3, by omega⟩
  have hab : ∀ x ∈ [a, b], x.valid := by
    intro x hx; simp at hx; rcases hx with rfl | rfl <;> assumption
  have t1 : "(car (cons " ++ a.text ++ " " ++ b.text ++ "))" =
      String.mk ('(' :: ("car".data ++ ' ' :: '(' :: ("cons".data ++ operandsText [')'] [a, b]))) := by
    apply String.ext
    simp [operandsText, String.data_append]
  have t2 : "(cdr (cons " ++ a.text ++ " " ++ b.text ++ "))" =
      String.mk ('(' :: ("cdr".data ++ ' ' :: '(' :: ("cons".data ++ operandsText [')'] [a, b]))) := by
    apply String.ext
    simp [operandsText, String.data_append]
  have t3 : "(cons " ++ a.text ++ " " ++ b.text ++ ")" = formText "cons" [a, b] := by
    apply String.ext
    simp [formText, operandsText, String.data_append]
  refine ⟨?_, ?_, ?_⟩
  · rw [t1, Run_nested_form PlainSymbol_car PlainSymbol_cons _ hab,
      Eval_builtin_form gen (f + 1) _ .Car (by decide)]
    simp only [Function_Apply, Car_Apply, Eval_cons_literal, Res.bind, Obj.isNull,
      Bool.false_eq_true, if_false, Run_print_literal]
  · rw [t2, Run_nested_form PlainSymbol_cdr PlainSymbol_cons _ hab,
      Eval_builtin_form gen (f + 1) _ .Cdr (by decide)]
    simp only [Function_Apply, Cdr_Apply, Eval_cons_literal, Res.bind, Obj.isNull,
      Bool.false_eq_true, if_false, Run_print_literal]
  · rw [t3, Run_form PlainSymbol_cons _ hab, Eval_cons_literal gen (f + 1)]
    simp only [Run_print, Res.bind, Obj.isNull, Bool.false_eq_true, if_false,
      Stringify_cons_literal, Res.lift]

/-- C7 (instance). The three laws for the literals `-5` and `#t`. -/
theorem cons_car_cdr_witness :
    Interpreter_Run (fun _ => "aaaaaaaaaa") 3 "(car (cons -5 #t))" State.init =
      .ok "-5" State.init ∧
    Interpreter_Run (fun _ => "aaaaaaaaaa") 3 "(cdr (cons -5 #t))" State.init =
      .ok "#t" State.init ∧
    Interpreter_Run (fun _ => "aaaaaaaaaa") 3 "(cons -5 #t)" State.init =
      .ok "(-5 . #t)" State.init := by
  have h := cons_car_cdr (.int (-5)) (.bool true) (by decide) (by decide)
    (fun _ => "aaaaaaaaaa") 3 State.init (by decide)
  rw [show (Literal.int (-5)).text = "-5" by decide,
    show (Literal.bool true).text = "#t" by decide] at h
  exact h

theorem set_length_append {α : Type} (l : List α) (a b : α) :
    (l ++ [a]).set l.length b = l ++ [b] := by
  induction l with
  | nil => rfl
  | cons x xs ih => simp [List.set, ih]

theorem LambdaFunction_Apply_eq (E : Evaluator) (scope_ : Nat) (body_ : Obj)
    (args_ : List String) (head : Obj) (st : State) :
    LambdaFunction_Apply E scope_ body_ args_ head st =
      (LambdaFunction_bind E scope_ args_ (As_Cell head) st).bind fun _ st =>
        LambdaFunction_body E st.scopes.length body_ .null
          { st with scopes := st.scopes ++ [⟨some scope_, Scope_GetVars st scope_⟩] } := by
  have hvars : ∀ st : State,
      (match (st.scopes ++ [(⟨some scope_, []⟩ : Scope)])[scope_]? with
        | some s => s.vars_
        | none => []) =
      (match st.scopes[scope_]? with
        | some s => s.vars_
        | none => []) := by
    intro st
    rcases Nat.lt_trichotomy scope_ st.scopes.length with h | h | h
    · rw [List.getElem?_append_left h]
    · subst h; simp
    · rw [List.getElem?_eq_none (by simp; omega), List.getElem?_eq_none (by omega)]
  simp only [LambdaFunction_Apply, Scope_new, Scope_GetVars]
  congr 1
  funext _ st
  simp only [set_length_append, hvars]

theorem getElem?_fresh {α : Type} (e : α) (rest : List α) :
    (rest ++ [e])[rest.length]? = some e := by
  simp

theorem walk_x (G s1 : Scope) (X : Obj) (more : List (String × Obj)) (rest : List Scope)
    (fuel : Nat) :
    Scope_walk (G :: s1 :: ⟨some 1, ("x", X) :: more⟩ :: ⟨some 2, []⟩ :: (rest ++ [⟨some 3, []⟩]))
      "x" (fuel + 3) (some (rest.length + 4)) = .ok (2, X) := by
  simp only [Scope_walk, getElem?_fresh, vars_find, List.getElem?_cons_succ,
    List.getElem?_cons_zero, if_true]

theorem At_x (G s1 : Scope) (X : Obj) (more : List (String × Obj)) (rest : List Scope)
    (names : Nat) :
    Scope_At ⟨G :: s1 :: ⟨some 1, ("x", X) :: more⟩ :: ⟨some 2, []⟩ :: (rest ++ [⟨some 3, []⟩]),
      names⟩ (rest.length + 4) "x" = .ok X := by
  have h := walk_x G s1 X more rest (rest.length + 3)
  simp only [Scope_At, List.length_cons, List.length_append, List.length_nil, Nat.zero_add]
  rw [show rest.length + 1 + 1 + 1 + 1 + 1 + 1 = rest.length + 3 + 3 by omega, h]

theorem CheckToSet_x (G s1 : Scope) (X : Obj) (more : List (String × Obj)) (rest : List Scope)
    (names : Nat) :
    Scope_CheckToSet ⟨G :: s1 :: ⟨some 1, ("x", X) :: more⟩ :: ⟨some 2, []⟩ ::
      (rest ++ [⟨some 3, []⟩]), names⟩ (rest.length + 4) "x" = .ok 2 := by
  have h := walk_x G s1 X more rest (rest.length + 3)
  simp only [Scope_CheckToSet, List.length_cons, List.length_append, List.length_nil, Nat.zero_add]
  rw [show rest.length + 1 + 1 + 1 + 1 + 1 + 1 = rest.length + 3 + 3 by omega, h]

theorem counter_x (gen : Nat → String) (f : Nat) (G s1 : Scope) (g1 : String) (v : Int)
    (rest : List Scope) (names : Nat) :
    Eval gen (f + 1) (.Symbol "x") (rest.length + 4) (counterHeap G s1 g1 v rest names) =
      .ok (.Number v) (counterHeap G s1 g1 v rest names) := by
  simp only [Eval, Symbol_Eval, show k_functions "x" = none by decide, counterHeap, At_x,
    Res.lift]

theorem counter_plus (gen : Nat → String) (f : Nat) (G s1 : Scope) (g1 : String) (v : Int)
    (rest : List Scope) (names : Nat) (hv : isInt64 (v + 1)) :
    Eval gen (f + 2) (.Cell (.Symbol "+") (.Cell (.Symbol "x") (.Cell (.Number 1) .null)))
        (rest.length + 4) (counterHeap G s1 g1 v rest names) =
      .ok (.Number (v + 1)) (counterHeap G s1 g1 v rest names) := by
  rw [Eval_builtin_form gen f _ .Plus (by decide)]
  simp only [Function_Apply, AccumulateNumbers_Apply, MakeVector, MakeVector_loop, Obj.isNull,
    counter_x, Eval_Number, Res.bind, Obj.isNumber, Obj.isCell, AccumulateNumbers_loop, plus,
    Obj.GetValue, wrap64_of_isInt64 hv, Bool.false_eq_true, if_false, Bool.not_true,
    Bool.not_false, Bool.and_true, Bool.and_false, List.nil_append, List.cons_append]

theorem counter_set (gen : Nat → String) (f : Nat) (G s1 : Scope) (g1 : String) (v : Int)
    (rest : List Scope) (names : Nat) (hv : isInt64 (v + 1)) :
    Eval gen (f + 3) (.Cell (.Symbol "set!") (.Cell (.Symbol "x")
        (.Cell (.Cell (.Symbol "+") (.Cell (.Symbol "x") (.Cell (.Number 1) .null))) .null)))
        (rest.length + 4) (counterHeap G s1 g1 v rest names) =
      .ok .null (counterHeap G s1 g1 (v + 1) rest names) := by
  rw [Eval_builtin_form gen (f + 1) _ .Set (by decide)]
  have hc : Scope_CheckToSet (counterHeap G s1 g1 v rest names) (rest.length + 4) "x" = .ok 2 :=
    CheckToSet_x G s1 _ _ rest names
  simp only [Function_Apply, Set_Apply, hc, counter_plus gen f G s1 g1 v rest names hv, Res.bind]
  simp only [counterHeap, Scope_Assign, List.getElem?_cons_succ, List.getElem?_cons_zero,
    List.set_cons_succ, List.set_cons_zero, vars_assign, if_true]

theorem counter_body (gen : Nat → String) (f : Nat) (G s1 : Scope) (g1 : String) (v : Int)
    (rest : List Scope) (names : Nat) (hv : isInt64 (v + 1)) :
    LambdaFunction_body (Eval gen (f + 3)) (rest.length + 4) counterBody .null
        (counterHeap G s1 g1 v rest names) =
      .ok (.Number (v + 1)) (counterHeap G s1 g1 (v + 1) rest names) := by
  simp only [counterBody, LambdaFunction_body, counter_set gen f G s1 g1 v rest names hv,
    counter_x, Res.bind]

theorem Eval_Cell (gen : Nat → String) (f : Nat) (first_ second_ : Obj) (scope : Nat)
    (st : State) :
    Eval gen (f + 1) (.Cell first_ second_) scope st =
      Cell_Eval gen (Eval gen f) f first_ second_ scope st := rfl

theorem Eval_Symbol (gen : Nat → String) (f : Nat) (name : String) (scope : Nat) (st : State) :
    Eval gen (f + 1) (.Symbol name) scope st = Symbol_Eval name scope st := rfl

/-- Evaluating a list whose head evaluates to a lambda, when the special case of `Cell::Eval`
for a single compound operand does not apply. -/
theorem Cell_Eval_Lambda (gen : Nat → String) (E : Evaluator) (fuel : Nat)
    (first_ second_ : Obj) (scope : Nat) (st st2 : State) (scope_ : Nat) (body_ : Obj)
    (args_ : List String) (h1 : first_.isNull = false)
    (h : E first_ scope st = .ok (.LambdaFunction scope_ body_ args_) st2)
    (h2 : ∀ a b, second_ = .Cell a b → (a.isCell && b.isNull) = false) :
    Cell_Eval gen E fuel first_ second_ scope st =
      LambdaFunction_Apply E scope_ body_ args_ second_ st2 := by
  unfold Cell_Eval
  rw [if_neg (by rw [h1]; simp)]
  simp only [h, Res.bind]
  have e1 : (Obj.LambdaFunction scope_ body_ args_).isNull = false := rfl
  have e2 : (Obj.LambdaFunction scope_ body_ args_).isLambdaFunction = true := rfl
  cases second_ with
  | Cell a b =>
    have := h2 a b rfl
    simp only [e1, e2, this, Object_Apply, Bool.true_and, Bool.false_eq_true, if_false]
  | _ => simp only [e1, Object_Apply, Bool.false_eq_true, if_false]

/-- One call `(r)` of the counter: it returns `v + 1`, stores it in `x`, and leaves one more
scope on the heap. -/
theorem counter_call (gen : Nat → String) (f : Nat) (G s1 : Scope) (g1 : String) (v : Int)
    (rest : List Scope) (names : Nat) (hv : isInt64 (v + 1))
    (hG : vars_find "r" G.vars_ = some (.LambdaFunction 3 counterBody [])) :
    Eval gen (f + 4) (.Cell (.Symbol "r") .null) 0
        ⟨G :: s1 :: ⟨some 1, [("x", .Number v), (g1, .LambdaFunction 3 counterBody [])]⟩ ::
          ⟨some 2, []⟩ :: rest, names⟩ =
      .ok (.Number (v + 1)) (counterHeap G s1 g1 (v + 1) rest names) := by
  have hr : Eval gen (f + 3) (.Symbol "r") 0
      ⟨G :: s1 :: ⟨some 1, [("x", .Number v), (g1, .LambdaFunction 3 counterBody [])]⟩ ::
          ⟨some 2, []⟩ :: rest, names⟩ =
      .ok (.LambdaFunction 3 counterBody [])
        ⟨G :: s1 :: ⟨some 1, [("x", .Number v), (g1, .LambdaFunction 3 counterBody [])]⟩ ::
          ⟨some 2, []⟩ :: rest, names⟩ := by
    simp only [Eval_Symbol, Symbol_Eval, show k_functions "r" = none by decide, Scope_At,
      Scope_walk, List.length_cons, List.getElem?_cons_zero, hG, Res.lift]
  have hb := counter_body gen f G s1 g1 v rest names hv
  simp only [counterHeap] at hb
  rw [Eval_Cell, Cell_Eval_Lambda gen _ _ _ _ _ _ _ _ _ _
      (show (Obj.Symbol "r").isNull = false from rfl) hr (by simp),
    LambdaFunction_Apply_eq]
  simp only [LambdaFunction_bind, Res.bind, Scope_GetVars, List.getElem?_cons_succ,
    List.getElem?_cons_zero, List.length_cons, List.cons_append, counterHeap]
  rw [← hb]

theorem Run_rangeDef (gen : Nat → String) (f : Nat) :
    Interpreter_Run gen (f + 3) rangeDef State.init = .ok "()" (rangeState gen) := by
  rfl

theorem PlainSymbol_range : PlainSymbol "range" :=
  ⟨fun d rest hd => by rcases hd with rfl | rfl <;> rfl, fun rest => rfl, by decide, by decide⟩

theorem Read_counterDef (n : Int) (hn : isInt64 n) (f : Nat) :
    Read (f + 6)
        ('(' :: ("define".data ++ ' ' :: 'r' :: ' ' :: '(' ::
          ("range".data ++ operandsText [')'] [.int n]))) =
      .ok (counterDefExpr n, []) := by
  have hg1 : Tokenizer_GetToken ("define".data ++ ' ' :: 'r' :: ' ' :: '(' ::
      ("range".data ++ operandsText [')'] [.int n])) = .ok (.SymbolToken "define", 0) := rfl
  have hn1 : Tokenizer_Next ("define".data ++ ' ' :: 'r' :: ' ' :: '(' ::
      ("range".data ++ operandsText [')'] [.int n])) =
      .ok ('r' :: ' ' :: '(' :: ("range".data ++ operandsText [')'] [.int n])) := rfl
  have hg2 : Tokenizer_GetToken ('r' :: ' ' :: '(' ::
      ("range".data ++ operandsText [')'] [.int n])) = .ok (.SymbolToken "r", 0) := rfl
  have hn2 : Tokenizer_Next ('r' :: ' ' :: '(' ::
      ("range".data ++ operandsText [')'] [.int n])) =
      .ok ('(' :: ("range".data ++ operandsText [')'] [.int n])) := rfl
  have hg3 : Tokenizer_GetToken ('(' :: ("range".data ++ operandsText [')'] [.int n])) =
      .ok (.BracketToken .OPEN, 1) := rfl
  have hr3 := Read_form PlainSymbol_range [.int n]
    (by intro x hx; simp at hx; subst hx; exact hn) [')'] (f + 5) (by simp)
  have hs : Tokenizer_SkipSpaces ("define".data ++ ' ' :: 'r' :: ' ' :: '(' ::
      ("range".data ++ operandsText [')'] [.int n])) =
      "define".data ++ ' ' :: 'r' :: ' ' :: '(' ::
        ("range".data ++ operandsText [')'] [.int n]) := rfl
  have hs2 : Tokenizer_SkipSpaces [')'] = [')'] := rfl
  rw [hs2] at hr3
  rw [Read_OPEN, ReadList, hs,
    ReadList_loop_elem _ _ _ _ _ _ _ _ hg1 (by simp) (by simp) (Read_Symbol _ _ _ _ _ hg1 hn1),
    ReadList_loop_elem _ _ _ _ _ _ _ _ hg2 (by simp) (by simp) (Read_Symbol _ _ _ _ _ hg2 hn2),
    ReadList_loop_elem _ _ _ _ _ _ _ _ hg3 (by simp) (by simp) hr3,
    ReadList_loop_CLOSE]
  rfl

theorem Run_counterDef_eq (gen : Nat → String) (fuel : Nat) (n : Int) (hn : isInt64 n)
    (st : State) :
    Interpreter_Run gen fuel (counterDef n) st =
      Run_print (Eval gen fuel (counterDefExpr n) 0 st) := by
  have hd : (counterDef n).data = '(' :: ("define".data ++ ' ' :: 'r' :: ' ' :: '(' ::
      ("range".data ++ operandsText [')'] [.int n])) := by
    simp [counterDef, operandsText, String.data_append, Literal.text]
  have hall : (counterDef n).data.all AvailableChars = true := by
    rw [hd]
    simp only [List.all_cons, List.all_append, operandsText_all [')'] rfl]
    decide
  have hskip : Tokenizer_SkipSpaces (counterDef n).data = (counterDef n).data := by
    rw [hd]; rfl
  refine Run_of_Read gen fuel _ st _ hall ?_ rfl
  rw [hskip, hd]
  have hlen := operandsText_length [')'] [.int n]
  obtain ⟨m, hm⟩ : ∃ m, ('(' :: ("define".data ++ ' ' :: 'r' :: ' ' :: '(' ::
      ("range".data ++ operandsText [')'] [.int n]))).length + 1 = m + 6 :=
    ⟨(operandsText [')'] [.int n]).length + 11,
      by simp only [List.length_cons, List.length_append,
        show "define".data.length = 6 from rfl, show "range".data.length = 5 from rfl]; omega⟩
  rw [hm]
  exact Read_counterDef n hn m

theorem ne_of_length_ten {s t : String} (hs : s.length = 10) (ht : t.length ≠ 10) : s ≠ t := by
  intro h; subst h; exact ht hs

theorem Eval_counterDef (gen : Nat → String) (hgen : ∀ i, (gen i).length = 10) (f : Nat)
    (n : Int) :
    Eval gen (f + 4) (counterDefExpr n) 0 (rangeState gen) = .ok .null (counterState gen n) := by
  have h0 : gen 0 ≠ "range" := ne_of_length_ten (hgen 0) (by decide)
  have h1 : gen 0 ≠ "r" := ne_of_length_ten (hgen 0) (by decide)
  have h2 : "x" ≠ gen 1 := (ne_of_length_ten (hgen 1) (by decide)).symm
  have hr : Eval gen (f + 2) (.Symbol "range") 0
      ⟨[⟨none, [(gen 0, .LambdaFunction 1 rangeBody ["x"]),
        ("range", .LambdaFunction 1 rangeBody ["x"])]⟩, ⟨some 0, []⟩], 1⟩ =
      .ok (.LambdaFunction 1 rangeBody ["x"])
      ⟨[⟨none, [(gen 0, .LambdaFunction 1 rangeBody ["x"]),
        ("range", .LambdaFunction 1 rangeBody ["x"])]⟩, ⟨some 0, []⟩], 1⟩ := by
    simp only [Eval_Symbol, Symbol_Eval, show k_functions "range" = none by decide, Scope_At,
      Scope_walk, List.length_cons, List.getElem?_cons_zero, vars_find, h0, if_false, if_true,
      Res.lift]
  simp only [rangeState, vars_assign, h0, if_false, counterDefExpr]
  rw [Eval_builtin_form gen (f + 2) "define" .Define (by decide)]
  simp only [Function_Apply, Define_Apply]
  rw [Eval_Cell, Cell_Eval_Lambda gen _ _ _ _ _ _ _ _ _ _
      (show (Obj.Symbol "range").isNull = false from rfl) hr (by simp [Obj.isCell]),
    LambdaFunction_Apply_eq]
  simp only [LambdaFunction_bind, As_Cell, Eval_Number, Res.bind, Scope_Assign, Scope_GetVars,
    List.getElem?_cons_succ, List.getElem?_cons_zero, List.set_cons_succ, List.set_cons_zero,
    vars_assign, List.length_cons, List.length_nil, List.cons_append, List.nil_append,
    rangeBody, LambdaFunction_body]
  rw [Eval_builtin_form gen f "lambda" .CreateLambda (by decide)]
  simp only [Function_Apply, CreateLambda_Apply, collect_args, As_Cell, counterBody, Scope_new,
    Scope_Assign, List.getElem?_cons_succ, List.getElem?_cons_zero, List.set_cons_succ,
    List.set_cons_zero, vars_assign, List.length_cons, List.length_nil, List.cons_append,
    List.nil_append, Res.bind, h1, h2, if_false, counterState, rangeBody,
    show ("range" : String) ≠ "r" by decide]

theorem counterStateAfter_zero (gen : Nat → String) (n : Int) :
    counterStateAfter gen n 0 = counterState gen n := by
  simp [counterStateAfter, counterState]

theorem Run_counter_call (gen : Nat → String) (hgen : ∀ i, (gen i).length = 10) (f : Nat)
    (n : Int) (j : Nat) (hv : isInt64 (n + j + 1)) :
    Interpreter_Run gen (f + 4) "(r)" (counterStateAfter gen n j) =
      .ok (to_string (n + j + 1)) (counterStateAfter gen n (j + 1)) := by
  have h1 : gen 0 ≠ "r" := ne_of_length_ten (hgen 0) (by decide)
  rw [Run_of_Read gen (f + 4) "(r)" _ (.Cell (.Symbol "r") .null) (by decide) (by decide) rfl]
  unfold counterStateAfter
  rw [counter_call gen f _ _ _ _ _ _ hv
    (by simp only [vars_find, h1, if_false, show ("range" : String) ≠ "r" by decide, if_true])]
  have e : (List.replicate j (⟨some 3, []⟩ : Scope)) ++ [⟨some 3, []⟩] =
      List.replicate (j + 1) ⟨some 3, []⟩ := by
    rw [List.replicate_succ']
  simp only [counterHeap, e, Run_print, Res.bind, Obj.isNull, Bool.false_eq_true, if_false,
    Stringify, Stringify_aux, Stringify_atom, Res.lift, Nat.cast_add, Nat.cast_one, add_assoc]

theorem RunAll_counter_calls (gen : Nat → String) (hgen : ∀ i, (gen i).length = 10) (f : Nat)
    (n : Int) (hn : isInt64 n) :
    ∀ (k j : Nat), isInt64 (n + j + k) →
      (Interpreter_RunAll gen (f + 4) (List.replicate k "(r)") (counterStateAfter gen n j)).1 =
        (List.range k).map fun i => .ok (to_string (n + j + (i + 1))) := by
  intro k
  induction k with
  | zero => intro j _; rfl
  | succ k ih =>
    intro j hjk
    have hv : isInt64 (n + j + 1) := by
      unfold isInt64 at hn hjk ⊢
      push_cast at hjk
      omega
    have hnext := ih (j + 1) (by
      unfold isInt64 at hjk ⊢
      push_cast at hjk ⊢
      omega)
    simp only [List.replicate_succ, Interpreter_RunAll, Run_counter_call gen hgen f n j hv,
      Res.state, Res.result, hnext, List.range_succ_eq_map, List.map_cons, List.map_map]
    congr 1
    apply List.map_congr_left
    intro i _
    simp only [Function.comp, Nat.cast_add, Nat.cast_one, Nat.cast_zero, Nat.succ_eq_add_one]
    congr 2
    omega

/-- C3 (amended). A `set!` performed by a closure on a variable of its captured environment
is visible to later invocations: on a fresh interpreter, for every 64-bit integer `n` and
every `k` such that `n + k` is still a 64-bit integer, after the definition of `range` and
`(define r (range n))`, which both return `()`, the `j`-th of `k` successive calls `(r)`
returns the decimal text of `n + j`, for every `1 ≤ j ≤ k`.  The names drawn for the lambdas
are arbitrary strings of ten characters. -/
theorem closure_counter (gen : Nat → String) (hgen : ∀ i, (gen i).length = 10) (fuel : Nat)
    (hfuel : 4 ≤ fuel) (n : Int) (k : Nat) (hn : isInt64 n) (hnk : isInt64 (n + k)) :
    (Interpreter_RunAll gen fuel (rangeDef :: counterDef n :: List.replicate k "(r)")
        State.init).1 =
      .ok "()" :: .ok "()" :: (List.range k).map fun i => .ok (to_string (n + (i + 1))) := by
  obtain ⟨f, rfl⟩ : ∃ f, fuel = f + 4 := ⟨fuel - 4, by omega⟩
  have h1 := Run_rangeDef gen (f + 1)
  have h2 : Interpreter_Run gen (f + 4) (counterDef n) (rangeState gen) =
      .ok "()" (counterState gen n) := by
    rw [Run_counterDef_eq gen (f + 4) n hn, Eval_counterDef gen hgen f n]
    rfl
  have h3 := RunAll_counter_calls gen hgen f n hn k 0 (by simpa using hnk)
  rw [counterStateAfter_zero] at h3
  simp only [Interpreter_RunAll, h1, h2, Res.state, Res.result, h3, Nat.cast_zero, add_zero]

/-- C3 (instance). A counter started at `10` returns `11`, `12`, `13`. -/
theorem closure_counter_witness :
    (Interpreter_RunAll (fun _ => "aaaaaaaaaa") 4
        ["(define range (lambda (x) (lambda () (set! x (+ x 1)) x)))", "(define r (range 10))",
          "(r)", "(r)", "(r)"] State.init).1 =
      [.ok "()", .ok "()", .ok "11", .ok "12", .ok "13"] := by
  have h := closure_counter (fun _ => "aaaaaaaaaa") (fun _ => rfl) 4 (by decide) 10 3
    (by decide) (by decide)
  rw [show counterDef 10 = "(define r (range 10))" by decide] at h
  exact h

/-- C3 (counterexample). With `n` the greatest 64-bit integer the first call `(r)` does not
return the decimal text of `n + 1`: the addition wraps around to the least 64-bit integer. -/
theorem closure_counter_overflow :
    (Interpreter_RunAll (fun _ => "aaaaaaaaaa") 4
        ["(define range (lambda (x) (lambda () (set! x (+ x 1)) x)))",
          "(define r (range 9223372036854775807))", "(r)"] State.init).1 =
      [.ok "()", .ok "()", .ok "-9223372036854775808"] ∧
    (Interpreter_RunAll (fun _ => "aaaaaaaaaa") 4
        ["(define range (lambda (x) (lambda () (set! x (+ x 1)) x)))",
          "(define r (range 9223372036854775807))", "(r)"] State.init).1 ≠
      [.ok "()", .ok "()", .ok (to_string (9223372036854775807 + 1))] := by
  decide!

/-! ## The factorial -/

theorem Run_factDef (gen : Nat → String) (f : Nat) :
    Interpreter_Run gen (f + 2) factDef State.init = .ok "()" factState := by
  rfl

theorem FactInv_factHeap (m : Int) (rest : List Scope) (names : Nat) :
    FactInv (factHeap m rest names) :=
  ⟨_, _, rfl, Or.inr ⟨_, rfl⟩⟩

theorem fact_n (gen : Nat → String) (f : Nat) (m : Int) (rest : List Scope) (names : Nat) :
    Eval gen (f + 1) (.Symbol "n") (rest.length + 2) (factHeap m rest names) =
      .ok (.Number m) (factHeap m rest names) := by
  simp only [Eval_Symbol, Symbol_Eval, show k_functions "n" = none by decide, Scope_At,
    Scope_walk, factHeap, List.length_cons, List.getElem?_cons_succ, getElem?_fresh, vars_find,
    if_true, Res.lift]

theorem fact_fact (gen : Nat → String) (f : Nat) (m : Int) (rest : List Scope) (names : Nat) :
    Eval gen (f + 1) (.Symbol "fact") (rest.length + 2) (factHeap m rest names) =
      .ok (.LambdaFunction 1 factBody ["n"]) (factHeap m rest names) := by
  simp only [Eval_Symbol, Symbol_Eval, show k_functions "fact" = none by decide, Scope_At,
    Scope_walk, factHeap, factGlobal, List.length_cons, List.length_append, List.length_nil,
    List.getElem?_cons_succ, List.getElem?_cons_zero, getElem?_fresh, vars_find,
    show ("n" : String) ≠ "fact" by decide, if_false, if_true, Res.lift]

theorem fact_cond (gen : Nat → String) (f : Nat) (m : Int) (rest : List Scope) (names : Nat) :
    Eval gen (f + 2) (.Cell (.Symbol "=") (.Cell (.Symbol "n") (.Cell (.Number 0) .null)))
        (rest.length + 2) (factHeap m rest names) =
      .ok (.Boolean (decide (m = 0))) (factHeap m rest names) := by
  rw [Eval_builtin_form gen f _ .Equal (by decide)]
  simp only [Function_Apply, CompareNumbers_Apply, MakeVector, MakeVector_loop, Obj.isNull,
    fact_n, Eval_Number, Res.bind, Obj.isNumber, Obj.isCell, CompareNumbers_loop, Obj.GetValue,
    Bool.false_eq_true, if_false, Bool.not_true, Bool.not_false, Bool.and_true, Bool.and_false,
    List.nil_append, List.cons_append]
  by_cases h : m = 0 <;> simp [h]

theorem fact_minus (gen : Nat → String) (f : Nat) (m : Int) (rest : List Scope) (names : Nat)
    (hm : isInt64 (m - 1)) :
    Eval gen (f + 2) (.Cell (.Symbol "-") (.Cell (.Symbol "n") (.Cell (.Number 1) .null)))
        (rest.length + 2) (factHeap m rest names) =
      .ok (.Number (m - 1)) (factHeap m rest names) := by
  rw [Eval_builtin_form gen f _ .Minus (by decide)]
  simp only [Function_Apply, AccumulateNumbers_Apply, MakeVector, MakeVector_loop, Obj.isNull,
    fact_n, Eval_Number, Res.bind, Obj.isNumber, Obj.isCell, AccumulateNumbers_loop, minus,
    Obj.GetValue, wrap64_of_isInt64 hm, Bool.false_eq_true, if_false, Bool.not_true,
    Bool.not_false, Bool.and_true, Bool.and_false, List.nil_append, List.cons_append]

/-- The special case of `Cell::Eval`: a lambda applied to a single operand that is itself a
list gets the value of the operand, computed in the scope of the caller. -/
theorem Cell_Eval_Lambda_compound (gen : Nat → String) (E : Evaluator) (fuel : Nat)
    (first_ a : Obj) (scope : Nat) (st st2 st3 : State) (scope_ : Nat) (body_ : Obj)
    (args_ : List String) (v : Obj) (h1 : first_.isNull = false)
    (h : E first_ scope st = .ok (.LambdaFunction scope_ body_ args_) st2)
    (ha : a.isCell = true) (hv : E a scope st2 = .ok v st3) :
    Cell_Eval gen E fuel first_ (.Cell a .null) scope st =
      LambdaFunction_Apply E scope_ body_ args_ (.Cell v .null) st3 := by
  unfold Cell_Eval
  rw [if_neg (by rw [h1]; simp)]
  have e1 : (Obj.LambdaFunction scope_ body_ args_).isNull = false := rfl
  have e2 : (Obj.LambdaFunction scope_ body_ args_).isLambdaFunction = true := rfl
  have e3 : Obj.null.isNull = true := rfl
  simp only [h, Res.bind, e1, e2, e3, ha, hv, Object_Apply, Bool.true_and, Bool.and_self,
    Bool.false_eq_true, if_false, if_true]

theorem fact_enter (gen : Nat → String) (f : Nat) (m : Int) (st : State) (hst : FactInv st) :
    ∃ rest, LambdaFunction_Apply (Eval gen (f + 1)) 1 factBody ["n"] (.Cell (.Number m) .null) st =
      LambdaFunction_body (Eval gen (f + 1)) (rest.length + 2) factBody .null
        (factHeap m rest st.names) := by
  obtain ⟨v1, rest, hsc, hv1⟩ := hst
  refine ⟨rest, ?_⟩
  have hassign : vars_assign "n" (.Number m) v1 = [("n", .Number m)] := by
    rcases hv1 with rfl | ⟨x, rfl⟩
    · rfl
    · simp only [vars_assign, if_true]
  cases st with
  | mk scopes names =>
    simp only at hsc
    subst hsc
    rw [LambdaFunction_Apply_eq]
    simp only [LambdaFunction_bind, As_Cell, Eval_Number, Res.bind, Scope_Assign, Scope_GetVars,
      List.getElem?_cons_succ, List.getElem?_cons_zero, List.set_cons_succ, List.set_cons_zero,
      hassign, List.length_cons, List.cons_append, factHeap]

theorem fact_body_zero (gen : Nat → String) (f : Nat) (rest : List Scope) (names : Nat) :
    LambdaFunction_body (Eval gen (f + 3)) (rest.length + 2) factBody .null
        (factHeap 0 rest names) =
      .ok (.Number 1) (factHeap 0 rest names) := by
  simp only [factBody, LambdaFunction_body]
  rw [Eval_builtin_form gen (f + 1) _ .If (by decide)]
  simp only [Function_Apply, If_Apply, fact_cond, Res.bind, decide_True, Eval_Number]

theorem fact_body_succ (gen : Nat → String) (f : Nat) (m : Nat) (hm : m + 1 ≤ 20)
    (rest : List Scope) (names : Nat) (st2 : State)
    (hrec : LambdaFunction_Apply (Eval gen (f + 3)) 1 factBody ["n"] (.Cell (.Number (m : Int)) .null)
      (factHeap ((m : Int) + 1) rest names) = .ok (.Number (m.factorial : Int)) st2) :
    LambdaFunction_body (Eval gen (f + 6)) (rest.length + 2) factBody .null
        (factHeap ((m : Int) + 1) rest names) =
      .ok (.Number ((m + 1).factorial : Int)) st2 := by
  have hne : ¬ ((m : Int) + 1 = 0) := by omega
  have hminus := fact_minus gen (f + 1) ((m : Int) + 1) rest names (by unfold isInt64; omega)
  rw [show (m : Int) + 1 - 1 = m by omega] at hminus
  have hcall : Eval gen (f + 4)
      (.Cell (.Symbol "fact")
        (.Cell (.Cell (.Symbol "-") (.Cell (.Symbol "n") (.Cell (.Number 1) .null))) .null))
      (rest.length + 2) (factHeap ((m : Int) + 1) rest names) =
      .ok (.Number (m.factorial : Int)) st2 := by
    rw [Eval_Cell, Cell_Eval_Lambda_compound gen _ _ _ _ _ _ _ _ _ _ _ _
      (show (Obj.Symbol "fact").isNull = false from rfl) (fact_fact gen (f + 2) _ rest names)
      (show (Obj.Cell (.Symbol "-") (.Cell (.Symbol "n") (.Cell (.Number 1) .null))).isCell = true
        from rfl)
      hminus, hrec]
  have hbound : ((m + 1).factorial : Int) ≤ 2432902008176640000 := by
    have := Nat.factorial_le hm
    have h20 : Nat.factorial 20 = 2432902008176640000 := by decide
    omega
  have hprod : wrap64 (((m : Int) + 1) * (m.factorial : Int)) = ((m + 1).factorial : Int) := by
    have e : ((m : Int) + 1) * (m.factorial : Int) = ((m + 1).factorial : Int) := by
      rw [Nat.factorial_succ]; push_cast; ring
    rw [e]
    apply wrap64_of_isInt64
    unfold isInt64
    have : (0 : Int) ≤ ((m + 1).factorial : Int) := by positivity
    omega
  simp only [factBody, LambdaFunction_body]
  rw [Eval_builtin_form gen (f + 4) _ .If (by decide)]
  simp only [Function_Apply, If_Apply, fact_cond, Res.bind, hne, decide_False, Obj.isNull,
    Bool.not_false, if_true, factProduct]
  rw [Eval_builtin_form gen (f + 3) _ .Prod (by decide)]
  simp only [Function_Apply, AccumulateNumbers_Apply, MakeVector, MakeVector_loop, Obj.isNull,
    fact_n, hcall, Res.bind, Obj.isNumber, Obj.isCell, AccumulateNumbers_loop, multiplies,
    Obj.GetValue, hprod, Bool.false_eq_true, if_false, Bool.not_true, Bool.not_false,
    Bool.and_true, Bool.and_false, List.nil_append, List.cons_append]

/-- A call of `fact` with argument `m ≤ 20` returns `m!`, whatever earlier calls left on the
heap. -/
theorem fact_apply (gen : Nat → String) : ∀ (m : Nat), m ≤ 20 → ∀ (f : Nat) (st : State),
    FactInv st →
    ∃ st2, FactInv st2 ∧
      LambdaFunction_Apply (Eval gen (f + 3 * m + 3)) 1 factBody ["n"]
        (.Cell (.Number (m : Int)) .null) st = .ok (.Number (m.factorial : Int)) st2 := by
  intro m
  induction m with
  | zero =>
    intro _ f st hst
    obtain ⟨rest, h⟩ := fact_enter gen (f + 2) 0 st hst
    refine ⟨factHeap 0 rest st.names, FactInv_factHeap _ _ _, ?_⟩
    simp only [Nat.mul_zero, Nat.add_zero, Nat.cast_zero, Nat.factorial_zero, Nat.cast_one]
    rw [h, fact_body_zero]
  | succ m ih =>
    intro hm f st hst
    obtain ⟨rest, h⟩ := fact_enter gen (f + 3 * m + 5) ((m : Int) + 1) st hst
    obtain ⟨st2, hinv, hrec⟩ := ih (by omega) f (factHeap ((m : Int) + 1) rest st.names)
      (FactInv_factHeap _ _ _)
    refine ⟨st2, hinv, ?_⟩
    have e : f + 3 * (m + 1) + 3 = f + 3 * m + 5 + 1 := by omega
    rw [e, Nat.cast_add, Nat.cast_one, h]
    exact fact_body_succ gen (f + 3 * m) m hm rest st.names st2 hrec

theorem PlainSymbol_fact : PlainSymbol "fact" :=
  ⟨fun d rest hd => by rcases hd with rfl | rfl <;> rfl, fun rest => rfl, by decide, by decide⟩

theorem Run_factCall (gen : Nat → String) (fuel : Nat) (hfuel : 64 ≤ fuel) (n : Nat)
    (hn : n ≤ 20) (st : State) (hst : FactInv st) :
    ∃ st2, FactInv st2 ∧
      Interpreter_Run gen fuel (factCall n) st = .ok (to_string (n.factorial : Int)) st2 := by
  obtain ⟨f, rfl⟩ : ∃ f, fuel = f + 3 * n + 3 + 1 := ⟨fuel - (3 * n + 4), by omega⟩
  obtain ⟨st2, hinv, happly⟩ := fact_apply gen n hn f st hst
  refine ⟨st2, hinv, ?_⟩
  have ht : factCall n = formText "fact" [.int (n : Int)] := by
    apply String.ext
    simp [factCall, formText, operandsText, String.data_append, Literal.text]
  have hvalid : ∀ x ∈ [Literal.int (n : Int)], x.valid := by
    intro x hx
    simp only [List.mem_singleton] at hx
    subst hx
    show isInt64 (n : Int)
    unfold isInt64
    omega
  have hsym : Eval gen (f + 3 * n + 3) (.Symbol "fact") 0 st =
      .ok (.LambdaFunction 1 factBody ["n"]) st := by
    obtain ⟨v1, rest, hsc, -⟩ := hst
    simp only [Eval_Symbol, Symbol_Eval, show k_functions "fact" = none by decide, Scope_At,
      Scope_walk, hsc, List.length_cons, List.getElem?_cons_zero, factGlobal, vars_find, if_true,
      Res.lift]
  rw [ht, Run_form PlainSymbol_fact _ hvalid]
  simp only [List.map_cons, List.map_nil, Literal.value, properList, List.foldr_cons,
    List.foldr_nil]
  rw [Eval_Cell, Cell_Eval_Lambda gen _ _ _ _ _ _ _ _ _ _
      (show (Obj.Symbol "fact").isNull = false from rfl) hsym (by simp [Obj.isCell]),
    happly]
  rfl

theorem RunAll_factCalls (gen : Nat → String) (fuel : Nat) (hfuel : 64 ≤ fuel) :
    ∀ (ns : List Nat), (∀ n ∈ ns, n ≤ 20) → ∀ st : State, FactInv st →
      (Interpreter_RunAll gen fuel (ns.map factCall) st).1 =
        ns.map fun n => .ok (to_string (n.factorial : Int)) := by
  intro ns
  induction ns with
  | nil => intro _ st _; rfl
  | cons n ns ih =>
    intro hns st hst
    obtain ⟨st2, hinv, hrun⟩ := Run_factCall gen fuel hfuel n (hns n (by simp)) st hst
    simp only [List.map_cons, Interpreter_RunAll, hrun, Res.state, Res.result,
      ih (fun m hm => hns m (by simp [hm])) st2 hinv]

/-- C4. Recursive functions see their own call's parameter value: on a fresh interpreter the
definition of `fact` returns `()`, and afterwards every call `(fact n)` with `0 ≤ n ≤ 20`
returns the decimal text of `n!`, also when other such calls were made before it. -/
theorem factorial_calls (gen : Nat → String) (fuel : Nat) (hfuel : 64 ≤ fuel) (ns : List Nat)
    (hns : ∀ n ∈ ns, n ≤ 20) :
    (Interpreter_RunAll gen fuel (factDef :: ns.map factCall) State.init).1 =
      .ok "()" :: ns.map fun n => .ok (to_string (n.factorial : Int)) := by
  obtain ⟨f, rfl⟩ : ∃ f, fuel = f + 2 := ⟨fuel - 2, by omega⟩
  have hinv : FactInv factState := ⟨[], [], rfl, Or.inl rfl⟩
  simp only [Interpreter_RunAll, Run_factDef gen f, Res.state, Res.result,
    RunAll_factCalls gen (f + 2) hfuel ns hns factState hinv]

/-- C4 (instance). `(fact 5)`, `(fact 20)` and `(fact 0)` after the definition of `fact`. -/
theorem factorial_calls_witness :
    (Interpreter_RunAll (fun _ => "aaaaaaaaaa") 64
        ["(define (fact n) (if (= n 0) 1 (* n (fact (- n 1)))))", "(fact 5)", "(fact 20)",
          "(fact 0)"] State.init).1 =
      [.ok "()", .ok "120", .ok "2432902008176640000", .ok "1"] := by
  have h := factorial_calls (fun _ => "aaaaaaaaaa") 64 (by decide) [5, 20, 0] (by decide)
  rw [show factDef = "(define (fact n) (if (= n 0) 1 (* n (fact (- n 1)))))" from rfl,
    show [5, 20, 0].map factCall = ["(fact 5)", "(fact 20)", "(fact 0)"] by decide,
    show ([5, 20, 0].map fun n => (Except.ok (to_string (n.factorial : Int)) : Except Err String)) =
      [.ok "120", .ok "2432902008176640000", .ok "1"] by decide] at h
  exact h

/-! ## Inputs on which the code departs from the specification -/

theorem Run_shadow_x_def (gen : Nat → String) (fuel : Nat) :
    Interpreter_Run gen (fuel + 2) "(define x 100)" State.init =
      .ok "()" ⟨[⟨none, [("x", .Number 100)]⟩], 0⟩ := by
  rfl

theorem Run_shadow_f_def (gen : Nat → String) (fuel : Nat) :
    Interpreter_Run gen (fuel + 2) "(define (f x y) y)" ⟨[⟨none, [("x", .Number 100)]⟩], 0⟩ =
      .ok "()" shadowState := by
  rfl

theorem Run_shadow_call (gen : Nat → String) (fuel : Nat) :
    Interpreter_Run gen (fuel + 2) "(f 1 x)" shadowState = .ok "1" shadowStateAfter := by
  rfl

theorem Run_shadow_x (gen : Nat → String) (fuel : Nat) :
    Interpreter_Run gen (fuel + 2) "x" shadowStateAfter = .ok "100" shadowStateAfter := by
  rfl

/-- C2 (code defect). `LambdaFunction::Apply` evaluates the operands in the scope of the
lambda itself, where the parameters bound so far are visible: after `(define x 100)` and
`(define (f x y) y)` the call `(f 1 x)` returns `1`, the value just bound to the parameter
`x`, and not `100`, the value of `x` in the environment of the caller (which `x` still
evaluates to afterwards). -/
theorem lambda_operand_sees_parameter (gen : Nat → String) (fuel : Nat) :
    (Interpreter_RunAll gen (fuel + 2)
        ["(define x 100)", "(define (f x y) y)", "(f 1 x)", "x"] State.init).1 =
      [.ok "()", .ok "()", .ok "1", .ok "100"] := by
  simp only [Interpreter_RunAll, Run_shadow_x_def, Run_shadow_f_def, Run_shadow_call,
    Run_shadow_x, Res.state, Res.result]

/-- C5 (code defect). The text `'()` reads as the one-element list `(quote)`, which prints as
`(quote)`, but running `''()` returns `quote`. -/
theorem quote_of_quoted_nil (gen : Nat → String) (fuel : Nat) (st : State) :
    Read 4 "'()".data = .ok (.Cell (.Symbol "quote") .null, []) ∧
    Stringify (.Cell (.Symbol "quote") .null) = .ok "(quote)" ∧
    Interpreter_Run gen (fuel + 2) "''()" st = .ok "quote" st := by
  exact ⟨rfl, rfl, rfl⟩

theorem intercalate_go (s : String) : ∀ (as : List String) (acc : String),
    String.intercalate.go acc s as = acc ++ as.foldr (fun a r => s ++ a ++ r) "" := by
  intro as
  induction as with
  | nil => intro acc; simp [String.intercalate.go]
  | cons a as ih =>
    intro acc
    simp only [String.intercalate.go, ih, List.foldr_cons, String.append_assoc]

theorem Stringify_tail_numbers (xs : List Int) :
    Stringify_aux true (properList (xs.map Obj.Number)) =
      .ok ((xs.map to_string).foldr (fun a r => " " ++ a ++ r) "") := by
  induction xs with
  | nil => rfl
  | cons x xs ih =>
    simp only [properList, List.map_cons, List.foldr_cons] at ih ⊢
    simp only [Stringify_aux, Stringify_atom, ih, String.append_assoc]

/-- The part of the list round-trip that the code keeps: for integer operands, and for no
operand at all, `(list x1 ... xn)` prints as `(x1 ... xn)`. -/
theorem list_of_integers (gen : Nat → String) (fuel : Nat) (st : State) (hfuel : 2 ≤ fuel)
    (xs : List Int) (hxs : ∀ x ∈ xs, isInt64 x) :
    Interpreter_Run gen fuel (formText "list" (xs.map Literal.int)) st =
      .ok ("(" ++ " ".intercalate (xs.map to_string) ++ ")") st := by
  obtain ⟨f, rfl⟩ : ∃ f, fuel = f + 2 := ⟨fuel - 2, by omega⟩
  have hsym : PlainSymbol "list" :=
    ⟨fun d rest hd => by rcases hd with rfl | rfl <;> rfl, fun rest => rfl, by decide, by decide⟩
  rw [Run_form hsym _ (valid_map_int xs hxs), map_int_value,
    Eval_builtin_form gen f _ .List (by decide)]
  cases xs with
  | nil => rfl
  | cons x xs =>
    have hb : build_list (Obj.Number x :: xs.map Obj.Number) =
        properList (Obj.Number x :: xs.map Obj.Number) := build_properList _ _
    have hn : (properList ((x :: xs).map Obj.Number)).isNull = false := rfl
    have ht := Stringify_tail_numbers xs
    have hmv := MakeVector_numbers gen f 0 st (x :: xs)
    simp only [Function_Apply, List_Apply, hn, hmv, Res.bind, Bool.false_eq_true, if_false]
    simp only [List.map_cons, hb]
    simp only [properList, List.foldr_cons] at ht ⊢
    simp only [Run_print, Res.bind, Obj.isNull, Stringify, Stringify_aux, Stringify_atom, ht,
      Res.lift, Bool.false_eq_true, if_false, String.intercalate, intercalate_go,
      String.append_assoc]

/-- C6 (code defect). `List::Apply` collects its operands with `MakeVector<Number>`, so a
boolean operand is rejected: `(list #t)` and `(list 1 #f)` throw `RuntimeError`, while
`(list)` and `(list 1 2 3)` return `()` and `(1 2 3)`. -/
theorem list_rejects_boolean (gen : Nat → String) (fuel : Nat) (st : State) :
    Interpreter_Run gen (fuel + 2) "(list #t)" st = .throw .RuntimeError st ∧
    Interpreter_Run gen (fuel + 2) "(list 1 #f)" st = .throw .RuntimeError st ∧
    Interpreter_Run gen (fuel + 2) "(list)" st = .ok "()" st ∧
    Interpreter_Run gen (fuel + 2) "(list 1 2 3)" st = .ok "(1 2 3)" st := by
  exact ⟨rfl, rfl, rfl, rfl⟩

theorem Cdr_loop_Number (gen : Nat → String) (fuel : Nat) (v : Int) (scope : Nat) (st : State) :
    ∀ k, Cdr_loop (Eval gen fuel) (.Number v) scope k st = .throw .OutOfFuel st := by
  intro k
  induction k with
  | zero => rfl
  | succ k ih =>
    cases fuel with
    | zero => rfl
    | succ f => simp only [Cdr_loop, Eval_Number, Res.bind, Obj.isCell, Bool.false_eq_true,
        if_false, ih]

/-- C8 (code defect). On a value that is neither a pair nor Nil, `car` and `cdr` do not raise
`RuntimeError`: `(car 5)` and `(car #t)` dereference a null pointer, `(cdr 5)` never leaves the
loop `while (!cell)`, so that no amount of fuel lets it finish, and `(car (quote a))` looks the
symbol `a` up and raises `NameError` when it is unbound.  On Nil both do raise
`RuntimeError`. -/
theorem car_cdr_of_number (gen : Nat → String) (fuel : Nat) (st : State) :
    Interpreter_Run gen (fuel + 2) "(car 5)" st = .throw .UndefinedBehaviour st ∧
    Interpreter_Run gen (fuel + 2) "(car #t)" st = .throw .UndefinedBehaviour st ∧
    Interpreter_Run gen fuel "(cdr 5)" st = .throw .OutOfFuel st ∧
    Interpreter_Run gen (fuel + 3) "(car (quote a))" State.init = .throw .NameError State.init ∧
    Interpreter_Run gen (fuel + 3) "(car '())" st = .throw .RuntimeError st ∧
    Interpreter_Run gen (fuel + 3) "(cdr '())" st = .throw .RuntimeError st := by
  refine ⟨rfl, rfl, ?_, rfl, rfl, rfl⟩
  rw [Run_of_Read gen fuel "(cdr 5)" st (.Cell (.Symbol "cdr") (.Cell (.Number 5) .null))
    (by decide) (by decide) rfl]
  match fuel with
  | 0 => rfl
  | 1 => rfl
  | f + 2 =>
    rw [Eval_builtin_form gen f _ .Cdr (by decide)]
    simp only [Function_Apply, Cdr_Apply, Eval_Number, Res.bind, Obj.isNull, Cdr_loop_Number,
      Bool.false_eq_true, if_false, Run_print]

/-! ## Division -/

theorem PlainSymbol_divide : PlainSymbol "/" :=
  ⟨fun d rest hd => by rcases hd with rfl | rfl <;> rfl, fun rest => rfl, by decide, by decide⟩

theorem divides_error (a b : Int) (e : Err) (h : divides a b = .error e) :
    e = .UndefinedBehaviour := by
  unfold divides at h
  split_ifs at h <;> simp_all

/-- Once a zero divisor is among the operands still to come, the fold of `/` ends in undefined
behaviour, whatever the value accumulated so far. -/
theorem AccumulateNumbers_loop_zero : ∀ (ds : List Int) (res : Int), (0 : Int) ∈ ds →
    AccumulateNumbers_loop divides res (ds.map Obj.Number) = .error .UndefinedBehaviour := by
  intro ds
  induction ds with
  | nil => intro res h; simp at h
  | cons d ds ih =>
    intro res h
    simp only [List.map_cons, AccumulateNumbers_loop, Obj.GetValue]
    cases hd : divides res d with
    | error e => rw [divides_error res d e hd]
    | ok r =>
      have hne : d ≠ 0 := by
        intro h0
        rw [h0] at hd
        simp [divides] at hd
      have hmem : (0 : Int) ∈ ds := by
        rcases List.mem_cons.1 h with h | h
        · exact absurd h.symm hne
        · exact h
      exact ih r hmem

/-- C11 (code defect). Division by zero is not checked.  For every 64-bit integer `a` and every
list of 64-bit divisors that contains `0`, running `(/ a d1 ... dn)` does not raise
`RuntimeError`: `std::divides` is applied to a zero divisor (or, before that, to the least
integer and `-1`), which is undefined behaviour. -/
theorem division_by_zero (gen : Nat → String) (fuel : Nat) (st : State) (hfuel : 2 ≤ fuel)
    (a : Int) (ds : List Int) (ha : isInt64 a) (hds : ∀ d ∈ ds, isInt64 d) (h0 : (0 : Int) ∈ ds) :
    Interpreter_Run gen fuel (formText "/" ((a :: ds).map Literal.int)) st =
      .throw .UndefinedBehaviour st := by
  obtain ⟨f, rfl⟩ : ∃ f, fuel = f + 2 := ⟨fuel - 2, by omega⟩
  have hv : ∀ x ∈ a :: ds, isInt64 x := by
    intro x hx
    rcases List.mem_cons.1 hx with rfl | hx
    · exact ha
    · exact hds x hx
  rw [Run_form PlainSymbol_divide _ (valid_map_int _ hv), map_int_value,
    Eval_builtin_form gen f _ .Divide (by decide)]
  simp only [Function_Apply, AccumulateNumbers_Apply, MakeVector_numbers, Res.bind]
  simp only [List.map_cons, Obj.GetValue, AccumulateNumbers_loop_zero ds a h0, Run_print,
    Res.bind]

/-- C11 (instance). `(/ 7 0)` and `(/ 7 2 0 5)`. -/
theorem division_by_zero_witness :
    Interpreter_Run (fun _ => "aaaaaaaaaa") 2 "(/ 7 0)" State.init =
      .throw .UndefinedBehaviour State.init ∧
    Interpreter_Run (fun _ => "aaaaaaaaaa") 2 "(/ 7 2 0 5)" State.init =
      .throw .UndefinedBehaviour State.init := by
  have h1 := division_by_zero (fun _ => "aaaaaaaaaa") 2 State.init (by decide) 7 [0] (by decide)
    (by decide) (by decide)
  have h2 := division_by_zero (fun _ => "aaaaaaaaaa") 2 State.init (by decide) 7 [2, 0, 5]
    (by decide) (by decide) (by decide)
  rw [show formText "/" ((7 :: [0]).map Literal.int) = "(/ 7 0)" by decide] at h1
  rw [show formText "/" ((7 :: [2, 0, 5]).map Literal.int) = "(/ 7 2 0 5)" by decide] at h2
  exact ⟨h1, h2⟩

/-! ## `and` and `or` -/

theorem GetNumberOfArguments_properList (es : List Obj) :
    GetNumberOfArguments (properList es) = es.length := by
  induction es with
  | nil => rfl
  | cons e es ih =>
    simp only [properList, List.foldr_cons, GetNumberOfArguments, List.length_cons] at ih ⊢
    omega

theorem evalOperands_cons_ok (E : Evaluator) (scope : Nat) (p : Obj) (pre : List Obj)
    (st st1 : State) (vs : List Obj) (h : evalOperands E scope (p :: pre) st = .ok vs st1) :
    ∃ v sta vs2, E p scope st = .ok v sta ∧ evalOperands E scope pre sta = .ok vs2 st1 ∧
      vs = v :: vs2 := by
  simp only [evalOperands] at h
  cases h1 : E p scope st with
  | throw e s => simp [h1, Res.bind] at h
  | ok v sta =>
    simp only [h1, Res.bind] at h
    cases h2 : evalOperands E scope pre sta with
    | throw e s => simp [h2] at h
    | ok vs2 stb =>
      simp only [h2] at h
      injection h with h3 h4
      exact ⟨v, sta, vs2, rfl, by rw [h2, h4], h3.symm⟩

/-- One turn of the loop of `LogicOp<op>::Apply` on an operand whose value does not stop it. -/
theorem LogicOp_loop_continue (op : Bool) (E : Evaluator) (scope : Nat) (n : Nat)
    (first_ second_ last v : Obj) (st sta : State) (h : E first_ scope st = .ok v sta)
    (hv : v ≠ .Boolean (!op)) :
    LogicOp_loop op E scope (n + 1) (.Cell first_ second_) last st =
      LogicOp_loop op E scope n second_ v sta := by
  simp only [LogicOp_loop, h, Res.bind]
  cases v with
  | Boolean curr =>
    have : curr = op := by
      cases curr <;> cases op <;> simp_all
    subst this
    cases curr <;> simp
  | _ => rfl

/-- One turn of the loop of `LogicOp<op>::Apply` on an operand whose value stops it. -/
theorem LogicOp_loop_stop (op : Bool) (E : Evaluator) (scope : Nat) (n : Nat)
    (first_ second_ last : Obj) (st sta : State)
    (h : E first_ scope st = .ok (.Boolean (!op)) sta) :
    LogicOp_loop op E scope (n + 1) (.Cell first_ second_) last st = .ok (.Boolean (!op)) sta := by
  simp only [LogicOp_loop, h, Res.bind]
  cases op <;> simp

/-- The loop stops at the first operand whose value is the boolean `!op`.  -/
theorem LogicOp_loop_first (op : Bool) (E : Evaluator) (scope : Nat) (e : Obj) (post : List Obj) :
    ∀ (pre : List Obj) (vs : List Obj) (st st1 st2 : State) (last : Obj) (n : Nat),
      evalOperands E scope pre st = .ok vs st1 → (∀ v ∈ vs, v ≠ .Boolean (!op)) →
      E e scope st1 = .ok (.Boolean (!op)) st2 → pre.length + 1 ≤ n →
      LogicOp_loop op E scope n (properList (pre ++ e :: post)) last st =
        .ok (.Boolean (!op)) st2 := by
  intro pre
  induction pre with
  | nil =>
    intro vs st st1 st2 last n h _ he hn
    obtain ⟨n, rfl⟩ : ∃ k, n = k + 1 := ⟨n - 1, by simp at hn; omega⟩
    simp only [evalOperands] at h
    injection h with _ h
    subst h
    exact LogicOp_loop_stop op E scope n _ _ _ _ _ he
  | cons p pre ih =>
    intro vs st st1 st2 last n h hvs he hn
    obtain ⟨n, rfl⟩ : ∃ k, n = k + 1 := ⟨n - 1, by simp at hn; omega⟩
    obtain ⟨v, sta, vs2, h1, h2, rfl⟩ := evalOperands_cons_ok E scope p pre st st1 vs h
    have hc := LogicOp_loop_continue op E scope n p (properList (pre ++ e :: post)) last v st sta
      h1 (hvs v (by simp))
    simp only [List.cons_append, properList, List.foldr_cons] at hc ⊢
    rw [hc]
    exact ih vs2 sta st1 st2 v n h2 (fun w hw => hvs w (by simp [hw]))
      he (by simp at hn ⊢; omega)

/-- When no operand before the last stops the loop, the result is the value of the last. -/
theorem LogicOp_loop_last (op : Bool) (E : Evaluator) (scope : Nat) (e : Obj) :
    ∀ (pre : List Obj) (vs : List Obj) (v : Obj) (st st1 st2 : State) (last : Obj),
      evalOperands E scope pre st = .ok vs st1 → (∀ v ∈ vs, v ≠ .Boolean (!op)) →
      E e scope st1 = .ok v st2 →
      LogicOp_loop op E scope (pre.length + 1) (properList (pre ++ [e])) last st = .ok v st2 := by
  intro pre
  induction pre with
  | nil =>
    intro vs v st st1 st2 last h _ he
    simp only [evalOperands] at h
    injection h with _ h
    subst h
    by_cases hv : v = .Boolean (!op)
    · subst hv
      exact LogicOp_loop_stop op E scope 0 _ _ _ _ _ he
    · have := LogicOp_loop_continue op E scope 0 e .null last v st st2 he hv
      simpa [properList, LogicOp_loop] using this
  | cons p pre ih =>
    intro vs v st st1 st2 last h hvs he
    obtain ⟨w, sta, vs2, h1, h2, rfl⟩ := evalOperands_cons_ok E scope p pre st st1 vs h
    have hc := LogicOp_loop_continue op E scope (pre.length + 1) p (properList (pre ++ [e])) last
      w st sta h1 (hvs w (by simp))
    simp only [List.cons_append, properList, List.foldr_cons, List.length_cons] at hc ⊢
    rw [hc]
    exact ih vs2 v sta st1 st2 w h2 (fun u hu => hvs u (by simp [hu])) he

theorem Eval_LogicOp (gen : Nat → String) (f : Nat) (name : String) (op : Bool)
    (hk : k_functions name = some (if op then .And else .Or)) (e : Obj) (es : List Obj)
    (scope : Nat) (st : State) :
    Eval gen (f + 2) (.Cell (.Symbol name) (properList (e :: es))) scope st =
      LogicOp_loop op (Eval gen (f + 1)) scope (es.length + 1) (properList (e :: es)) .null st := by
  rw [Eval_builtin_form gen f _ _ hk]
  have hn := GetNumberOfArguments_properList (e :: es)
  cases op <;>
    simp only [Function_Apply, LogicOp_Apply, hn, List.length_cons, if_true, if_false,
      Bool.false_eq_true] <;> rfl

/-- C13. `and` evaluates its operands from left to right: `(and)` is `#t`; when the operands
before `e` evaluate without error to values other than `#f` and `e` evaluates to `#f`, the
form returns `#f` in the state that the evaluation of `e` left, whatever operands follow, so
none of them is evaluated; and when all operands before the last evaluate to values other
than `#f`, the form returns the value of the last one.  So `(and 1 2 #f 3)` is `#f`,
`(and 1 2 3)` is `3`, and `(and #f (car 5))` is `#f` although `(car 5)` cannot be evaluated. -/
theorem and_short_circuit (gen : Nat → String) (fuel : Nat) (scope : Nat) (st : State) :
    Eval gen (fuel + 2) (.Cell (.Symbol "and") .null) scope st = .ok (.Boolean true) st ∧
    (∀ (pre post : List Obj) (e : Obj) (vs : List Obj) (st1 st2 : State),
      evalOperands (Eval gen (fuel + 1)) scope pre st = .ok vs st1 →
      (∀ v ∈ vs, v ≠ .Boolean false) →
      Eval gen (fuel + 1) e scope st1 = .ok (.Boolean false) st2 →
      Eval gen (fuel + 2) (.Cell (.Symbol "and") (properList (pre ++ e :: post))) scope st =
        .ok (.Boolean false) st2) ∧
    (∀ (pre : List Obj) (e : Obj) (vs : List Obj) (v : Obj) (st1 st2 : State),
      evalOperands (Eval gen (fuel + 1)) scope pre st = .ok vs st1 →
      (∀ v ∈ vs, v ≠ .Boolean false) →
      Eval gen (fuel + 1) e scope st1 = .ok v st2 →
      Eval gen (fuel + 2) (.Cell (.Symbol "and") (properList (pre ++ [e]))) scope st =
        .ok v st2) ∧
    Interpreter_Run gen (fuel + 2) "(and)" st = .ok "#t" st ∧
    Interpreter_Run gen (fuel + 2) "(and 1 2 #f 3)" st = .ok "#f" st ∧
    Interpreter_Run gen (fuel + 2) "(and 1 2 3)" st = .ok "3" st ∧
    Interpreter_Run gen (fuel + 2) "(car 5)" st = .throw .UndefinedBehaviour st ∧
    Interpreter_Run gen (fuel + 2) "(and #f (car 5))" st = .ok "#f" st := by
  refine ⟨rfl, ?_, ?_, rfl, rfl, rfl, rfl, rfl⟩
  · intro pre post e vs st1 st2 h hvs he
    obtain ⟨x, xs, hx⟩ : ∃ x xs, pre ++ e :: post = x :: xs := by
      cases pre with
      | nil => exact ⟨_, _, rfl⟩
      | cons p pre => exact ⟨_, _, rfl⟩
    have hlen : xs.length + 1 = (pre ++ e :: post).length := by rw [hx]; rfl
    rw [hx, Eval_LogicOp gen fuel "and" true (by decide), ← hx]
    exact LogicOp_loop_first true _ scope e post pre vs st st1 st2 .null _ h hvs he
      (by rw [hlen]; simp)
  · intro pre e vs v st1 st2 h hvs he
    obtain ⟨x, xs, hx⟩ : ∃ x xs, pre ++ [e] = x :: xs := by
      cases pre with
      | nil => exact ⟨_, _, rfl⟩
      | cons p pre => exact ⟨_, _, rfl⟩
    have hlen : xs.length + 1 = pre.length + 1 := by
      have := congrArg List.length hx
      simp at this
      omega
    rw [hx, Eval_LogicOp gen fuel "and" true (by decide), ← hx, hlen]
    exact LogicOp_loop_last true _ scope e pre vs v st st1 st2 .null h hvs he

/-- C13 (instance). In `(and 1 2 #f x)`, evaluated where `x` is unbound, the operands `1` and
`2` have the values `[1, 2]`, the third is `#f`, and the form returns `#f`. -/
theorem and_short_circuit_witness :
    Eval (fun _ => "aaaaaaaaaa") 2 (.Cell (.Symbol "and")
        (properList ([.Number 1, .Number 2] ++ .Boolean false :: [.Symbol "x"]))) 0 State.init =
      .ok (.Boolean false) State.init :=
  (and_short_circuit (fun _ => "aaaaaaaaaa") 0 0 State.init).2.1 [.Number 1, .Number 2]
    [.Symbol "x"] (.Boolean false) [.Number 1, .Number 2] State.init State.init rfl (by decide) rfl

/-- C12 (code defect). `LogicOp<false>::Apply` stops only at an operand whose value is the
boolean `#t`; any other value, truthy or not, is merely remembered as the last one.  So
`(or 1 2)` returns `2` and `(or 7 #f)` returns `#f`, where the first truthy value is `1` and
`7`.  In general: `(or)` is `#f`; when the operands before `e` evaluate to values other than
`#t` and `e` evaluates to `#t`, the form returns `#t` without evaluating what follows; and
when all operands before the last evaluate to values other than `#t`, the form returns the
value of the last one. -/
theorem or_returns_last_value (gen : Nat → String) (fuel : Nat) (scope : Nat) (st : State) :
    Interpreter_Run gen (fuel + 2) "(or 1 2)" st = .ok "2" st ∧
    Interpreter_Run gen (fuel + 2) "(or 7 #f)" st = .ok "#f" st ∧
    Interpreter_Run gen (fuel + 2) "(or)" st = .ok "#f" st ∧
    Interpreter_Run gen (fuel + 2) "(or #f #f 7)" st = .ok "7" st ∧
    Interpreter_Run gen (fuel + 2) "(or #f #t 7)" st = .ok "#t" st ∧
    (∀ (pre post : List Obj) (e : Obj) (vs : List Obj) (st1 st2 : State),
      evalOperands (Eval gen (fuel + 1)) scope pre st = .ok vs st1 →
      (∀ v ∈ vs, v ≠ .Boolean true) →
      Eval gen (fuel + 1) e scope st1 = .ok (.Boolean true) st2 →
      Eval gen (fuel + 2) (.Cell (.Symbol "or") (properList (pre ++ e :: post))) scope st =
        .ok (.Boolean true) st2) ∧
    (∀ (pre : List Obj) (e : Obj) (vs : List Obj) (v : Obj) (st1 st2 : State),
      evalOperands (Eval gen (fuel + 1)) scope pre st = .ok vs st1 →
      (∀ v ∈ vs, v ≠ .Boolean true) →
      Eval gen (fuel + 1) e scope st1 = .ok v st2 →
      Eval gen (fuel + 2) (.Cell (.Symbol "or") (properList (pre ++ [e]))) scope st =
        .ok v st2) := by
  refine ⟨rfl, rfl, rfl, rfl, rfl, ?_, ?_⟩
  · intro pre post e vs st1 st2 h hvs he
    obtain ⟨x, xs, hx⟩ : ∃ x xs, pre ++ e :: post = x :: xs := by
      cases pre with
      | nil => exact ⟨_, _, rfl⟩
      | cons p pre => exact ⟨_, _, rfl⟩
    have hlen : xs.length + 1 = (pre ++ e :: post).length := by rw [hx]; rfl
    rw [hx, Eval_LogicOp gen fuel "or" false (by decide), ← hx]
    exact LogicOp_loop_first false _ scope e post pre vs st st1 st2 .null _ h hvs he
      (by rw [hlen]; simp)
  · intro pre e vs v st1 st2 h hvs he
    obtain ⟨x, xs, hx⟩ : ∃ x xs, pre ++ [e] = x :: xs := by
      cases pre with
      | nil => exact ⟨_, _, rfl⟩
      | cons p pre => exact ⟨_, _, rfl⟩
    have hlen : xs.length + 1 = pre.length + 1 := by
      have := congrArg List.length hx
      simp at this
      omega
    rw [hx, Eval_LogicOp gen fuel "or" false (by decide), ← hx, hlen]
    exact LogicOp_loop_last false _ scope e pre vs v st st1 st2 .null h hvs he

/-! ## `if` -/

/-- C14. `if` requires a boolean condition and evaluates only the chosen branch.  Let the
condition `c` evaluate without error to `v`, leaving the state `st1`.  When `v` is not a
boolean (a number, a symbol, a pair, Nil, ...) both `(if c t)` and `(if c t e)` throw
`RuntimeError` in `st1`, whatever `t` and `e` are, so neither branch is evaluated.  When `v`
is `#t` both forms are the evaluation of `t` alone in `st1`.  When `v` is `#f`, `(if c t e)`
is the evaluation of `e` alone in `st1` and `(if c t)` returns Nil in `st1`.  The reader
produces these two shapes, and the runs at the end show each case on conditions of each kind,
with `(car 5)`, which cannot be evaluated, as the branch not chosen. -/
theorem if_requires_boolean (gen : Nat → String) (fuel : Nat) (scope : Nat) (st : State) :
    (∀ (c t e v : Obj) (st1 : State), Eval gen (fuel + 1) c scope st = .ok v st1 →
      v.isBoolean = false →
      Eval gen (fuel + 2) (ifThen c t) scope st = .throw .RuntimeError st1 ∧
      Eval gen (fuel + 2) (ifThenElse c t e) scope st = .throw .RuntimeError st1) ∧
    (∀ (c t e : Obj) (st1 : State), Eval gen (fuel + 1) c scope st = .ok (.Boolean true) st1 →
      Eval gen (fuel + 2) (ifThen c t) scope st = Eval gen (fuel + 1) t scope st1 ∧
      Eval gen (fuel + 2) (ifThenElse c t e) scope st = Eval gen (fuel + 1) t scope st1) ∧
    (∀ (c t e : Obj) (st1 : State), Eval gen (fuel + 1) c scope st = .ok (.Boolean false) st1 →
      Eval gen (fuel + 2) (ifThen c t) scope st = .ok .null st1 ∧
      Eval gen (fuel + 2) (ifThenElse c t e) scope st = Eval gen (fuel + 1) e scope st1) ∧
    Read 11 "(if 0 1)".data = .ok (ifThen (.Number 0) (.Number 1), []) ∧
    Read 11 "(if 0 1 2)".data = .ok (ifThenElse (.Number 0) (.Number 1) (.Number 2), []) ∧
    Interpreter_Run gen (fuel + 3) "(if 0 1 2)" st = .throw .RuntimeError st ∧
    Interpreter_Run gen (fuel + 3) "(if 0 1)" st = .throw .RuntimeError st ∧
    Interpreter_Run gen (fuel + 3) "(if (quote a) 1 2)" st = .throw .RuntimeError st ∧
    Interpreter_Run gen (fuel + 3) "(if (cons 1 2) 1 2)" st = .throw .RuntimeError st ∧
    Interpreter_Run gen (fuel + 3) "(if '() 1 2)" st = .throw .RuntimeError st ∧
    Interpreter_Run gen (fuel + 3) "(if 0 (car 5) (car 5))" st = .throw .RuntimeError st ∧
    Interpreter_Run gen (fuel + 3) "(if #t 1 (car 5))" st = .ok "1" st ∧
    Interpreter_Run gen (fuel + 3) "(if #f (car 5) 2)" st = .ok "2" st ∧
    Interpreter_Run gen (fuel + 3) "(if (= 1 1) 1)" st = .ok "1" st ∧
    Interpreter_Run gen (fuel + 3) "(if (= 1 2) (car 5))" st = .ok "()" st := by
  refine ⟨?_, ?_, ?_, rfl, rfl, rfl, rfl, rfl, rfl, rfl, rfl, rfl, rfl, rfl, rfl⟩
  · intro c t e v st1 hc hv
    unfold ifThen ifThenElse
    rw [Eval_builtin_form gen fuel _ .If (by decide), Eval_builtin_form gen fuel _ .If (by decide)]
    simp only [Function_Apply, If_Apply, hc, Res.bind]
    cases v <;> first | exact ⟨rfl, rfl⟩ | simp [Obj.isBoolean] at hv
  · intro c t e st1 hc
    unfold ifThen ifThenElse
    rw [Eval_builtin_form gen fuel _ .If (by decide), Eval_builtin_form gen fuel _ .If (by decide)]
    simp only [Function_Apply, If_Apply, hc, Res.bind, and_self]
  · intro c t e st1 hc
    unfold ifThen ifThenElse
    rw [Eval_builtin_form gen fuel _ .If (by decide), Eval_builtin_form gen fuel _ .If (by decide)]
    simp only [Function_Apply, If_Apply, hc, Res.bind]
    exact ⟨rfl, rfl⟩

/-- C14 (instance). The condition `0` of `(if 0 1 2)` evaluates to the number `0`, and the
form throws `RuntimeError`. -/
theorem if_requires_boolean_witness :
    Eval (fun _ => "aaaaaaaaaa") 2 (ifThenElse (.Number 0) (.Number 1) (.Number 2)) 0 State.init =
      .throw .RuntimeError State.init :=
  ((if_requires_boolean (fun _ => "aaaaaaaaaa") 0 0 State.init).1 (.Number 0) (.Number 1)
    (.Number 2) (.Number 0) State.init rfl rfl).2

/-! ## Environment chains -/

theorem EnvChain_functional (scopes : List Scope) :
    ∀ (l1 l2 : List (Nat × Scope)) (p : Option Nat),
      EnvChain scopes p l1 → EnvChain scopes p l2 → l1 = l2 := by
  intro l1
  induction l1 with
  | nil =>
    intro l2 p h1 h2
    cases p with
    | none => cases l2 with
      | nil => rfl
      | cons q l2 => simp [EnvChain] at h2
    | some i => simp [EnvChain] at h1
  | cons q l1 ih =>
    intro l2 p h1 h2
    obtain ⟨j, s⟩ := q
    cases p with
    | none => simp [EnvChain] at h1
    | some i =>
      cases l2 with
      | nil => simp [EnvChain] at h2
      | cons q2 l2 =>
        obtain ⟨j2, s2⟩ := q2
        simp only [EnvChain] at h1 h2
        obtain ⟨rfl, hs, hr⟩ := h1
        obtain ⟨rfl, hs2, hr2⟩ := h2
        rw [hs] at hs2
        injection hs2 with hs2
        subst hs2
        rw [ih l2 _ hr hr2]

/-- From every scope of a chain, the rest of the chain is the chain of that scope. -/
theorem EnvChain_suffix (scopes : List Scope) :
    ∀ (l : List (Nat × Scope)) (p : Option Nat), EnvChain scopes p l →
      ∀ q ∈ l, ∃ l2, EnvChain scopes (some q.1) l2 ∧ l2.length ≤ l.length := by
  intro l
  induction l with
  | nil => intro p _ q hq; simp at hq
  | cons r l ih =>
    intro p h q hq
    obtain ⟨j, s⟩ := r
    cases p with
    | none => simp [EnvChain] at h
    | some i =>
      have h2 := h
      simp only [EnvChain] at h2
      obtain ⟨rfl, _, hr⟩ := h2
      rcases List.mem_cons.1 hq with rfl | hq
      · exact ⟨_, h, le_refl _⟩
      · obtain ⟨l2, hl2, hlen⟩ := ih _ hr q hq
        exact ⟨l2, hl2, by simp; omega⟩

theorem EnvChain_index_lt (scopes : List Scope) :
    ∀ (l : List (Nat × Scope)) (p : Option Nat), EnvChain scopes p l →
      ∀ q ∈ l, q.1 < scopes.length := by
  intro l
  induction l with
  | nil => intro p _ q hq; simp at hq
  | cons r l ih =>
    intro p h q hq
    obtain ⟨j, s⟩ := r
    cases p with
    | none => simp [EnvChain] at h
    | some i =>
      simp only [EnvChain] at h
      obtain ⟨rfl, hs, hr⟩ := h
      rcases List.mem_cons.1 hq with rfl | hq
      · by_contra hlt
        rw [List.getElem?_eq_none (by omega)] at hs
        simp at hs
      · exact ih _ hr q hq

/-- No scope occurs twice on a chain. -/
theorem EnvChain_nodup (scopes : List Scope) :
    ∀ (l : List (Nat × Scope)) (p : Option Nat), EnvChain scopes p l →
      (l.map Prod.fst).Nodup := by
  intro l
  induction l with
  | nil => intro p _; simp
  | cons r l ih =>
    intro p h
    obtain ⟨j, s⟩ := r
    cases p with
    | none => simp [EnvChain] at h
    | some i =>
      have h2 := h
      simp only [EnvChain] at h2
      obtain ⟨rfl, _, hr⟩ := h2
      rw [List.map_cons, List.nodup_cons]
      refine ⟨?_, ih _ hr⟩
      intro hmem
      obtain ⟨q, hq, hqi⟩ := List.mem_map.1 hmem
      obtain ⟨l2, hl2, hlen⟩ := EnvChain_suffix scopes l _ hr q hq
      rw [hqi] at hl2
      have := EnvChain_functional scopes _ _ _ hl2 h
      rw [this] at hlen
      simp at hlen

/-- A chain is no longer than the heap. -/
theorem EnvChain_length (scopes : List Scope) (l : List (Nat × Scope)) (p : Option Nat)
    (h : EnvChain scopes p l) : l.length ≤ scopes.length := by
  have hn := EnvChain_nodup scopes l p h
  have hsub : l.map Prod.fst ⊆ List.range scopes.length := by
    intro i hi
    obtain ⟨q, hq, rfl⟩ := List.mem_map.1 hi
    exact List.mem_range.2 (EnvChain_index_lt scopes l p h q hq)
  have := (List.Nodup.subperm hn hsub).length_le
  simpa using this

/-- The walk of `Scope::At` and `Scope::CheckToSet` stops at the nearest scope of the chain
that binds the name. -/
theorem Scope_walk_found (scopes : List Scope) (name : String) (fr : Nat × Scope)
    (post : List (Nat × Scope)) (v : Obj) (hv : vars_find name fr.2.vars_ = some v) :
    ∀ (pre : List (Nat × Scope)) (p : Option Nat) (fuel : Nat),
      EnvChain scopes p (pre ++ fr :: post) → (∀ q ∈ pre, vars_find name q.2.vars_ = none) →
      pre.length + 1 ≤ fuel → Scope_walk scopes name fuel p = .ok (fr.1, v) := by
  intro pre
  induction pre with
  | nil =>
    intro p fuel h _ hf
    obtain ⟨fuel, rfl⟩ : ∃ k, fuel = k + 1 := ⟨fuel - 1, by simp at hf; omega⟩
    obtain ⟨j, s⟩ := fr
    cases p with
    | none => simp [EnvChain] at h
    | some i =>
      simp only [List.nil_append, EnvChain] at h
      obtain ⟨rfl, hs, _⟩ := h
      simp only [Scope_walk, hs]
      simp only at hv
      rw [hv]
  | cons r pre ih =>
    intro p fuel h hpre hf
    obtain ⟨fuel, rfl⟩ : ∃ k, fuel = k + 1 := ⟨fuel - 1, by simp at hf; omega⟩
    obtain ⟨j, s⟩ := r
    cases p with
    | none => simp [EnvChain] at h
    | some i =>
      simp only [List.cons_append, EnvChain] at h
      obtain ⟨rfl, hs, hr⟩ := h
      have hnone : vars_find name s.vars_ = none := hpre (i, s) (by simp)
      simp only [Scope_walk, hs, hnone]
      exact ih _ fuel hr (fun q hq => hpre q (by simp [hq])) (by simp at hf ⊢; omega)

/-- The walk ends in `NameError` when no scope of the chain binds the name. -/
theorem Scope_walk_missing (scopes : List Scope) (name : String) :
    ∀ (l : List (Nat × Scope)) (p : Option Nat) (fuel : Nat),
      EnvChain scopes p l → (∀ q ∈ l, vars_find name q.2.vars_ = none) →
      l.length + 1 ≤ fuel → Scope_walk scopes name fuel p = .error .NameError := by
  intro l
  induction l with
  | nil =>
    intro p fuel h _ hf
    obtain ⟨fuel, rfl⟩ : ∃ k, fuel = k + 1 := ⟨fuel - 1, by simp at hf; omega⟩
    cases p with
    | none => rfl
    | some i => simp [EnvChain] at h
  | cons r l ih =>
    intro p fuel h hl hf
    obtain ⟨fuel, rfl⟩ : ∃ k, fuel = k + 1 := ⟨fuel - 1, by simp at hf; omega⟩
    obtain ⟨j, s⟩ := r
    cases p with
    | none => simp [EnvChain] at h
    | some i =>
      simp only [EnvChain] at h
      obtain ⟨rfl, hs, hr⟩ := h
      have hnone : vars_find name s.vars_ = none := hl (i, s) (by simp)
      simp only [Scope_walk, hs, hnone]
      exact ih _ fuel hr (fun q hq => hl q (by simp [hq])) (by simp at hf ⊢; omega)

theorem Scope_walk_chain_found (st : State) (scope : Nat) (name : String)
    (pre post : List (Nat × Scope)) (fr : Nat × Scope) (v : Obj)
    (hE : EnvChain st.scopes (some scope) (pre ++ fr :: post))
    (hpre : ∀ q ∈ pre, vars_find name q.2.vars_ = none)
    (hv : vars_find name fr.2.vars_ = some v) :
    Scope_walk st.scopes name (st.scopes.length + 1) (some scope) = .ok (fr.1, v) := by
  have hlen := EnvChain_length _ _ _ hE
  simp only [List.length_append, List.length_cons] at hlen
  exact Scope_walk_found st.scopes name fr post v hv pre _ _ hE hpre (by omega)

theorem Scope_walk_chain_missing (st : State) (scope : Nat) (name : String)
    (E : List (Nat × Scope)) (hE : EnvChain st.scopes (some scope) E)
    (hmiss : ∀ q ∈ E, vars_find name q.2.vars_ = none) :
    Scope_walk st.scopes name (st.scopes.length + 1) (some scope) = .error .NameError := by
  have hlen := EnvChain_length _ _ _ hE
  exact Scope_walk_missing st.scopes name E _ _ hE hmiss (by omega)

theorem Run_define_abs (gen : Nat → String) (fuel : Nat) :
    Interpreter_Run gen (fuel + 2) "(define abs 7)" State.init =
      .ok "()" ⟨[⟨none, [("abs", .Number 7)]⟩], 0⟩ := by
  rfl

theorem Run_abs_defined (gen : Nat → String) (fuel : Nat) :
    Interpreter_Run gen (fuel + 2) "(abs -3)" ⟨[⟨none, [("abs", .Number 7)]⟩], 0⟩ =
      .ok "3" ⟨[⟨none, [("abs", .Number 7)]⟩], 0⟩ := by
  rfl

theorem k_functions_primitiveNames (s : String) :
    (k_functions s).isSome = true ↔ s ∈ primitiveNames := by
  constructor
  · intro h
    by_contra hn
    simp only [primitiveNames, List.mem_cons, List.mem_singleton, List.not_mem_nil, or_false,
      not_or] at hn
    have hnone : k_functions s = none := by
      unfold k_functions
      simp only [hn, if_false]
    rw [hnone] at h
    simp at h
  · intro h
    have hall : ∀ n ∈ primitiveNames, (k_functions n).isSome = true := by decide
    exact hall s h

/-- C15. Evaluating the symbol `s` in the scope `scope`, whose environment chain is `E`.  When
`s` is a name of the primitive table the result is the builtin stored there, whatever `E`
binds; the table has exactly the 34 names of `primitiveNames`.  Otherwise the result is the
value that `s` has in the nearest scope of `E` that binds it, and `NameError` when no scope of
`E` binds it.  The state is left as it was.  For example, after `(define abs 7)` the form
`(abs -3)` still applies the builtin. -/
theorem symbol_evaluation (gen : Nat → String) (fuel : Nat) (s : String) (scope : Nat)
    (st : State) (E : List (Nat × Scope)) (hE : EnvChain st.scopes (some scope) E) :
    (∀ f, k_functions s = some f →
      Eval gen (fuel + 1) (.Symbol s) scope st = .ok (.Function f) st) ∧
    (k_functions s = none →
      ∀ (pre post : List (Nat × Scope)) (fr : Nat × Scope) (v : Obj), E = pre ++ fr :: post →
        (∀ q ∈ pre, vars_find s q.2.vars_ = none) → vars_find s fr.2.vars_ = some v →
        Eval gen (fuel + 1) (.Symbol s) scope st = .ok v st) ∧
    (k_functions s = none → (∀ q ∈ E, vars_find s q.2.vars_ = none) →
      Eval gen (fuel + 1) (.Symbol s) scope st = .throw .NameError st) ∧
    ((k_functions s).isSome = true ↔ s ∈ primitiveNames) ∧
    primitiveNames.length = 34 ∧ primitiveNames.Nodup ∧
    (Interpreter_RunAll gen (fuel + 2) ["(define abs 7)", "(abs -3)"] State.init).1 =
      [.ok "()", .ok "3"] := by
  refine ⟨?_, ?_, ?_, k_functions_primitiveNames s, rfl, by decide, ?_⟩
  · intro f hf
    simp only [Eval_Symbol, Symbol_Eval, hf]
  · intro hk pre post fr v hEq hpre hv
    subst hEq
    simp only [Eval_Symbol, Symbol_Eval, hk, Scope_At,
      Scope_walk_chain_found st scope s pre post fr v hE hpre hv, Res.lift]
  · intro hk hmiss
    simp only [Eval_Symbol, Symbol_Eval, hk, Scope_At,
      Scope_walk_chain_missing st scope s E hE hmiss, Res.lift]
  · simp only [Interpreter_RunAll, Run_define_abs, Run_abs_defined, Res.state, Res.result]

/-- C15 (instance). In a scope that binds `y` and whose parent, the global scope, binds `x`,
the symbol `x` evaluates to the value it has in the global scope. -/
theorem symbol_evaluation_witness :
    Eval (fun _ => "aaaaaaaaaa") 1 (.Symbol "x") 1
        ⟨[⟨none, [("x", .Number 1)]⟩, ⟨some 0, [("y", .Number 2)]⟩], 0⟩ =
      .ok (.Number 1) ⟨[⟨none, [("x", .Number 1)]⟩, ⟨some 0, [("y", .Number 2)]⟩], 0⟩ :=
  (symbol_evaluation (fun _ => "aaaaaaaaaa") 0 "x" 1
    ⟨[⟨none, [("x", .Number 1)]⟩, ⟨some 0, [("y", .Number 2)]⟩], 0⟩
    [(1, ⟨some 0, [("y", .Number 2)]⟩), (0, ⟨none, [("x", .Number 1)]⟩)]
    ⟨rfl, rfl, rfl, rfl, trivial⟩).2.1 (by decide) [(1, ⟨some 0, [("y", .Number 2)]⟩)] []
    (0, ⟨none, [("x", .Number 1)]⟩) (.Number 1) rfl (by decide) rfl

/-! ## The heap of scopes only grows -/

theorem le_bind {α β : Type} (n : Nat) (r : Res α) (f : α → State → Res β)
    (h1 : n ≤ r.state.scopes.length)
    (h2 : ∀ v s, n ≤ s.scopes.length → n ≤ (f v s).state.scopes.length) :
    n ≤ (r.bind f).state.scopes.length := by
  cases r with
  | ok v s => exact h2 v s h1
  | throw e s => exact h1

theorem KeepsHeap.le {E : Evaluator} (hE : KeepsHeap E) (n : Nat) (obj : Obj) (scope : Nat)
    (st : State) (hn : n ≤ st.scopes.length) : n ≤ (E obj scope st).state.scopes.length :=
  le_trans hn (hE obj scope st)

theorem Scope_Assign_length (st : State) (scope : Nat) (name : String) (value : Obj) :
    (Scope_Assign st scope name value).scopes.length = st.scopes.length := by
  unfold Scope_Assign
  split <;> simp

theorem le_lift {α : Type} (n : Nat) (x : Except Err α) (st : State) (hn : n ≤ st.scopes.length) :
    n ≤ (Res.lift x st).state.scopes.length := by
  cases x <;> exact hn

theorem MakeVector_loop_grows (E : Evaluator) (hE : KeepsHeap E) (scope : Nat) (n : Nat) :
    ∀ (head : Obj) (result : List Obj) (st : State), n ≤ st.scopes.length →
      n ≤ (MakeVector_loop E scope head result st).state.scopes.length := by
  intro head
  induction head with
  | Cell first_ second_ _ ih2 =>
    intro result st hn
    unfold MakeVector_loop
    refine le_bind n _ _ (hE.le n _ _ _ hn) ?_
    intro t s hs
    split
    · exact hs
    · split
      · exact hs
      · exact ih2 _ _ hs
  | _ => intro result st hn; exact hn

theorem MakeVector_grows (E : Evaluator) (hE : KeepsHeap E) (scope : Nat) (n : Nat) (head : Obj)
    (st : State) (hn : n ≤ st.scopes.length) :
    n ≤ (MakeVector E head scope st).state.scopes.length := by
  unfold MakeVector
  split
  · exact hn
  · split
    · split
      · exact hn
      · exact MakeVector_loop_grows E hE scope n _ _ st hn
    · exact hn

theorem LogicOp_loop_grows (op : Bool) (E : Evaluator) (hE : KeepsHeap E) (scope : Nat) (n : Nat) :
    ∀ (args : Nat) (arg last : Obj) (st : State), n ≤ st.scopes.length →
      n ≤ (LogicOp_loop op E scope args arg last st).state.scopes.length := by
  intro args
  induction args with
  | zero => intro arg last st hn; exact hn
  | succ args ih =>
    intro arg last st hn
    unfold LogicOp_loop
    split
    · refine le_bind n _ _ (hE.le n _ _ _ hn) ?_
      intro val s hs
      repeat' split
      all_goals first | exact hs | exact ih _ _ s hs
    · exact hn

theorem Cdr_loop_grows (E : Evaluator) (hE : KeepsHeap E) (head : Obj) (scope : Nat) (n : Nat) :
    ∀ (fuel : Nat) (st : State), n ≤ st.scopes.length →
      n ≤ (Cdr_loop E head scope fuel st).state.scopes.length := by
  intro fuel
  induction fuel with
  | zero => intro st hn; exact hn
  | succ fuel ih =>
    intro st hn
    unfold Cdr_loop
    refine le_bind n _ _ (hE.le n _ _ _ hn) ?_
    intro cell s hs
    split
    · exact hs
    · exact ih s hs

theorem LambdaFunction_bind_grows (E : Evaluator) (hE : KeepsHeap E) (scope : Nat) (n : Nat) :
    ∀ (args : List String) (cell : Obj) (st : State), n ≤ st.scopes.length →
      n ≤ (LambdaFunction_bind E scope args cell st).state.scopes.length := by
  intro args
  induction args with
  | nil => intro cell st hn; exact hn
  | cons name args ih =>
    intro cell st hn
    unfold LambdaFunction_bind
    split
    · refine le_bind n _ _ (hE.le n _ _ _ hn) ?_
      intro arg s hs
      exact ih _ _ (by rw [Scope_Assign_length]; exact hs)
    · exact hn

theorem LambdaFunction_body_grows (E : Evaluator) (hE : KeepsHeap E) (new_scope : Nat) (n : Nat) :
    ∀ (body res : Obj) (st : State), n ≤ st.scopes.length →
      n ≤ (LambdaFunction_body E new_scope body res st).state.scopes.length := by
  intro body
  induction body with
  | Cell first_ second_ _ ih2 =>
    intro res st hn
    unfold LambdaFunction_body
    refine le_bind n _ _ (hE.le n _ _ _ hn) ?_
    intro r s hs
    exact ih2 _ s hs
  | _ => intro res st hn; exact hn

theorem LambdaFunction_Apply_grows (E : Evaluator) (hE : KeepsHeap E) (scope_ : Nat) (body_ : Obj)
    (args_ : List String) (head : Obj) (st : State) (n : Nat) (hn : n ≤ st.scopes.length) :
    n ≤ (LambdaFunction_Apply E scope_ body_ args_ head st).state.scopes.length := by
  rw [LambdaFunction_Apply_eq]
  refine le_bind n _ _ (LambdaFunction_bind_grows E hE scope_ n _ _ st hn) ?_
  intro _ s hs
  exact LambdaFunction_body_grows E hE _ n _ _ _ (by simp; omega)

theorem ReturnItself_grows (head : Obj) (st : State) (n : Nat) (hn : n ≤ st.scopes.length) :
    n ≤ (ReturnItself_Apply head st).state.scopes.length := by
  unfold ReturnItself_Apply
  repeat' split
  all_goals exact hn

theorem IsType_grows (is : Obj → Bool) (E : Evaluator) (hE : KeepsHeap E) (head : Obj) (scope : Nat) (st : State)
    (n : Nat) (hn : n ≤ st.scopes.length) :
    n ≤ (IsType_Apply is E head scope st).state.scopes.length := by
  unfold IsType_Apply
  repeat' first
    | exact hn
    | assumption
    | exact hE.le n _ _ _ (by assumption)
    | exact MakeVector_grows E hE _ n _ _ (by assumption)
    | exact LogicOp_loop_grows _ E hE _ n _ _ _ _ (by assumption)
    | exact Cdr_loop_grows E hE _ _ n _ _ (by assumption)
    | exact le_lift n _ _ (by assumption)
    | (refine le_bind n _ _ ?_ ?_)
    | intro _ _ _
    | split

theorem Not_grows (head : Obj) (st : State) (n : Nat) (hn : n ≤ st.scopes.length) :
    n ≤ (Not_Apply head st).state.scopes.length := by
  unfold Not_Apply
  repeat' split
  all_goals exact hn

theorem Abs_grows (head : Obj) (st : State) (n : Nat) (hn : n ≤ st.scopes.length) :
    n ≤ (Abs_Apply head st).state.scopes.length := by
  unfold Abs_Apply
  repeat' split
  all_goals exact hn

theorem CompareNumbers_grows (cmp : Int → Int → Bool) (E : Evaluator) (hE : KeepsHeap E) (head : Obj) (scope : Nat) (st : State)
    (n : Nat) (hn : n ≤ st.scopes.length) :
    n ≤ (CompareNumbers_Apply cmp E head scope st).state.scopes.length := by
  unfold CompareNumbers_Apply
  repeat' first
    | exact hn
    | assumption
    | exact hE.le n _ _ _ (by assumption)
    | exact MakeVector_grows E hE _ n _ _ (by assumption)
    | exact LogicOp_loop_grows _ E hE _ n _ _ _ _ (by assumption)
    | exact Cdr_loop_grows E hE _ _ n _ _ (by assumption)
    | exact le_lift n _ _ (by assumption)
    | (refine le_bind n _ _ ?_ ?_)
    | intro _ _ _

theorem AccumulateNumbers_grows (op : Int → Int → Except Err Int) (init : Int) (has_one : Bool) (E : Evaluator) (hE : KeepsHeap E) (head : Obj) (scope : Nat) (st : State)
    (n : Nat) (hn : n ≤ st.scopes.length) :
    n ≤ (AccumulateNumbers_Apply op init has_one E head scope st).state.scopes.length := by
  unfold AccumulateNumbers_Apply
  repeat' first
    | exact hn
    | assumption
    | exact hE.le n _ _ _ (by assumption)
    | exact MakeVector_grows E hE _ n _ _ (by assumption)
    | exact LogicOp_loop_grows _ E hE _ n _ _ _ _ (by assumption)
    | exact Cdr_loop_grows E hE _ _ n _ _ (by assumption)
    | exact le_lift n _ _ (by assumption)
    | (refine le_bind n _ _ ?_ ?_)
    | intro _ _ _
    | split

theorem IsPair_grows (E : Evaluator) (hE : KeepsHeap E) (head : Obj) (scope : Nat) (st : State)
    (n : Nat) (hn : n ≤ st.scopes.length) :
    n ≤ (IsPair_Apply E head scope st).state.scopes.length := by
  unfold IsPair_Apply
  repeat' first
    | exact hn
    | assumption
    | exact hE.le n _ _ _ (by assumption)
    | exact MakeVector_grows E hE _ n _ _ (by assumption)
    | exact LogicOp_loop_grows _ E hE _ n _ _ _ _ (by assumption)
    | exact Cdr_loop_grows E hE _ _ n _ _ (by assumption)
    | exact le_lift n _ _ (by assumption)
    | (refine le_bind n _ _ ?_ ?_)
    | intro _ _ _
    | split

theorem IsNull_grows (E : Evaluator) (hE : KeepsHeap E) (head : Obj) (scope : Nat) (st : State)
    (n : Nat) (hn : n ≤ st.scopes.length) :
    n ≤ (IsNull_Apply E head scope st).state.scopes.length := by
  unfold IsNull_Apply
  repeat' first
    | exact hn
    | assumption
    | exact hE.le n _ _ _ (by assumption)
    | exact MakeVector_grows E hE _ n _ _ (by assumption)
    | exact LogicOp_loop_grows _ E hE _ n _ _ _ _ (by assumption)
    | exact Cdr_loop_grows E hE _ _ n _ _ (by assumption)
    | exact le_lift n _ _ (by assumption)
    | (refine le_bind n _ _ ?_ ?_)
    | intro _ _ _
    | split

theorem IsList_grows (E : Evaluator) (hE : KeepsHeap E) (head : Obj) (scope : Nat) (st : State)
    (n : Nat) (hn : n ≤ st.scopes.length) :
    n ≤ (IsList_Apply E head scope st).state.scopes.length := by
  unfold IsList_Apply
  repeat' first
    | exact hn
    | assumption
    | exact hE.le n _ _ _ (by assumption)
    | exact MakeVector_grows E hE _ n _ _ (by assumption)
    | exact LogicOp_loop_grows _ E hE _ n _ _ _ _ (by assumption)
    | exact Cdr_loop_grows E hE _ _ n _ _ (by assumption)
    | exact le_lift n _ _ (by assumption)
    | (refine le_bind n _ _ ?_ ?_)
    | intro _ _ _
    | split

theorem Cons_grows (E : Evaluator) (hE : KeepsHeap E) (head : Obj) (scope : Nat) (st : State)
    (n : Nat) (hn : n ≤ st.scopes.length) :
    n ≤ (Cons_Apply E head scope st).state.scopes.length := by
  unfold Cons_Apply
  repeat' first
    | exact hn
    | assumption
    | exact hE.le n _ _ _ (by assumption)
    | exact MakeVector_grows E hE _ n _ _ (by assumption)
    | exact LogicOp_loop_grows _ E hE _ n _ _ _ _ (by assumption)
    | exact Cdr_loop_grows E hE _ _ n _ _ (by assumption)
    | exact le_lift n _ _ (by assumption)
    | (refine le_bind n _ _ ?_ ?_)
    | intro _ _ _
    | split

theorem Car_grows (E : Evaluator) (hE : KeepsHeap E) (head : Obj) (scope : Nat) (st : State)
    (n : Nat) (hn : n ≤ st.scopes.length) :
    n ≤ (Car_Apply E head scope st).state.scopes.length := by
  unfold Car_Apply
  repeat' first
    | exact hn
    | assumption
    | exact hE.le n _ _ _ (by assumption)
    | exact MakeVector_grows E hE _ n _ _ (by assumption)
    | exact LogicOp_loop_grows _ E hE _ n _ _ _ _ (by assumption)
    | exact Cdr_loop_grows E hE _ _ n _ _ (by assumption)
    | exact le_lift n _ _ (by assumption)
    | (refine le_bind n _ _ ?_ ?_)
    | intro _ _ _
    | split

theorem Cdr_grows (fuel : Nat) (E : Evaluator) (hE : KeepsHeap E) (head : Obj) (scope : Nat) (st : State)
    (n : Nat) (hn : n ≤ st.scopes.length) :
    n ≤ (Cdr_Apply E fuel head scope st).state.scopes.length := by
  unfold Cdr_Apply
  repeat' first
    | exact hn
    | assumption
    | exact hE.le n _ _ _ (by assumption)
    | exact MakeVector_grows E hE _ n _ _ (by assumption)
    | exact LogicOp_loop_grows _ E hE _ n _ _ _ _ (by assumption)
    | exact Cdr_loop_grows E hE _ _ n _ _ (by assumption)
    | exact le_lift n _ _ (by assumption)
    | (refine le_bind n _ _ ?_ ?_)
    | intro _ _ _
    | split

theorem List_grows (E : Evaluator) (hE : KeepsHeap E) (head : Obj) (scope : Nat) (st : State)
    (n : Nat) (hn : n ≤ st.scopes.length) :
    n ≤ (List_Apply E head scope st).state.scopes.length := by
  unfold List_Apply
  repeat' first
    | exact hn
    | assumption
    | exact hE.le n _ _ _ (by assumption)
    | exact MakeVector_grows E hE _ n _ _ (by assumption)
    | exact LogicOp_loop_grows _ E hE _ n _ _ _ _ (by assumption)
    | exact Cdr_loop_grows E hE _ _ n _ _ (by assumption)
    | exact le_lift n _ _ (by assumption)
    | (refine le_bind n _ _ ?_ ?_)
    | intro _ _ _
    | split

theorem ListRef_grows (E : Evaluator) (hE : KeepsHeap E) (head : Obj) (scope : Nat) (st : State)
    (n : Nat) (hn : n ≤ st.scopes.length) :
    n ≤ (ListRef_Apply E head scope st).state.scopes.length := by
  unfold ListRef_Apply
  dsimp only
  repeat' first
    | exact hn
    | assumption
    | exact hE.le n _ _ _ (by assumption)
    | exact MakeVector_grows E hE _ n _ _ (by assumption)
    | exact LogicOp_loop_grows _ E hE _ n _ _ _ _ (by assumption)
    | exact Cdr_loop_grows E hE _ _ n _ _ (by assumption)
    | exact le_lift n _ _ (by assumption)
    | (refine le_bind n _ _ ?_ ?_)
    | intro _ _ _
    | split

theorem ListTail_grows (E : Evaluator) (hE : KeepsHeap E) (head : Obj) (scope : Nat) (st : State)
    (n : Nat) (hn : n ≤ st.scopes.length) :
    n ≤ (ListTail_Apply E head scope st).state.scopes.length := by
  unfold ListTail_Apply
  dsimp only
  repeat' first
    | exact hn
    | assumption
    | exact hE.le n _ _ _ (by assumption)
    | exact MakeVector_grows E hE _ n _ _ (by assumption)
    | exact LogicOp_loop_grows _ E hE _ n _ _ _ _ (by assumption)
    | exact Cdr_loop_grows E hE _ _ n _ _ (by assumption)
    | exact le_lift n _ _ (by assumption)
    | (refine le_bind n _ _ ?_ ?_)
    | intro _ _ _
    | split

theorem LogicOp_grows (op : Bool) (E : Evaluator) (hE : KeepsHeap E) (head : Obj) (scope : Nat) (st : State)
    (n : Nat) (hn : n ≤ st.scopes.length) :
    n ≤ (LogicOp_Apply op E head scope st).state.scopes.length := by
  unfold LogicOp_Apply
  repeat' first
    | exact hn
    | assumption
    | exact hE.le n _ _ _ (by assumption)
    | exact MakeVector_grows E hE _ n _ _ (by assumption)
    | exact LogicOp_loop_grows _ E hE _ n _ _ _ _ (by assumption)
    | exact Cdr_loop_grows E hE _ _ n _ _ (by assumption)
    | exact le_lift n _ _ (by assumption)
    | (refine le_bind n _ _ ?_ ?_)
    | intro _ _ _
    | split

theorem If_grows (E : Evaluator) (hE : KeepsHeap E) (head : Obj) (scope : Nat) (st : State)
    (n : Nat) (hn : n ≤ st.scopes.length) :
    n ≤ (If_Apply E head scope st).state.scopes.length := by
  unfold If_Apply
  repeat' first
    | exact hn
    | assumption
    | exact hE.le n _ _ _ (by assumption)
    | exact MakeVector_grows E hE _ n _ _ (by assumption)
    | exact LogicOp_loop_grows _ E hE _ n _ _ _ _ (by assumption)
    | exact Cdr_loop_grows E hE _ _ n _ _ (by assumption)
    | exact le_lift n _ _ (by assumption)
    | (refine le_bind n _ _ ?_ ?_)
    | intro _ _ _
    | split

theorem Define_grows (E : Evaluator) (hE : KeepsHeap E) (head : Obj) (scope : Nat) (st : State)
    (n : Nat) (hn : n ≤ st.scopes.length) :
    n ≤ (Define_Apply E head scope st).state.scopes.length := by
  unfold Define_Apply
  simp only [Scope_new]
  repeat' first
    | exact hn
    | assumption
    | exact hE.le n _ _ _ (by assumption)
    | exact MakeVector_grows E hE _ n _ _ (by assumption)
    | exact LogicOp_loop_grows _ E hE _ n _ _ _ _ (by assumption)
    | exact Cdr_loop_grows E hE _ _ n _ _ (by assumption)
    | exact le_lift n _ _ (by assumption)
    | (refine le_bind n _ _ ?_ ?_)
    | intro _ _ _
    | split
    | (simp only [Res.state, Scope_Assign_length, List.length_append, List.length_singleton])
    | omega

theorem Set_grows (E : Evaluator) (hE : KeepsHeap E) (head : Obj) (scope : Nat) (st : State)
    (n : Nat) (hn : n ≤ st.scopes.length) :
    n ≤ (Set_Apply E head scope st).state.scopes.length := by
  unfold Set_Apply
  repeat' first
    | exact hn
    | assumption
    | exact hE.le n _ _ _ (by assumption)
    | exact MakeVector_grows E hE _ n _ _ (by assumption)
    | exact LogicOp_loop_grows _ E hE _ n _ _ _ _ (by assumption)
    | exact Cdr_loop_grows E hE _ _ n _ _ (by assumption)
    | exact le_lift n _ _ (by assumption)
    | (refine le_bind n _ _ ?_ ?_)
    | intro _ _ _
    | split
    | (simp only [Res.state, Scope_Assign_length, List.length_append, List.length_singleton])

theorem SetPair_body_grows (car : Bool) (E : Evaluator) (hE : KeepsHeap E) (name : String)
    (second_ : Obj) (scope : Nat) (st : State) (n : Nat) (hn : n ≤ st.scopes.length) :
    n ≤ (SetPair_body car E name second_ scope st).state.scopes.length := by
  unfold SetPair_body
  repeat' first
    | exact hn
    | assumption
    | exact hE.le n _ _ _ (by assumption)
    | exact MakeVector_grows E hE _ n _ _ (by assumption)
    | exact LogicOp_loop_grows _ E hE _ n _ _ _ _ (by assumption)
    | exact Cdr_loop_grows E hE _ _ n _ _ (by assumption)
    | exact le_lift n _ _ (by assumption)
    | (refine le_bind n _ _ ?_ ?_)
    | intro _ _ _
    | split
    | (simp only [Res.state, Scope_Assign_length, List.length_append, List.length_singleton])

theorem SetPair_grows (car : Bool) (E : Evaluator) (hE : KeepsHeap E) (head : Obj) (scope : Nat)
    (st : State) (n : Nat) (hn : n ≤ st.scopes.length) :
    n ≤ (SetPair_Apply car E head scope st).state.scopes.length := by
  unfold SetPair_Apply
  repeat' first
    | exact hn
    | exact SetPair_body_grows car E hE _ _ _ _ n (by assumption)
    | exact hE.le n _ _ _ (by assumption)
    | assumption
    | (refine le_bind n _ _ ?_ ?_)
    | intro _ _ _
    | split

theorem CreateLambda_grows (gen : Nat → String) (head : Obj) (scope : Nat) (st : State)
    (n : Nat) (hn : n ≤ st.scopes.length) :
    n ≤ (CreateLambda_Apply gen head scope st).state.scopes.length := by
  unfold CreateLambda_Apply
  simp only [Scope_new]
  repeat' split
  all_goals first | exact hn | (simp only [Res.state, Scope_Assign_length, List.length_append]; omega)

theorem Function_Apply_grows (gen : Nat → String) (E : Evaluator) (hE : KeepsHeap E) (fuel : Nat)
    (f : Function) (head : Obj) (scope : Nat) (st : State) (n : Nat) (hn : n ≤ st.scopes.length) :
    n ≤ (Function_Apply gen E fuel f head scope st).state.scopes.length := by
  cases f <;> simp only [Function_Apply]
  · exact ReturnItself_grows head st n hn
  · exact IsType_grows _ E hE head scope st n hn
  · exact IsType_grows _ E hE head scope st n hn
  · exact IsType_grows _ E hE head scope st n hn
  · exact Not_grows head st n hn
  · exact Abs_grows head st n hn
  · exact CompareNumbers_grows _ E hE head scope st n hn
  · exact CompareNumbers_grows _ E hE head scope st n hn
  · exact CompareNumbers_grows _ E hE head scope st n hn
  · exact CompareNumbers_grows _ E hE head scope st n hn
  · exact CompareNumbers_grows _ E hE head scope st n hn
  · exact AccumulateNumbers_grows _ _ _ E hE head scope st n hn
  · exact AccumulateNumbers_grows _ _ _ E hE head scope st n hn
  · exact AccumulateNumbers_grows _ _ _ E hE head scope st n hn
  · exact AccumulateNumbers_grows _ _ _ E hE head scope st n hn
  · exact AccumulateNumbers_grows _ _ _ E hE head scope st n hn
  · exact AccumulateNumbers_grows _ _ _ E hE head scope st n hn
  · exact IsPair_grows E hE head scope st n hn
  · exact IsNull_grows E hE head scope st n hn
  · exact IsList_grows E hE head scope st n hn
  · exact Cons_grows E hE head scope st n hn
  · exact Car_grows E hE head scope st n hn
  · exact Cdr_grows _ E hE head scope st n hn
  · exact List_grows E hE head scope st n hn
  · exact ListRef_grows E hE head scope st n hn
  · exact ListTail_grows E hE head scope st n hn
  · exact LogicOp_grows _ E hE head scope st n hn
  · exact LogicOp_grows _ E hE head scope st n hn
  · exact If_grows E hE head scope st n hn
  · exact Define_grows E hE head scope st n hn
  · exact Set_grows E hE head scope st n hn
  · exact SetPair_grows _ E hE head scope st n hn
  · exact SetPair_grows _ E hE head scope st n hn
  · exact CreateLambda_grows gen head scope st n hn

theorem Object_Apply_grows (gen : Nat → String) (E : Evaluator) (hE : KeepsHeap E) (fuel : Nat)
    (obj head : Obj) (scope : Nat) (st : State) (n : Nat) (hn : n ≤ st.scopes.length) :
    n ≤ (Object_Apply gen E fuel obj head scope st).state.scopes.length := by
  unfold Object_Apply
  split
  · exact LambdaFunction_Apply_grows E hE _ _ _ _ st n hn
  · exact Function_Apply_grows gen E hE fuel _ _ _ st n hn
  · exact hn
  · exact hn

theorem Cell_Eval_grows (gen : Nat → String) (E : Evaluator) (hE : KeepsHeap E) (fuel : Nat)
    (first_ second_ : Obj) (scope : Nat) (st : State) (n : Nat) (hn : n ≤ st.scopes.length) :
    n ≤ (Cell_Eval gen E fuel first_ second_ scope st).state.scopes.length := by
  unfold Cell_Eval
  repeat' first
    | exact hn
    | assumption
    | exact hE.le n _ _ _ (by assumption)
    | exact Object_Apply_grows gen E hE fuel _ _ _ _ n (by assumption)
    | (refine le_bind n _ _ ?_ ?_)
    | intro _ _ _
    | split

/-- No evaluation removes a scope from the heap. -/
theorem Eval_KeepsHeap (gen : Nat → String) : ∀ fuel, KeepsHeap (Eval gen fuel) := by
  intro fuel
  induction fuel with
  | zero => intro obj scope st; exact le_refl _
  | succ fuel ih =>
    intro obj scope st
    cases obj with
    | Symbol value_ =>
      simp only [Eval, Symbol_Eval]
      split
      · exact le_refl _
      · exact le_lift _ _ _ (le_refl _)
    | Cell first_ second_ => exact Cell_Eval_grows gen _ ih fuel first_ second_ scope st _ (le_refl _)
    | _ => exact le_refl _

theorem Eval_ok_length (gen : Nat → String) (fuel : Nat) (obj : Obj) (scope : Nat)
    (st st1 : State) (v : Obj) (h : Eval gen fuel obj scope st = .ok v st1) :
    st.scopes.length ≤ st1.scopes.length := by
  have := Eval_KeepsHeap gen fuel obj scope st
  rw [h] at this
  exact this

/-! ## `set!` -/

theorem vars_find_assign_same (name : String) (value : Obj) (m : List (String × Obj)) :
    vars_find name (vars_assign name value m) = some value := by
  induction m with
  | nil => simp [vars_assign, vars_find]
  | cons kv m ih =>
    obtain ⟨k, v⟩ := kv
    by_cases hk : k = name
    · simp [vars_assign, vars_find, hk]
    · simp [vars_assign, vars_find, hk, ih]

theorem vars_find_assign_other (name n : String) (value : Obj) (m : List (String × Obj))
    (hn : n ≠ name) : vars_find n (vars_assign name value m) = vars_find n m := by
  induction m with
  | nil => simp [vars_assign, vars_find, Ne.symm hn]
  | cons kv m ih =>
    obtain ⟨k, v⟩ := kv
    by_cases hk : k = name
    · have hkn : ¬ k = n := by rw [hk]; exact Ne.symm hn
      simp [vars_assign, vars_find, hk, hkn, Ne.symm hn]
    · by_cases hkn : k = n
      · subst hkn
        simp [vars_assign, vars_find, hn]
      · simp [vars_assign, vars_find, hk, hkn, ih]

theorem binding_Assign_same (st : State) (i : Nat) (name : String) (value : Obj)
    (hi : i < st.scopes.length) : binding (Scope_Assign st i name value) i name = some value := by
  simp [binding, Scope_Assign, List.getElem?_eq_getElem hi, hi, vars_find_assign_same]

theorem binding_Assign_other (st : State) (i j : Nat) (name n : String) (value : Obj)
    (h : (j, n) ≠ (i, name)) : binding (Scope_Assign st i name value) j n = binding st j n := by
  unfold binding Scope_Assign
  cases hs : st.scopes[i]? with
  | none => rfl
  | some s =>
    by_cases hji : j = i
    · subst hji
      have hn : n ≠ name := fun hn => h (by rw [hn])
      have hj : j < st.scopes.length := by
        by_contra hlt
        rw [List.getElem?_eq_none (by omega)] at hs
        simp at hs
      simp [hs, List.getElem?_set_self, hj, vars_find_assign_other _ _ _ _ hn]
    · simp [List.getElem?_set_ne (Ne.symm hji)]

theorem parent_Assign (st : State) (i j : Nat) (name : String) (value : Obj) :
    parent (Scope_Assign st i name value) j = parent st j := by
  unfold parent Scope_Assign
  cases hs : st.scopes[i]? with
  | none => rfl
  | some s =>
    by_cases hji : j = i
    · subst hji
      have hj : j < st.scopes.length := by
        by_contra hlt
        rw [List.getElem?_eq_none (by omega)] at hs
        simp at hs
      simp [hs, List.getElem?_set_self, hj]
    · simp [List.getElem?_set_ne (Ne.symm hji)]

theorem names_Assign (st : State) (i : Nat) (name : String) (value : Obj) :
    (Scope_Assign st i name value).names = st.names := by
  unfold Scope_Assign
  split <;> rfl

theorem Scope_walk_Assign (st : State) (i : Nat) (name : String) (value : Obj)
    (hi : i < st.scopes.length) (k : Nat) :
    Scope_walk (Scope_Assign st i name value).scopes name (k + 1) (some i) = .ok (i, value) := by
  have hb := binding_Assign_same st i name value hi
  unfold binding at hb
  unfold Scope_walk
  cases hs : (Scope_Assign st i name value).scopes[i]? with
  | none => rw [hs] at hb; simp at hb
  | some s =>
    rw [hs] at hb
    simp only at hb
    simp only [hb]

theorem Scope_At_Assign (st : State) (i : Nat) (name : String) (value : Obj)
    (hi : i < st.scopes.length) : Scope_At (Scope_Assign st i name value) i name = .ok value := by
  simp only [Scope_At, Scope_walk_Assign st i name value hi]

theorem Scope_CheckToSet_Assign (st : State) (i : Nat) (name : String) (value : Obj)
    (hi : i < st.scopes.length) :
    Scope_CheckToSet (Scope_Assign st i name value) i name = .ok i := by
  simp only [Scope_CheckToSet, Scope_walk_Assign st i name value hi]

theorem Run_define_x_10 (gen : Nat → String) (fuel : Nat) (st : State) :
    Interpreter_Run gen (fuel + 3) "(define x 10)" st =
      .ok "()" (Scope_Assign st 0 "x" (.Number 10)) := by
  rfl

theorem Run_set_x (gen : Nat → String) (fuel : Nat) (st : State) (h0 : 0 < st.scopes.length) :
    Interpreter_Run gen (fuel + 3) "(set! x (+ x 1))" (Scope_Assign st 0 "x" (.Number 10)) =
      .ok "()" (Scope_Assign (Scope_Assign st 0 "x" (.Number 10)) 0 "x" (.Number 11)) := by
  rw [Run_of_Read gen _ "(set! x (+ x 1))" _ (setForm "x"
    (.Cell (.Symbol "+") (.Cell (.Symbol "x") (.Cell (.Number 1) .null)))) (by decide)
    (by decide) rfl]
  unfold setForm
  rw [Eval_builtin_form gen (fuel + 1) _ .Set (by decide)]
  have hx : Eval gen (fuel + 1) (.Symbol "x") 0 (Scope_Assign st 0 "x" (.Number 10)) =
      .ok (.Number 10) (Scope_Assign st 0 "x" (.Number 10)) := by
    simp only [Eval_Symbol, Symbol_Eval, show k_functions "x" = none by decide,
      Scope_At_Assign st 0 "x" _ h0, Res.lift]
  have hplus : Eval gen (fuel + 2) (.Cell (.Symbol "+") (.Cell (.Symbol "x")
      (.Cell (.Number 1) .null))) 0 (Scope_Assign st 0 "x" (.Number 10)) =
      .ok (.Number 11) (Scope_Assign st 0 "x" (.Number 10)) := by
    rw [Eval_builtin_form gen fuel _ .Plus (by decide)]
    simp only [Function_Apply, AccumulateNumbers_Apply, MakeVector, MakeVector_loop, Obj.isNull,
      hx, Eval_Number, Res.bind, Obj.isNumber, Obj.isCell, AccumulateNumbers_loop, plus,
      Obj.GetValue, Bool.false_eq_true, if_false, Bool.not_true, Bool.not_false, Bool.and_true,
      Bool.and_false, List.nil_append, List.cons_append]
    rfl
  simp only [Function_Apply, Set_Apply, Scope_CheckToSet_Assign st 0 "x" _ h0, hplus, Res.bind]
  rfl

theorem Run_x_11 (gen : Nat → String) (fuel : Nat) (st : State) (h0 : 0 < st.scopes.length) :
    Interpreter_Run gen (fuel + 3) "x" (Scope_Assign st 0 "x" (.Number 11)) =
      .ok "11" (Scope_Assign st 0 "x" (.Number 11)) := by
  rw [Run_of_Read gen _ "x" _ (.Symbol "x") (by decide) (by decide) rfl]
  simp only [Eval_Symbol, Symbol_Eval, show k_functions "x" = none by decide,
    Scope_At_Assign st 0 "x" _ h0, Res.lift]
  rfl

/-- C16. `(set! name expr)` evaluated in the scope `scope`, whose environment chain is `E`.
When no scope of `E` binds `name` the form throws `NameError` and the state is unchanged,
whatever `expr` is.  Otherwise let `fr` be the nearest scope of `E` that binds `name` and let
`expr` evaluate without error to `v`, leaving the state `st1`: the form returns Nil, and in
the state it leaves `name` is bound to `v` in `fr`, every other binding of every scope is as
in `st1`, and so are the parent pointers, the number of scopes and the count of names drawn.
The reader produces this shape for `(set! x 5)`.  On an interpreter in any state, `(define x 10)`, `(set! x (+ x 1))`, `x` return `()`, `()`
and `11`. -/
theorem set_rebinds_nearest (gen : Nat → String) (fuel : Nat) (name : String) (expr : Obj)
    (scope : Nat) (st : State) (E : List (Nat × Scope)) (hE : EnvChain st.scopes (some scope) E) :
    ((∀ q ∈ E, vars_find name q.2.vars_ = none) →
      Eval gen (fuel + 2) (setForm name expr) scope st = .throw .NameError st) ∧
    (∀ (pre post : List (Nat × Scope)) (fr : Nat × Scope) (old v : Obj) (st1 : State),
      E = pre ++ fr :: post → (∀ q ∈ pre, vars_find name q.2.vars_ = none) →
      vars_find name fr.2.vars_ = some old →
      Eval gen (fuel + 1) expr scope st = .ok v st1 →
      ∃ st2, Eval gen (fuel + 2) (setForm name expr) scope st = .ok .null st2 ∧
        binding st2 fr.1 name = some v ∧
        (∀ j n, (j, n) ≠ (fr.1, name) → binding st2 j n = binding st1 j n) ∧
        (∀ j, parent st2 j = parent st1 j) ∧
        st2.scopes.length = st1.scopes.length ∧ st2.names = st1.names) ∧
    Read 11 "(set! x 5)".data = .ok (setForm "x" (.Number 5), []) ∧
    (∀ st0 : State, 0 < st0.scopes.length →
      (Interpreter_RunAll gen (fuel + 3) ["(define x 10)", "(set! x (+ x 1))", "x"] st0).1 =
        [.ok "()", .ok "()", .ok "11"]) := by
  refine ⟨?_, ?_, rfl, ?_⟩
  · intro hmiss
    unfold setForm
    rw [Eval_builtin_form gen fuel _ .Set (by decide)]
    simp only [Function_Apply, Set_Apply, Scope_CheckToSet,
      Scope_walk_chain_missing st scope name E hE hmiss]
  · intro pre post fr old v st1 hEq hpre hold hexpr
    subst hEq
    have hlt : fr.1 < st1.scopes.length :=
      lt_of_lt_of_le (EnvChain_index_lt _ _ _ hE fr (by simp))
        (Eval_ok_length gen _ expr scope st st1 v hexpr)
    refine ⟨Scope_Assign st1 fr.1 name v, ?_, binding_Assign_same st1 fr.1 name v hlt,
      fun j n h => binding_Assign_other st1 fr.1 j name n v h,
      fun j => parent_Assign st1 fr.1 j name v, Scope_Assign_length _ _ _ _,
      names_Assign _ _ _ _⟩
    unfold setForm
    rw [Eval_builtin_form gen fuel _ .Set (by decide)]
    simp only [Function_Apply, Set_Apply, Scope_CheckToSet,
      Scope_walk_chain_found st scope name pre post fr old hE hpre hold, hexpr, Res.bind]
  · intro st0 h0
    have h1 : 0 < (Scope_Assign st0 0 "x" (.Number 10)).scopes.length := by
      rw [Scope_Assign_length]; exact h0
    simp only [Interpreter_RunAll, Run_define_x_10, Run_set_x gen fuel st0 h0,
      Run_x_11 gen fuel _ h1, Res.state, Res.result]

/-- C16 (instance). In a scope whose parent, the global scope, binds `x` to `1`, the form
`(set! x 5)` returns Nil and leaves `x` bound to `5` in the global scope. -/
theorem set_rebinds_nearest_witness :
    ∃ st2, Eval (fun _ => "aaaaaaaaaa") 2 (setForm "x" (.Number 5)) 1
        ⟨[⟨none, [("x", .Number 1)]⟩, ⟨some 0, [("y", .Number 2)]⟩], 0⟩ = .ok .null st2 ∧
      binding st2 0 "x" = some (.Number 5) ∧ binding st2 1 "y" = some (.Number 2) := by
  obtain ⟨st2, h1, h2, h3, _⟩ :=
    (set_rebinds_nearest (fun _ => "aaaaaaaaaa") 0 "x" (.Number 5) 1
      ⟨[⟨none, [("x", .Number 1)]⟩, ⟨some 0, [("y", .Number 2)]⟩], 0⟩
      [(1, ⟨some 0, [("y", .Number 2)]⟩), (0, ⟨none, [("x", .Number 1)]⟩)]
      ⟨rfl, rfl, rfl, rfl, trivial⟩).2.1 [(1, ⟨some 0, [("y", .Number 2)]⟩)] []
      (0, ⟨none, [("x", .Number 1)]⟩) (.Number 1) (.Number 5) _ rfl (by decide) rfl rfl
  exact ⟨st2, h1, h2, by rw [h3 1 "y" (by decide)]; rfl⟩

/-! ## `set-car!` and `set-cdr!` -/

theorem Scope_CheckToSet_of_At (st : State) (scope : Nat) (name : String) (v : Obj)
    (h : Scope_At st scope name = .ok v) : ∃ i, Scope_CheckToSet st scope name = .ok i := by
  unfold Scope_At at h
  unfold Scope_CheckToSet
  cases hw : Scope_walk st.scopes name (st.scopes.length + 1) (some scope) with
  | error e => rw [hw] at h; simp at h
  | ok r => exact ⟨r.1, rfl⟩

theorem Eval_setPairForm (gen : Nat → String) (fuel : Nat) (car : Bool) (name : String)
    (a b c : Obj) (scope : Nat) (st : State) (hc : c.isCell = false)
    (h : Scope_At st scope name = .ok (.Cell a b)) :
    Eval gen (fuel + 2) (setPairForm car name c) scope st =
      .ok .null (Scope_Assign st scope name (if car then .Cell c b else .Cell a c)) := by
  obtain ⟨i, hi⟩ := Scope_CheckToSet_of_At st scope name _ h
  cases car
  · simp only [setPairForm, Bool.false_eq_true, if_false]
    rw [Eval_builtin_form gen fuel _ .SetCdr (by decide)]
    simp only [Function_Apply, SetPair_Apply, SetPair_body, hi, hc, h, Res.bind,
      Bool.false_eq_true, if_false]
  · simp only [setPairForm, if_true]
    rw [Eval_builtin_form gen fuel _ .SetCar (by decide)]
    simp only [Function_Apply, SetPair_Apply, SetPair_body, hi, hc, h, Res.bind,
      Bool.false_eq_true, if_false, if_true]

theorem Run_define_p (gen : Nat → String) (fuel : Nat) :
    Interpreter_Run gen (fuel + 3) "(define p (cons 1 2))" State.init =
      .ok "()" ⟨[⟨none, [("p", .Cell (.Number 1) (.Number 2))]⟩], 0⟩ := by
  rfl

theorem Run_define_q (gen : Nat → String) (fuel : Nat) :
    Interpreter_Run gen (fuel + 3) "(define q p)"
        ⟨[⟨none, [("p", .Cell (.Number 1) (.Number 2))]⟩], 0⟩ =
      .ok "()" ⟨[⟨none, [("p", .Cell (.Number 1) (.Number 2)),
        ("q", .Cell (.Number 1) (.Number 2))]⟩], 0⟩ := by
  rfl

theorem Run_set_car_p (gen : Nat → String) (fuel : Nat) :
    Interpreter_Run gen (fuel + 3) "(set-car! p 9)"
        ⟨[⟨none, [("p", .Cell (.Number 1) (.Number 2)),
          ("q", .Cell (.Number 1) (.Number 2))]⟩], 0⟩ =
      .ok "()" ⟨[⟨none, [("p", .Cell (.Number 9) (.Number 2)),
        ("q", .Cell (.Number 1) (.Number 2))]⟩], 0⟩ := by
  rfl

theorem Run_set_cdr_p (gen : Nat → String) (fuel : Nat) :
    Interpreter_Run gen (fuel + 3) "(set-cdr! p 9)"
        ⟨[⟨none, [("p", .Cell (.Number 1) (.Number 2)),
          ("q", .Cell (.Number 1) (.Number 2))]⟩], 0⟩ =
      .ok "()" ⟨[⟨none, [("p", .Cell (.Number 1) (.Number 9)),
        ("q", .Cell (.Number 1) (.Number 2))]⟩], 0⟩ := by
  rfl

theorem Run_p_q_after (gen : Nat → String) (fuel : Nat) (v : Obj) (s : String)
    (hv : Stringify v = .ok s) (hn : v.isNull = false) :
    Interpreter_Run gen (fuel + 3) "p"
        ⟨[⟨none, [("p", v), ("q", .Cell (.Number 1) (.Number 2))]⟩], 0⟩ =
      .ok s ⟨[⟨none, [("p", v), ("q", .Cell (.Number 1) (.Number 2))]⟩], 0⟩ ∧
    Interpreter_Run gen (fuel + 3) "q"
        ⟨[⟨none, [("p", v), ("q", .Cell (.Number 1) (.Number 2))]⟩], 0⟩ =
      .ok "(1 . 2)" ⟨[⟨none, [("p", v), ("q", .Cell (.Number 1) (.Number 2))]⟩], 0⟩ := by
  constructor
  · rw [Run_of_Read gen _ "p" _ (.Symbol "p") (by decide) (by decide) rfl]
    have : Eval gen (fuel + 3) (.Symbol "p") 0
        ⟨[⟨none, [("p", v), ("q", .Cell (.Number 1) (.Number 2))]⟩], 0⟩ =
        .ok v ⟨[⟨none, [("p", v), ("q", .Cell (.Number 1) (.Number 2))]⟩], 0⟩ := rfl
    simp only [this, Run_print, Res.bind, hn, hv, Res.lift, Bool.false_eq_true, if_false]
  · rfl

/-- C17 (code defect). `SetPair<car>::Apply` does not modify the pair: it binds the name, in
the current scope, to a new pair built from the new value and the other field of the old
pair.  So for every name bound to a pair `(a . b)` and every new value `c` that is not a list,
`(set-car! name c)` leaves the state in which `name` is rebound to `(c . b)` in the current
scope and every other binding is unchanged, and likewise for `set-cdr!`.  A second variable
that holds the same pair therefore keeps the old pair: after `(define p (cons 1 2))`,
`(define q p)` and `(set-car! p 9)`, `p` prints as `(9 . 2)` but `q` still prints as
`(1 . 2)`. -/
theorem set_car_rebinds_variable (gen : Nat → String) (fuel : Nat) :
    (∀ (car : Bool) (name : String) (a b c : Obj) (scope : Nat) (st : State), c.isCell = false →
      Scope_At st scope name = .ok (.Cell a b) →
      Eval gen (fuel + 2) (setPairForm car name c) scope st =
          .ok .null (Scope_Assign st scope name (if car then .Cell c b else .Cell a c)) ∧
        ∀ j n, (j, n) ≠ (scope, name) →
          binding (Scope_Assign st scope name (if car then .Cell c b else .Cell a c)) j n =
            binding st j n) ∧
    Read 15 "(set-car! p 9)".data = .ok (setPairForm true "p" (.Number 9), []) ∧
    (Interpreter_RunAll gen (fuel + 3)
        ["(define p (cons 1 2))", "(define q p)", "(set-car! p 9)", "p", "q"] State.init).1 =
      [.ok "()", .ok "()", .ok "()", .ok "(9 . 2)", .ok "(1 . 2)"] ∧
    (Interpreter_RunAll gen (fuel + 3)
        ["(define p (cons 1 2))", "(define q p)", "(set-cdr! p 9)", "p", "q"] State.init).1 =
      [.ok "()", .ok "()", .ok "()", .ok "(1 . 9)", .ok "(1 . 2)"] := by
  refine ⟨?_, rfl, ?_, ?_⟩
  · intro car name a b c scope st hc h
    exact ⟨Eval_setPairForm gen fuel car name a b c scope st hc h,
      fun j n hjn => binding_Assign_other st scope j name n _ hjn⟩
  · have h := Run_p_q_after gen fuel (.Cell (.Number 9) (.Number 2)) "(9 . 2)" rfl rfl
    simp only [Interpreter_RunAll, Run_define_p, Run_define_q, Run_set_car_p, h.1, h.2,
      Res.state, Res.result]
  · have h := Run_p_q_after gen fuel (.Cell (.Number 1) (.Number 9)) "(1 . 9)" rfl rfl
    simp only [Interpreter_RunAll, Run_define_p, Run_define_q, Run_set_cdr_p, h.1, h.2,
      Res.state, Res.result]

/-! ## Calls with the wrong number of operands -/

/-- The operands after the first `args.length` ones are never looked at. -/
theorem LambdaFunction_bind_surplus (E : Evaluator) (scope : Nat) (extra : List Obj) :
    ∀ (args : List String) (es : List Obj) (st : State), es.length = args.length →
      LambdaFunction_bind E scope args (As_Cell (properList (es ++ extra))) st =
        LambdaFunction_bind E scope args (As_Cell (properList es)) st := by
  intro args
  induction args with
  | nil => intro es st _; rfl
  | cons name args ih =>
    intro es st hlen
    cases es with
    | nil => simp at hlen
    | cons e es =>
      simp only [List.cons_append, properList, List.foldr_cons, As_Cell, LambdaFunction_bind]
      congr 1
      funext arg st2
      exact ih es _ (by simpa using hlen)

/-- With fewer operands than parameters the loop that binds the parameters runs off the end
of the operand list and dereferences a null pointer. -/
theorem LambdaFunction_bind_short (gen : Nat → String) (f : Nat) (scope : Nat) :
    ∀ (args : List String) (xs : List Int) (st : State), xs.length < args.length →
      ∃ st2, LambdaFunction_bind (Eval gen (f + 1)) scope args
        (As_Cell (properList (xs.map Obj.Number))) st = .throw .UndefinedBehaviour st2 := by
  intro args
  induction args with
  | nil => intro xs st h; simp at h
  | cons name args ih =>
    intro xs st hlen
    cases xs with
    | nil => exact ⟨st, rfl⟩
    | cons x xs =>
      obtain ⟨st2, h2⟩ := ih xs (Scope_Assign st scope name (.Number x)) (by simpa using hlen)
      refine ⟨st2, ?_⟩
      simp only [List.map_cons, properList, List.foldr_cons, As_Cell, LambdaFunction_bind,
        Eval_Number, Res.bind] at h2 ⊢
      exact h2

theorem Run_define_f2 (gen : Nat → String) (fuel : Nat) :
    Interpreter_Run gen (fuel + 3) "(define (f x y) x)" State.init =
      .ok "()" ⟨[⟨none, [("f", .LambdaFunction 1 (.Cell (.Symbol "x") .null) ["x", "y"])]⟩,
        ⟨some 0, []⟩], 0⟩ := by
  rfl

theorem Run_f2_three (gen : Nat → String) (fuel : Nat) :
    Interpreter_Run gen (fuel + 3) "(f 1 2 3)"
        ⟨[⟨none, [("f", .LambdaFunction 1 (.Cell (.Symbol "x") .null) ["x", "y"])]⟩,
          ⟨some 0, []⟩], 0⟩ =
      .ok "1" ⟨[⟨none, [("f", .LambdaFunction 1 (.Cell (.Symbol "x") .null) ["x", "y"])]⟩,
        ⟨some 0, [("x", .Number 1), ("y", .Number 2)]⟩,
        ⟨some 1, [("x", .Number 1), ("y", .Number 2)]⟩], 0⟩ := by
  rfl

theorem Run_f2_one (gen : Nat → String) (fuel : Nat) :
    (Interpreter_Run gen (fuel + 3) "(f 1)"
        ⟨[⟨none, [("f", .LambdaFunction 1 (.Cell (.Symbol "x") .null) ["x", "y"])]⟩,
          ⟨some 0, [("x", .Number 1), ("y", .Number 2)]⟩,
          ⟨some 1, [("x", .Number 1), ("y", .Number 2)]⟩], 0⟩).result =
      .error .UndefinedBehaviour := by
  rfl

/-- C18 (code defect). `LambdaFunction::Apply` never compares the number of operands with the
number of parameters.  Operands beyond the parameters are ignored, so `((lambda (x) x) 1 2)`
returns `1`; with too few operands the loop that binds the parameters dereferences a null
pointer, so `((lambda (x) x))` is undefined behaviour; neither raises `RuntimeError`.  In
general a call with surplus operands behaves as the call without them, and a call with fewer
number literals than parameters ends in undefined behaviour. -/
theorem lambda_arity_unchecked (gen : Nat → String) (fuel : Nat) :
    (Interpreter_Run gen (fuel + 3) "((lambda (x) x) 1 2)" State.init).result = .ok "1" ∧
    (Interpreter_Run gen (fuel + 3) "((lambda (x) x) 1)" State.init).result = .ok "1" ∧
    (Interpreter_Run gen (fuel + 3) "((lambda (x) x))" State.init).result =
      .error .UndefinedBehaviour ∧
    (Interpreter_RunAll gen (fuel + 3) ["(define (f x y) x)", "(f 1 2 3)", "(f 1)"]
      State.init).1 = [.ok "()", .ok "1", .error .UndefinedBehaviour] ∧
    (∀ (E : Evaluator) (scope_ : Nat) (body_ : Obj) (args_ : List String) (es extra : List Obj)
      (st : State), es.length = args_.length →
      LambdaFunction_Apply E scope_ body_ args_ (properList (es ++ extra)) st =
        LambdaFunction_Apply E scope_ body_ args_ (properList es) st) ∧
    (∀ (scope_ : Nat) (body_ : Obj) (args_ : List String) (xs : List Int) (st : State),
      xs.length < args_.length →
      ∃ st2, LambdaFunction_Apply (Eval gen (fuel + 1)) scope_ body_ args_
        (properList (xs.map Obj.Number)) st = .throw .UndefinedBehaviour st2) := by
  refine ⟨rfl, rfl, rfl, ?_, ?_, ?_⟩
  · have h := Run_f2_one gen fuel
    simp only [Interpreter_RunAll, Run_define_f2, Run_f2_three, h, Res.state]
    rfl
  · intro E scope_ body_ args_ es extra st hlen
    simp only [LambdaFunction_Apply, LambdaFunction_bind_surplus E scope_ extra args_ es st hlen]
  · intro scope_ body_ args_ xs st hlen
    obtain ⟨st2, h2⟩ := LambdaFunction_bind_short gen fuel scope_ args_ xs st hlen
    exact ⟨st2, by simp only [LambdaFunction_Apply, h2, Res.bind]⟩

/-! ## `not` and `abs` -/

theorem Run_define_x_false (gen : Nat → String) (fuel : Nat) :
    Interpreter_Run gen (fuel + 2) "(define x #f)" State.init =
      .ok "()" ⟨[⟨none, [("x", .Boolean false)]⟩], 0⟩ := by
  rfl

theorem Run_x_false (gen : Nat → String) (fuel : Nat) :
    Interpreter_Run gen (fuel + 2) "x" ⟨[⟨none, [("x", .Boolean false)]⟩], 0⟩ =
      .ok "#f" ⟨[⟨none, [("x", .Boolean false)]⟩], 0⟩ := by
  rfl

theorem Run_not_x (gen : Nat → String) (fuel : Nat) :
    Interpreter_Run gen (fuel + 2) "(not x)" ⟨[⟨none, [("x", .Boolean false)]⟩], 0⟩ =
      .ok "#f" ⟨[⟨none, [("x", .Boolean false)]⟩], 0⟩ := by
  rfl

/-- C19 (code defect). `Not::Apply` looks at its operand without evaluating it: for every
expression that is not a boolean literal, `(not E)` returns `#f` whatever `E` evaluates to.
So `(not (= 1 2))` returns `#f` although `(= 1 2)` is `#f`, and after `(define x #f)` the
variable `x` evaluates to `#f` and `(not x)` returns `#f`.  On the literals `#f` and `#t` the
result is `#t` and `#f`. -/
theorem not_ignores_value (gen : Nat → String) (fuel : Nat) (st : State) :
    (∀ (e : Obj) (scope : Nat), e.isBoolean = false →
      Eval gen (fuel + 2) (.Cell (.Symbol "not") (.Cell e .null)) scope st =
        .ok (.Boolean false) st) ∧
    Interpreter_Run gen (fuel + 2) "(= 1 2)" st = .ok "#f" st ∧
    Interpreter_Run gen (fuel + 2) "(not (= 1 2))" st = .ok "#f" st ∧
    (Interpreter_RunAll gen (fuel + 2) ["(define x #f)", "x", "(not x)"] State.init).1 =
      [.ok "()", .ok "#f", .ok "#f"] ∧
    Interpreter_Run gen (fuel + 2) "(not #f)" st = .ok "#t" st ∧
    Interpreter_Run gen (fuel + 2) "(not #t)" st = .ok "#f" st := by
  refine ⟨?_, rfl, rfl, ?_, rfl, rfl⟩
  · intro e scope he
    rw [Eval_builtin_form gen fuel _ .Not (by decide)]
    cases e <;> first | rfl | simp [Obj.isBoolean] at he
  · simp only [Interpreter_RunAll, Run_define_x_false, Run_x_false, Run_not_x, Res.state,
      Res.result]

/-- C20 (code defect). `Abs::Apply` looks at its operand without evaluating it: for every
expression that is not a number literal, `(abs E)` throws `RuntimeError` whatever `E`
evaluates to.  So `(abs (- 3 5))` throws although `(- 3 5)` is `-2`; on the literal `-5` the
result is `5`. -/
theorem abs_ignores_value (gen : Nat → String) (fuel : Nat) (st : State) :
    (∀ (e : Obj) (scope : Nat), e.isNumber = false →
      Eval gen (fuel + 2) (.Cell (.Symbol "abs") (.Cell e .null)) scope st =
        .throw .RuntimeError st) ∧
    Interpreter_Run gen (fuel + 2) "(- 3 5)" st = .ok "-2" st ∧
    Interpreter_Run gen (fuel + 2) "(abs (- 3 5))" st = .throw .RuntimeError st ∧
    Interpreter_Run gen (fuel + 2) "(abs -5)" st = .ok "5" st ∧
    Interpreter_Run gen (fuel + 2) "(abs 5)" st = .ok "5" st := by
  refine ⟨?_, rfl, rfl, rfl, rfl⟩
  intro e scope he
  rw [Eval_builtin_form gen fuel _ .Abs (by decide)]
  cases e <;> first | rfl | simp [Obj.isNumber] at he

/-! ## `pair?` and `list?` -/

theorem IsList_loop_properList (e : Obj) (es : List Obj) :
    IsList_loop (properList (e :: es)) = some true := by
  induction es generalizing e with
  | nil => rfl
  | cons x xs ih =>
    have := ih x
    simp only [properList, List.foldr_cons] at this ⊢
    rw [IsList_loop]
    simp only [Obj.isCell, if_true]
    exact this

theorem IsList_loop_improper (e : Obj) (es : List Obj) (last : Obj) (hc : last.isCell = false) :
    IsList_loop ((e :: es).foldr Obj.Cell last) = some (!last.isNumber) := by
  induction es generalizing e with
  | nil => simp only [List.foldr_cons, List.foldr_nil, IsList_loop, hc, Bool.false_eq_true, if_false]
  | cons x xs ih =>
    have := ih x
    simp only [List.foldr_cons] at this ⊢
    rw [IsList_loop]
    simp only [Obj.isCell, if_true]
    exact this

/-- C21 (code defect). `IsPair::Apply` does not answer whether the value is a pair.  When the
operand evaluates to `v`: a value that is not a pair gives `#f`; a pair whose second field
is again a pair gives `#t` only if that second pair ends the list, so only for a list of
exactly two elements; any other pair gives `#t` only if its second field is a number.  So
`(pair? '(1))` and `(pair? '(1 2 3))` return `#f`, where `(pair? '(1 2))` and
`(pair? '(1 . 2))` return `#t`. -/
theorem pair_predicate_by_shape (gen : Nat → String) (fuel : Nat) (scope : Nat) (st : State) :
    (∀ (E v : Obj) (st1 : State), Eval gen (fuel + 1) E scope st = .ok v st1 →
      (v.isCell = false →
        Eval gen (fuel + 2) (unaryForm "pair?" E) scope st = .ok (.Boolean false) st1) ∧
      (∀ a b d, v = .Cell a (.Cell b d) →
        Eval gen (fuel + 2) (unaryForm "pair?" E) scope st = .ok (.Boolean d.isNull) st1) ∧
      (∀ a d, v = .Cell a d → d.isCell = false →
        Eval gen (fuel + 2) (unaryForm "pair?" E) scope st = .ok (.Boolean d.isNumber) st1)) ∧
    Interpreter_Run gen (fuel + 3) "(pair? '(1))" st = .ok "#f" st ∧
    Interpreter_Run gen (fuel + 3) "(pair? '(1 2 3))" st = .ok "#f" st ∧
    Interpreter_Run gen (fuel + 3) "(pair? '(1 . #t))" st = .ok "#f" st ∧
    Interpreter_Run gen (fuel + 3) "(pair? (cons 1 #t))" st = .ok "#f" st ∧
    Interpreter_Run gen (fuel + 3) "(pair? '(1 2))" st = .ok "#t" st ∧
    Interpreter_Run gen (fuel + 3) "(pair? '(1 . 2))" st = .ok "#t" st ∧
    Interpreter_Run gen (fuel + 3) "(pair? (cons 1 2))" st = .ok "#t" st ∧
    Interpreter_Run gen (fuel + 3) "(pair? '())" st = .ok "#f" st ∧
    Interpreter_Run gen (fuel + 3) "(pair? 5)" st = .ok "#f" st := by
  refine ⟨?_, rfl, rfl, rfl, rfl, rfl, rfl, rfl, rfl, rfl⟩
  intro E v st1 hE
  unfold unaryForm
  rw [Eval_builtin_form gen fuel _ .IsPair (by decide)]
  simp only [Function_Apply, IsPair_Apply, hE, Res.bind]
  refine ⟨?_, ?_, ?_⟩
  · intro hv
    cases v <;> first | rfl | simp [Obj.isCell] at hv
  · intro a b d hv
    subst hv
    cases d <;> rfl
  · intro a d hv hd
    subst hv
    cases d <;> first | rfl | simp [Obj.isCell] at hd

/-- C22 (code defect). `IsList::Apply` answers `#t` for Nil, follows the second fields while
they are pairs, and then answers `#f` only if the last second field is a number.  When the
operand evaluates to Nil or to a proper list the result is `#t`, and for an improper list
ending in a number it is `#f`; but an improper list ending in a boolean or a symbol gives
`#t`, and for a value that is neither Nil nor a pair, such as `5`, a null pointer is
dereferenced.  So `(list? '(1 . #t))` returns `#t` and `(list? 5)` is undefined behaviour. -/
theorem list_predicate_by_shape (gen : Nat → String) (fuel : Nat) (scope : Nat) (st : State) :
    (∀ (E v : Obj) (st1 : State), Eval gen (fuel + 1) E scope st = .ok v st1 →
      (v = .null →
        Eval gen (fuel + 2) (unaryForm "list?" E) scope st = .ok (.Boolean true) st1) ∧
      (∀ e es, v = properList (e :: es) →
        Eval gen (fuel + 2) (unaryForm "list?" E) scope st = .ok (.Boolean true) st1) ∧
      (∀ e es last, v = (e :: es).foldr Obj.Cell last → last.isCell = false →
        last.isNull = false →
        Eval gen (fuel + 2) (unaryForm "list?" E) scope st =
          .ok (.Boolean (!last.isNumber)) st1) ∧
      (v.isCell = false → v.isNull = false →
        Eval gen (fuel + 2) (unaryForm "list?" E) scope st = .throw .UndefinedBehaviour st1)) ∧
    Interpreter_Run gen (fuel + 3) "(list? '(1 . #t))" st = .ok "#t" st ∧
    Interpreter_Run gen (fuel + 3) "(list? '(1 . a))" st = .ok "#t" st ∧
    Interpreter_Run gen (fuel + 3) "(list? (cons 1 #f))" st = .ok "#t" st ∧
    Interpreter_Run gen (fuel + 3) "(list? 5)" st = .throw .UndefinedBehaviour st ∧
    Interpreter_Run gen (fuel + 3) "(list? #t)" st = .throw .UndefinedBehaviour st ∧
    Interpreter_Run gen (fuel + 3) "(list? '(1 . 2))" st = .ok "#f" st ∧
    Interpreter_Run gen (fuel + 3) "(list? '(1 2 3))" st = .ok "#t" st ∧
    Interpreter_Run gen (fuel + 3) "(list? '())" st = .ok "#t" st := by
  refine ⟨?_, rfl, rfl, rfl, rfl, rfl, rfl, rfl, rfl⟩
  intro E v st1 hE
  unfold unaryForm
  rw [Eval_builtin_form gen fuel _ .IsList (by decide)]
  simp only [Function_Apply, IsList_Apply, hE, Res.bind]
  refine ⟨?_, ?_, ?_, ?_⟩
  · intro hv
    subst hv
    rfl
  · intro e es hv
    subst hv
    have hn : (properList (e :: es)).isNull = false := rfl
    simp only [hn, IsList_loop_properList, Bool.false_eq_true, if_false]
  · intro e es last hv hc _
    subst hv
    have hn : ((e :: es).foldr Obj.Cell last).isNull = false := rfl
    simp only [hn, IsList_loop_improper e es last hc, Bool.false_eq_true, if_false]
  · intro hc hn
    cases v with
    | null => simp [Obj.isNull] at hn
    | Cell a d => simp [Obj.isCell] at hc
    | _ => rfl

/-! ## `list-tail` -/

/-- Reading `(outer (inner x1 ... xn) y1 ... ym)`. -/
theorem Read_nested_form_operands {outer inner : String} (ho : PlainSymbol outer)
    (hi : PlainSymbol inner) (xs ys : List Literal) (hxs : ∀ x ∈ xs, x.valid)
    (hys : ∀ y ∈ ys, y.valid) (rest : List Char) (f : Nat)
    (hf : xs.length + ys.length + 5 ≤ f) :
    Read f ('(' :: (outer.data ++ ' ' :: '(' ::
        (inner.data ++ operandsText (operandsText rest ys) xs))) =
      .ok (.Cell (.Symbol outer)
        (.Cell (.Cell (.Symbol inner) (properList (xs.map Literal.value)))
          (properList (ys.map Literal.value))),
        Tokenizer_SkipSpaces rest) := by
  obtain ⟨f, rfl⟩ : ∃ k, f = k + 2 := ⟨f - 2, by omega⟩
  have hg := ho.token ' ' ('(' :: (inner.data ++ operandsText (operandsText rest ys) xs))
    (Or.inl rfl)
  have hn := Next_PlainSymbol ho ' ' ('(' :: (inner.data ++ operandsText (operandsText rest ys) xs))
    (Or.inl rfl)
  have hs : Tokenizer_SkipSpaces (' ' :: '(' ::
      (inner.data ++ operandsText (operandsText rest ys) xs)) =
      '(' :: (inner.data ++ operandsText (operandsText rest ys) xs) := rfl
  have hg2 : Tokenizer_GetToken ('(' :: (inner.data ++ operandsText (operandsText rest ys) xs)) =
      .ok (.BracketToken .OPEN, 1) := rfl
  have hr2 := Read_form hi xs hxs (operandsText rest ys) (f + 1) (by omega)
  obtain ⟨f, rfl⟩ : ∃ k, f = k + 2 := ⟨f - 2, by omega⟩
  rw [hs] at hn
  rw [Read_OPEN, ReadList, ho.skip,
    ReadList_loop_elem _ _ _ _ _ _ _ _ hg (by simp) (by simp) (Read_Symbol _ _ _ _ _ hg hn),
    ReadList_loop_elem _ _ _ _ _ _ _ _ hg2 (by simp) (by simp) hr2,
    ReadList_loop_operands (f + 2) rest ys hys (f + 1) _ (by omega)]
  obtain ⟨h1, h2, h3, h4⟩ := ho.notKeyword
  have hb := build_properList (.Symbol outer)
    (.Cell (.Symbol inner) (properList (xs.map Literal.value)) :: ys.map Literal.value)
  simp only [List.nil_append, List.singleton_append, List.cons_append] at hb ⊢
  simp only [ReadList_build, List.isEmpty_cons, List.head?_cons, h1, h2, h3, h4, hb,
    decide_False, Bool.false_and, Bool.false_or, if_true, if_false, Bool.false_eq_true]
  rfl

theorem Run_nested_form_operands {outer inner : String} (ho : PlainSymbol outer)
    (hi : PlainSymbol inner) (xs ys : List Literal) (hxs : ∀ x ∈ xs, x.valid)
    (hys : ∀ y ∈ ys, y.valid) (gen : Nat → String) (fuel : Nat) (st : State) :
    Interpreter_Run gen fuel
        (String.mk ('(' :: (outer.data ++ ' ' :: '(' ::
          (inner.data ++ operandsText (operandsText [] ys) xs)))) st =
      Run_print (Eval gen fuel (.Cell (.Symbol outer)
        (.Cell (.Cell (.Symbol inner) (properList (xs.map Literal.value)))
          (properList (ys.map Literal.value)))) 0 st) := by
  have hall : ('(' :: (outer.data ++ ' ' :: '(' ::
      (inner.data ++ operandsText (operandsText [] ys) xs))).all AvailableChars = true := by
    simp only [List.all_cons, List.all_append, ho.chars, hi.chars,
      operandsText_all _ (operandsText_all [] rfl ys)]
    decide
  have hlen := operandsText_length (operandsText [] ys) xs
  have hlen2 := operandsText_length [] ys
  have hskip : Tokenizer_SkipSpaces
      ('(' :: (outer.data ++ ' ' :: '(' :: (inner.data ++ operandsText (operandsText [] ys) xs))) =
      '(' :: (outer.data ++ ' ' :: '(' :: (inner.data ++ operandsText (operandsText [] ys) xs)) :=
    rfl
  refine Run_of_Read gen fuel _ st _ hall ?_ rfl
  simp only [hskip]
  refine Read_nested_form_operands ho hi xs ys hxs hys [] _ ?_
  simp only [List.length_cons, List.length_append]
  have hl3 : ys.length + 1 ≤ (operandsText (operandsText [] ys) xs).length := by
    have h5 : ∀ (r : List Char) (zs : List Literal), r.length ≤ (operandsText r zs).length := by
      intro r zs
      induction zs with
      | nil => simp [operandsText]
      | cons z zs ih => simp only [operandsText, List.length_cons, List.length_append]; omega
    exact le_trans hlen2 (h5 _ _)
  have hl4 : xs.length + ys.length + 2 ≤ (operandsText (operandsText [] ys) xs).length := by
    have h6 : ∀ (r : List Char) (zs : List Literal),
        zs.length + 1 + r.length ≤ (operandsText r zs).length := by
      intro r zs
      induction zs with
      | nil => simp [operandsText]; omega
      | cons z zs ih => simp only [operandsText, List.length_cons, List.length_append]; omega
    have := h6 (operandsText [] ys) (xs)
    omega
  omega

theorem properList_drop (elems : List Obj) (i : Nat) (hi : i < elems.length) :
    Obj.Cell (elems.getD i .null) (properList (elems.drop (i + 1))) = properList (elems.drop i) := by
  rw [List.drop_eq_getElem_cons hi]
  simp only [properList, List.foldr_cons, List.getD_eq_getElem?_getD, List.getElem?_eq_getElem hi,
    Option.getD_some]

/-- The loop of `ListTail::Apply` for a positive index: it conses the elements from the back
down to the index and stops. -/
theorem ListTail_loop_positive (elems : List Obj) (idx : Nat) (hidx : 1 ≤ idx)
    (hlen : elems.length < 18446744073709551616) :
    ∀ (d i fuel : Nat), i + 1 = idx + d → i < elems.length → d + 1 ≤ fuel →
      ListTail_loop elems idx fuel i (properList (elems.drop (i + 1))) =
        .ok (properList (elems.drop idx)) := by
  intro d
  induction d with
  | zero =>
    intro i fuel hi _ hf
    obtain ⟨fuel, rfl⟩ : ∃ k, fuel = k + 1 := ⟨fuel - 1, by omega⟩
    have hlt : ¬ i ≥ idx := by omega
    simp only [ListTail_loop, hlt, if_false]
    rw [show i + 1 = idx by omega]
  | succ d ih =>
    intro i fuel hi hil hf
    obtain ⟨fuel, rfl⟩ : ∃ k, fuel = k + 1 := ⟨fuel - 1, by omega⟩
    have hge : i ≥ idx := by omega
    have hmod : (i + 18446744073709551615) % 18446744073709551616 = i - 1 := by omega
    simp only [ListTail_loop, hge, hil, if_true, hmod, properList_drop elems i hil]
    have := ih (i - 1) fuel (by omega) (by omega) (by omega)
    rw [show i - 1 + 1 = i by omega] at this
    exact this

/-- The loop of `ListTail::Apply` for the index `0`: the counter passes `0`, wraps around, and
the vector is read past its end. -/
theorem ListTail_loop_zero (elems : List Obj) (hlen : elems.length < 18446744073709551616) :
    ∀ (i fuel : Nat) (list : Obj), i < elems.length → i + 2 ≤ fuel →
      ListTail_loop elems 0 fuel i list = .error .UndefinedBehaviour := by
  intro i
  induction i with
  | zero =>
    intro fuel list hi hf
    obtain ⟨fuel, rfl⟩ : ∃ k, fuel = k + 2 := ⟨fuel - 2, by omega⟩
    have h1 : ¬ (18446744073709551615 < elems.length) := by omega
    simp only [ListTail_loop, ge_iff_le, le_refl, Nat.zero_le, if_true, hi, Nat.zero_add,
      Nat.reduceMod, h1, if_false]
  | succ i ih =>
    intro fuel list hi hf
    obtain ⟨fuel, rfl⟩ : ∃ k, fuel = k + 1 := ⟨fuel - 1, by omega⟩
    have hmod : (i + 1 + 18446744073709551615) % 18446744073709551616 = i := by omega
    simp only [ListTail_loop, ge_iff_le, Nat.zero_le, if_true, hi, hmod]
    exact ih fuel _ (by omega) (by omega)

theorem Run_print_numbers (xs : List Int) (st : State) :
    Run_print (.ok (properList (xs.map Obj.Number)) st) =
      .ok ("(" ++ " ".intercalate (xs.map to_string) ++ ")") st := by
  cases xs with
  | nil => rfl
  | cons x xs =>
    have ht := Stringify_tail_numbers xs
    simp only [List.map_cons, properList, List.foldr_cons] at ht ⊢
    simp only [Run_print, Res.bind, Obj.isNull, Stringify, Stringify_aux, Stringify_atom, ht,
      Res.lift, Bool.false_eq_true, if_false, String.intercalate, intercalate_go,
      String.append_assoc]

theorem PlainSymbol_list_tail : PlainSymbol "list-tail" :=
  ⟨fun d rest hd => by rcases hd with rfl | rfl <;> rfl, fun rest => rfl, by decide, by decide⟩

theorem PlainSymbol_list : PlainSymbol "list" :=
  ⟨fun d rest hd => by rcases hd with rfl | rfl <;> rfl, fun rest => rfl, by decide, by decide⟩

/-- Evaluating `(list x1 ... xn)` on number literals. -/
theorem Eval_list_numbers (gen : Nat → String) (f : Nat) (xs : List Int) (scope : Nat)
    (st : State) :
    Eval gen (f + 2) (.Cell (.Symbol "list") (properList (xs.map Obj.Number))) scope st =
      .ok (properList (xs.map Obj.Number)) st := by
  rw [Eval_builtin_form gen f _ .List (by decide)]
  cases xs with
  | nil => rfl
  | cons x xs =>
    have hb : build_list (Obj.Number x :: xs.map Obj.Number) =
        properList (Obj.Number x :: xs.map Obj.Number) := build_properList _ _
    have hn : (properList ((x :: xs).map Obj.Number)).isNull = false := rfl
    have hmv := MakeVector_numbers gen f scope st (x :: xs)
    simp only [Function_Apply, List_Apply, hn, hmv, Res.bind, Bool.false_eq_true, if_false]
    simp only [List.map_cons, hb]

/-- What `ListTail::Apply` does once the list has been evaluated and collected. -/
theorem Eval_list_tail (gen : Nat → String) (f : Nat) (xs : List Int) (k : Int) (scope : Nat)
    (st : State) :
    Eval gen (f + 3) (.Cell (.Symbol "list-tail")
        (.Cell (.Cell (.Symbol "list") (properList (xs.map Obj.Number)))
          (.Cell (.Number k) .null))) scope st =
      (if (k % 18446744073709551616).toNat > xs.length then .throw .RuntimeError st
        else if (k % 18446744073709551616).toNat = xs.length then .ok .null st
        else Res.lift (ListTail_loop (xs.map Obj.Number) (k % 18446744073709551616).toNat
          (xs.length + 1) ((xs.length + 18446744073709551614) % 18446744073709551616)
          (.Cell ((xs.map Obj.Number).getD (xs.length - 1) .null) .null)) st) := by
  rw [Eval_builtin_form gen (f + 1) _ .ListTail (by decide)]
  simp only [Function_Apply, ListTail_Apply, Eval_list_numbers, MakeVector_numbers, Res.bind,
    List.length_map]

theorem Run_listTailText (gen : Nat → String) (f : Nat) (st : State) (xs : List Int)
    (hxs : ∀ x ∈ xs, isInt64 x) (k : Int) (hk : isInt64 k) :
    Interpreter_Run gen (f + 3) (listTailText xs k) st =
      Run_print (if (k % 18446744073709551616).toNat > xs.length then .throw .RuntimeError st
        else if (k % 18446744073709551616).toNat = xs.length then .ok .null st
        else Res.lift (ListTail_loop (xs.map Obj.Number) (k % 18446744073709551616).toNat
          (xs.length + 1) ((xs.length + 18446744073709551614) % 18446744073709551616)
          (.Cell ((xs.map Obj.Number).getD (xs.length - 1) .null) .null)) st) := by
  have hks : ∀ y ∈ [Literal.int k], y.valid := by
    intro y hy
    simp only [List.mem_singleton] at hy
    subst hy
    exact hk
  unfold listTailText
  rw [Run_nested_form_operands PlainSymbol_list_tail PlainSymbol_list _ _ (valid_map_int xs hxs)
    hks, map_int_value]
  have hp : properList ([Literal.int k].map Literal.value) = .Cell (.Number k) .null := rfl
  rw [hp, Eval_list_tail]

/-- C23 (code defect). In `ListTail::Apply` the loop `for (size_t i = sz - 2; i >= idx; --i)`
cannot end when `idx` is `0`: an unsigned counter is never below `0`, so after the element
with index `0` the counter wraps around and the vector is read past its end.  For every
non-empty list of 64-bit integers `(list-tail (list x1 ... xn) 0)` is therefore undefined
behaviour, where the whole list is expected.  For `1 ≤ k ≤ n` the call returns the list of
the elements after the first `k` (Nil for `k = n`), for `k > n` it throws `RuntimeError`,
and `(list-tail (list) 0)` returns Nil. -/
theorem list_tail_index_zero (gen : Nat → String) (fuel : Nat) (st : State) (hfuel : 3 ≤ fuel)
    (xs : List Int) (hxs : ∀ x ∈ xs, isInt64 x) (hlen : xs.length < 9223372036854775808) :
    (xs ≠ [] →
      Interpreter_Run gen fuel (listTailText xs 0) st = .throw .UndefinedBehaviour st) ∧
    (∀ k : Nat, 1 ≤ k → k ≤ xs.length →
      Interpreter_Run gen fuel (listTailText xs k) st =
        .ok ("(" ++ " ".intercalate ((xs.drop k).map to_string) ++ ")") st) ∧
    (∀ k : Int, (xs.length : Int) < k → isInt64 k →
      Interpreter_Run gen fuel (listTailText xs k) st = .throw .RuntimeError st) ∧
    Interpreter_Run gen fuel (listTailText [] 0) st = .ok "()" st := by
  obtain ⟨f, rfl⟩ : ∃ f, fuel = f + 3 := ⟨fuel - 3, by omega⟩
  have hl64 : (xs.map Obj.Number).length < 18446744073709551616 := by
    rw [List.length_map]; omega
  refine ⟨?_, ?_, ?_, ?_⟩
  · intro hne
    have hpos : 0 < xs.length := List.length_pos.2 hne
    rw [Run_listTailText gen f st xs hxs 0 (by decide)]
    have h0 : ((0 : Int) % 18446744073709551616).toNat = 0 := by decide
    rw [h0, if_neg (by omega), if_neg (by omega)]
    by_cases h1 : xs.length = 1
    · have hloop : ∀ l, ListTail_loop (xs.map Obj.Number) 0 (xs.length + 1)
          ((xs.length + 18446744073709551614) % 18446744073709551616) l =
          .error .UndefinedBehaviour := by
        intro l
        have h2 : ¬ ((1 + 18446744073709551614) % 18446744073709551616 < 1) := by decide
        simp only [h1, ListTail_loop, List.length_map, ge_iff_le, Nat.zero_le, if_true, h2,
          if_false]
      rw [hloop]
      rfl
    · rw [ListTail_loop_zero (xs.map Obj.Number) hl64 _ _ _
        (by rw [List.length_map]; omega) (by omega)]
      rfl
  · intro k hk1 hkn
    have hk : isInt64 (k : Int) := by unfold isInt64; omega
    have hidx : ((k : Int) % 18446744073709551616).toNat = k := by omega
    rw [Run_listTailText gen f st xs hxs k hk, hidx, if_neg (by omega)]
    by_cases hk2 : k = xs.length
    · rw [if_pos hk2, hk2, List.drop_length]
      rfl
    · rw [if_neg hk2]
      have hi : xs.length - 2 + 1 < (xs.map Obj.Number).length := by
        rw [List.length_map]; omega
      have hstart : Obj.Cell ((xs.map Obj.Number).getD (xs.length - 1) .null) .null =
          properList ((xs.map Obj.Number).drop (xs.length - 2 + 1)) := by
        have := properList_drop (xs.map Obj.Number) (xs.length - 2 + 1) hi
        rw [show xs.length - 2 + 1 + 1 = (xs.map Obj.Number).length by
          rw [List.length_map]; omega, List.drop_length] at this
        rw [← this, show xs.length - 2 + 1 = xs.length - 1 by omega]
        rfl
      have hmod : (xs.length + 18446744073709551614) % 18446744073709551616 = xs.length - 2 := by
        omega
      rw [hstart, hmod, ListTail_loop_positive (xs.map Obj.Number) k hk1 hl64
        (xs.length - 1 - k) (xs.length - 2) (xs.length + 1) (by omega)
        (by rw [List.length_map]; omega) (by omega), ← List.map_drop]
      exact Run_print_numbers _ st
  · intro k hkn hk
    have hidx : (k % 18446744073709551616).toNat > xs.length := by
      unfold isInt64 at hk; omega
    rw [Run_listTailText gen f st xs hxs k hk, if_pos hidx]
    rfl
  · rw [Run_listTailText gen f st [] (by simp) 0 (by decide)]
    rfl

/-- C23 (instance). `(list-tail (list 1 2 3 4) 2)` is `(3 4)` and
`(list-tail (list 1 2 3 4) 0)` is undefined behaviour. -/
theorem list_tail_index_zero_witness :
    Interpreter_Run (fun _ => "aaaaaaaaaa") 3 "(list-tail (list 1 2 3 4) 2)" State.init =
      .ok "(3 4)" State.init ∧
    Interpreter_Run (fun _ => "aaaaaaaaaa") 3 "(list-tail (list 1 2 3 4) 0)" State.init =
      .throw .UndefinedBehaviour State.init := by
  have h := list_tail_index_zero (fun _ => "aaaaaaaaaa") 3 State.init (by decide) [1, 2, 3, 4]
    (by decide) (by decide)
  have h1 := h.2.1 2 (by decide) (by decide)
  have h0 := h.1 (by decide)
  rw [show listTailText [1, 2, 3, 4] ((2 : Nat) : Int) = "(list-tail (list 1 2 3 4) 2)" by decide,
    show "(" ++ " ".intercalate (([1, 2, 3, 4] : List Int).drop 2 |>.map to_string) ++ ")" =
      "(3 4)" by decide] at h1
  rw [show listTailText [1, 2, 3, 4] 0 = "(list-tail (list 1 2 3 4) 0)" by decide] at h0
  exact ⟨h1, h0⟩

/-! ## Dotted lists -/

theorem ReadList_loop_end (R : Tokenizer → Except Err (Obj × Tokenizer)) (g : Nat)
    (v : ReadListVars) (t t2 : Tokenizer) (h : ReadsItems R t [] t2) :
    ReadList_loop R (g + 1) v t = .ok (v, t2) := by
  obtain ⟨⟨len, hg⟩, hn⟩ := h
  cases t with
  | nil => simp [Tokenizer_GetToken] at hg
  | cons c cs => simp only [ReadList_loop, Tokenizer_IsEnd, List.isEmpty_cons, hg, hn]; rfl

theorem ReadList_loop_dot (R : Tokenizer → Except Err (Obj × Tokenizer)) (g : Nat)
    (v : ReadListVars) (t t1 : Tokenizer) (len : Nat)
    (hg : Tokenizer_GetToken t = .ok (.DotToken, len)) (hn : Tokenizer_Next t = .ok t1) :
    ReadList_loop R (g + 1) v t =
      if v.number_of_dots + 1 > 1 then .error .SyntaxError
      else ReadList_loop R g ⟨v.list ++ [.null], v.number_of_dots + 1, v.curr_pos,
        v.curr_pos + 1⟩ t1 := by
  cases t with
  | nil => simp [Tokenizer_GetToken] at hg
  | cons c cs => simp only [ReadList_loop, Tokenizer_IsEnd, List.isEmpty_cons, hg, hn]; rfl

/-- The loop of `ReadList` over a run of expressions. -/
theorem ReadList_loop_exprs (R : Tokenizer → Except Err (Obj × Tokenizer))
    (rest : List (Option Obj)) (t2 : Tokenizer) :
    ∀ (es : List Obj) (t : Tokenizer), ReadsItems R t (es.map some ++ rest) t2 →
      ∃ t1, ReadsItems R t1 rest t2 ∧ ∀ (g : Nat) (v : ReadListVars),
        ReadList_loop R (g + es.length) v t =
          ReadList_loop R g ⟨v.list ++ es, v.number_of_dots, v.dot_pos, v.curr_pos + es.length⟩
            t1 := by
  intro es
  induction es with
  | nil =>
    intro t h
    exact ⟨t, h, fun g v => by simp⟩
  | cons e es ih =>
    intro t h
    obtain ⟨⟨tok, len, hg, h1, h2⟩, ta, hr, hrest⟩ := h
    obtain ⟨t1, ht1, hloop⟩ := ih ta hrest
    refine ⟨t1, ht1, fun g v => ?_⟩
    rw [show g + (e :: es).length = (g + es.length) + 1 by simp; omega,
      ReadList_loop_elem R _ v t ta tok len e hg h1 h2 hr, hloop]
    simp only [List.append_assoc, List.singleton_append, List.length_cons]
    congr 2
    omega

/-- Every list of items is a run of expressions followed by nothing or by a dot. -/
theorem items_split (l : List (Option Obj)) :
    ∃ (es : List Obj) (rest : List (Option Obj)),
      l = es.map some ++ rest ∧ (rest = [] ∨ ∃ r, rest = none :: r) := by
  induction l with
  | nil => exact ⟨[], [], rfl, Or.inl rfl⟩
  | cons x l ih =>
    cases x with
    | none => exact ⟨[], none :: l, rfl, Or.inr ⟨l, rfl⟩⟩
    | some e =>
      obtain ⟨es, rest, hl, hrest⟩ := ih
      exact ⟨e :: es, rest, by rw [hl]; rfl, hrest⟩

theorem foldr_dotted_init (e last : Obj) : ∀ init : List Obj,
    ((init ++ [e, .null, last]).take init.length).foldr Obj.Cell
      (.Cell ((init ++ [e, .null, last]).getD init.length .null)
        ((init ++ [e, .null, last]).getD (init.length + 2) .null)) =
      (init ++ [e]).foldr Obj.Cell last := by
  intro init
  induction init with
  | nil => rfl
  | cons x xs ih =>
    simp only [List.cons_append, List.length_cons, List.take_succ_cons, List.foldr_cons,
      List.getD_cons_succ]
    rw [ih]

theorem foldr_dotted (es : List Obj) (hes : es ≠ []) (last : Obj) :
    ((es ++ [.null, last]).take ((es ++ [.null, last]).length - 3)).foldr Obj.Cell
      (.Cell ((es ++ [.null, last]).getD ((es ++ [.null, last]).length - 3) .null)
        ((es ++ [.null, last]).getD ((es ++ [.null, last]).length - 1) .null)) =
      es.foldr Obj.Cell last := by
  obtain ⟨init, e, rfl⟩ : ∃ init e, es = init ++ [e] :=
    ⟨es.dropLast, es.getLast hes, (List.dropLast_append_getLast hes).symm⟩
  have h1 : (init ++ [e] ++ [Obj.null, last]).length - 3 = init.length := by simp
  have h2 : (init ++ [e] ++ [Obj.null, last]).length - 1 = init.length + 2 := by simp
  rw [h1, h2]
  have := foldr_dotted_init e last init
  simp only [List.append_assoc, List.singleton_append] at this ⊢
  exact this

theorem ReadList_dotted (R : Tokenizer → Except Err (Obj × Tokenizer)) (fuel : Nat)
    (t t2 : Tokenizer) (es : List Obj) (last : Obj) (hes : es ≠ [])
    (h : ReadsItems R t (es.map some ++ [none, some last]) t2) (hfuel : es.length + 3 ≤ fuel) :
    ReadList R fuel t = .ok (es.foldr Obj.Cell last, t2) := by
  obtain ⟨g, rfl⟩ : ∃ g, fuel = (g + 3) + es.length := ⟨fuel - 3 - es.length, by omega⟩
  obtain ⟨t1, h1, hloop⟩ := ReadList_loop_exprs R [none, some last] t2 es t h
  obtain ⟨⟨len, hgd⟩, ta, hna, ⟨tok, l2, hg2, hc, hd⟩, tb, hrb, hend⟩ := h1
  rw [ReadList, hloop (g + 3) _, ReadList_loop_dot R (g + 2) _ t1 ta len hgd hna,
    if_neg (by simp), ReadList_loop_elem R (g + 1) _ ta tb tok l2 last hg2 hc hd hrb,
    ReadList_loop_end R g _ tb t2 hend]
  have hf := foldr_dotted es hes last
  have hlen : 1 ≤ es.length := List.length_pos.2 hes
  simp only [List.nil_append, List.append_assoc, List.singleton_append, List.length_append,
    List.length_cons, List.length_nil] at hf ⊢
  simp only [ReadList_build, List.length_append, List.length_cons, List.length_nil, hf]
  rw [if_neg (by omega), if_neg (by omega), if_neg (by omega)]

theorem ReadList_bad_dot (R : Tokenizer → Except Err (Obj × Tokenizer)) (fuel : Nat)
    (t t2 : Tokenizer) (items : List (Option Obj)) (h : ReadsItems R t items t2)
    (hfuel : items.length + 1 ≤ fuel) (hdot : none ∈ items)
    (hshape : ¬ ∃ es last, es ≠ [] ∧ items = es.map some ++ [none, some last]) :
    ReadList R fuel t = .error .SyntaxError := by
  obtain ⟨pre, rest, hl, hrest⟩ := items_split items
  rcases hrest with rfl | ⟨r, rfl⟩
  · rw [hl] at hdot
    simp at hdot
  obtain ⟨mid, rest2, hr, hrest2⟩ := items_split r
  subst hl hr
  obtain ⟨t1, h1, hloop⟩ := ReadList_loop_exprs R _ t2 pre t h
  obtain ⟨⟨len, hgd⟩, ta, hna, h2⟩ := h1
  obtain ⟨tb, h3, hloop2⟩ := ReadList_loop_exprs R _ t2 mid ta h2
  simp only [List.length_append, List.length_map, List.length_cons] at hfuel
  rcases hrest2 with rfl | ⟨r2, rfl⟩
  · obtain ⟨g, rfl⟩ : ∃ g, fuel = (((g + 1) + mid.length) + 1) + pre.length :=
      ⟨fuel - 1 - mid.length - 1 - pre.length, by simp at hfuel; omega⟩
    rw [ReadList, hloop _ _, ReadList_loop_dot R _ _ t1 ta len hgd hna, if_neg (by simp),
      hloop2 _ _, ReadList_loop_end R g _ tb t2 h3]
    simp only [List.nil_append, List.append_assoc, List.singleton_append, Nat.zero_add]
    simp only [ReadList_build, List.length_append, List.length_cons]
    rw [if_neg (by omega)]
    by_cases hm : mid.length = 1
    · rw [if_neg (by omega)]
      by_cases hp : pre.length = 0
      · rw [if_pos (by omega)]
      · exfalso
        obtain ⟨last, rfl⟩ : ∃ last, mid = [last] := List.length_eq_one.1 hm
        exact hshape ⟨pre, last, by intro hpre; rw [hpre] at hp; simp at hp, by simp⟩
    · rw [if_pos (by omega)]
  · obtain ⟨⟨len2, hgd2⟩, tc, hnc, _⟩ := h3
    obtain ⟨g, rfl⟩ : ∃ g, fuel = (((g + 1) + mid.length) + 1) + pre.length :=
      ⟨fuel - 1 - mid.length - 1 - pre.length, by simp at hfuel; omega⟩
    rw [ReadList, hloop _ _, ReadList_loop_dot R _ _ t1 ta len hgd hna, if_neg (by simp),
      hloop2 _ _, ReadList_loop_dot R g _ tb tc len2 hgd2 hnc, if_pos (by simp)]

/-- C24. Dotted lists.  Let the loop of `ReadList` meet the items `items` (readable
expressions and dots) up to the closing parenthesis.  When `items` consists of `n ≥ 1`
expressions `e1 ... en`, one dot and one more expression `last`, `ReadList` returns
`Cell(e1, ... Cell(en, last))`.  When `items` contains a dot and is of any other form (a
second dot, a dot first, a dot last, two or more expressions after the dot) `ReadList`
throws `SyntaxError`.  The theorem holds for every reader `R` of the elements, in particular
for `Read` itself; the readings at the end are instances. -/
theorem dotted_list_reading (R : Tokenizer → Except Err (Obj × Tokenizer)) (fuel : Nat)
    (t t2 : Tokenizer) (items : List (Option Obj)) (h : ReadsItems R t items t2)
    (hfuel : items.length + 1 ≤ fuel) :
    (∀ (es : List Obj) (last : Obj), es ≠ [] → items = es.map some ++ [none, some last] →
      ReadList R fuel t = .ok (es.foldr Obj.Cell last, t2)) ∧
    (none ∈ items → (¬ ∃ es last, es ≠ [] ∧ items = es.map some ++ [none, some last]) →
      ReadList R fuel t = .error .SyntaxError) ∧
    Read 9 "(1 2 . 3)".data = .ok (.Cell (.Number 1) (.Cell (.Number 2) (.Number 3)), []) ∧
    Read 9 "(a . (b c))".data =
      .ok (.Cell (.Symbol "a") (.Cell (.Symbol "b") (.Cell (.Symbol "c") .null)), []) ∧
    Read 9 "(1 . 2 . 3)".data = .error .SyntaxError ∧
    Read 9 "(. 1)".data = .error .SyntaxError ∧
    Read 9 "(1 .)".data = .error .SyntaxError ∧
    Read 9 "(1 . 2 3)".data = .error .SyntaxError ∧
    Read 9 "(.)".data = .error .SyntaxError := by
  refine ⟨?_, ?_, by decide, by decide, by decide, by decide, by decide, by decide, by decide⟩
  · intro es last hes hitems
    subst hitems
    exact ReadList_dotted R fuel t t2 es last hes h (by simp at hfuel; omega)
  · intro hdot hshape
    exact ReadList_bad_dot R fuel t t2 items h hfuel hdot hshape

/-- C24 (instance). After the opening parenthesis of `(1 2 . 3)` the loop meets `1`, `2`, a
dot and `3`, and `ReadList` returns `Cell(1, Cell(2, 3))`. -/
theorem dotted_list_reading_witness :
    ReadList (Read 5) 5 "1 2 . 3)".data =
      .ok (.Cell (.Number 1) (.Cell (.Number 2) (.Number 3)), []) :=
  (dotted_list_reading (Read 5) 5 "1 2 . 3)".data []
    [some (.Number 1), some (.Number 2), none, some (.Number 3)]
    ⟨⟨_, _, rfl, by decide, by decide⟩, "2 . 3)".data, rfl,
      ⟨_, _, rfl, by decide, by decide⟩, ". 3)".data, rfl,
      ⟨_, rfl⟩, "3)".data, rfl,
      ⟨_, _, rfl, by decide, by decide⟩, ")".data, rfl,
      ⟨_, rfl⟩, rfl⟩ (by decide)).1 [.Number 1, .Number 2] (.Number 3) (by decide) rfl

/-! ## The shape of `define` and `set!` forms -/

/-- What `ReadList` returns for a list without dots whose head is `define` or `set!`. -/
theorem ReadList_define (R : Tokenizer → Except Err (Obj × Tokenizer)) (fuel : Nat)
    (t t2 : Tokenizer) (name : String) (operands : List Obj)
    (hname : name = "define" ∨ name = "set!")
    (h : ReadsItems R t ((Obj.Symbol name :: operands).map some) t2)
    (hfuel : operands.length + 2 ≤ fuel) :
    ReadList R fuel t =
      if operands.length = 2 ∨ (operands.length = 3 ∧ (operands.headD .null).isCell = true) then
        .ok (properList (.Symbol name :: operands), t2)
      else .error .SyntaxError := by
  obtain ⟨g, rfl⟩ : ∃ g, fuel = (g + 1) + (Obj.Symbol name :: operands).length :=
    ⟨fuel - 1 - (operands.length + 1), by simp; omega⟩
  have h2 : ReadsItems R t ((Obj.Symbol name :: operands).map some ++ []) t2 := by
    rw [List.append_nil]; exact h
  obtain ⟨t1, h1, hloop⟩ := ReadList_loop_exprs R [] t2 _ t h2
  rw [ReadList, hloop, ReadList_loop_end R g _ t1 t2 h1]
  have hb := build_properList (.Symbol name) operands
  have hif : name ≠ "if" := by rcases hname with rfl | rfl <;> decide
  have hds : (name = "define" ∨ name = "set!") = True := eq_true hname
  simp only [List.nil_append] at hb ⊢
  simp only [ReadList_build, List.isEmpty_cons, List.head?_cons, hb, hif, hds, decide_False,
    decide_True, Bool.false_and, Bool.or_eq_true, decide_eq_true_eq, if_true, if_false,
    Bool.false_eq_true]
  cases operands with
  | nil => simp
  | cons first rest =>
    simp only [List.getD_cons_succ, List.getD_cons_zero, List.headD_cons, List.length_cons]
    by_cases h4 : rest.length + 1 + 1 = 4
    · have h3 : rest.length + 1 = 3 := by omega
      by_cases hc : first.isCell = true
      · simp [h4, h3, hc]
      · simp [h4, h3, hc]
    · by_cases h3 : rest.length + 1 + 1 = 3
      · have : rest.length + 1 = 2 := by omega
        simp [h4, h3, this]
      · have hn2 : ¬ rest.length + 1 = 2 := by omega
        have hn3 : ¬ rest.length + 1 = 3 := by omega
        simp [h4, h3, hn2, hn3]

/-- C25 (code defect). The reader accepts a `define` or `set!` list with exactly two operands,
and one with three operands if the first of them is a list; every other number of operands is
a `SyntaxError`.  So when the first operand is not a list the form is accepted exactly with
two operands, as specified; but the shorthand `(define (name params...) body1 ... bodyk)` is
accepted only for one or two body expressions, not for every `k ≥ 1`:
`(define (f x) 1 2 3)` is rejected, where `(lambda (x) 1 2 3)` is read without complaint. -/
theorem define_shape_at_read (R : Tokenizer → Except Err (Obj × Tokenizer)) (fuel : Nat)
    (t t2 : Tokenizer) (name : String) (operands : List Obj)
    (hname : name = "define" ∨ name = "set!")
    (h : ReadsItems R t ((Obj.Symbol name :: operands).map some) t2)
    (hfuel : operands.length + 2 ≤ fuel) :
    (operands = [] → ReadList R fuel t = .error .SyntaxError) ∧
    (∀ first rest, operands = first :: rest → first.isCell = false →
      (rest.length = 1 →
        ReadList R fuel t = .ok (properList (.Symbol name :: operands), t2)) ∧
      (rest.length ≠ 1 → ReadList R fuel t = .error .SyntaxError)) ∧
    (∀ first rest, operands = first :: rest → first.isCell = true →
      (rest.length = 1 ∨ rest.length = 2 →
        ReadList R fuel t = .ok (properList (.Symbol name :: operands), t2)) ∧
      (rest.length = 0 ∨ 3 ≤ rest.length → ReadList R fuel t = .error .SyntaxError)) ∧
    Read 21 "(define (f x) 1 2 3)".data = .error .SyntaxError ∧
    Read 21 "(define (f x) 1 2)".data =
      .ok (.Cell (.Symbol "define") (.Cell (.Cell (.Symbol "f") (.Cell (.Symbol "x") .null))
        (.Cell (.Number 1) (.Cell (.Number 2) .null))), []) ∧
    Read 21 "(lambda (x) 1 2 3)".data =
      .ok (.Cell (.Symbol "lambda") (.Cell (.Cell (.Symbol "x") .null)
        (.Cell (.Number 1) (.Cell (.Number 2) (.Cell (.Number 3) .null)))), []) ∧
    (∀ (gen : Nat → String) (k : Nat) (st : State),
      Interpreter_Run gen k "(define (f x) 1 2 3)" st = .throw .SyntaxError st) := by
  have hmain := ReadList_define R fuel t t2 name operands hname h hfuel
  refine ⟨?_, ?_, ?_, by decide, by decide, by decide, fun gen k st => rfl⟩
  · intro ho
    rw [hmain, ho]
    simp
  · intro first rest ho hc
    subst ho
    rw [hmain]
    simp only [List.length_cons, List.headD_cons, hc, Bool.false_eq_true, and_false, or_false]
    constructor
    · intro hr
      rw [if_pos (by omega)]
    · intro hr
      rw [if_neg (by omega)]
  · intro first rest ho hc
    subst ho
    rw [hmain]
    simp only [List.length_cons, List.headD_cons, hc, and_true]
    constructor
    · intro hr
      rw [if_pos (by omega)]
    · intro hr
      rw [if_neg (by omega)]

/-- C25 (instance). `(define x 5)`, with two operands the first of which is not a list, is
accepted. -/
theorem define_shape_at_read_witness :
    ReadList (Read 5) 5 "define x 5)".data =
      .ok (properList [.Symbol "define", .Symbol "x", .Number 5], []) :=
  ((define_shape_at_read (Read 5) 5 "define x 5)".data [] "define" [.Symbol "x", .Number 5]
    (Or.inl rfl)
    ⟨⟨_, _, rfl, by decide, by decide⟩, "x 5)".data, rfl,
      ⟨_, _, rfl, by decide, by decide⟩, "5)".data, rfl,
      ⟨_, _, rfl, by decide, by decide⟩, ")".data, rfl,
      ⟨_, rfl⟩, rfl⟩ (by decide)).2.1 (.Symbol "x") [.Number 5] rfl rfl).1 rfl

/-! ## The pre-scan of the source -/

theorem AvailableChars_iff (c : Char) : AvailableChars c = true ↔ allowedChar c := by
  simp only [AvailableChars, AvailableCharsInSymbol, BeginsWith, isalpha, isdigit, isspace,
    allowedChar, Bool.or_eq_true, List.contains_eq_any_beq, List.any_eq_true, beq_iff_eq,
    String.toList]
  simp only [List.mem_cons, List.mem_singleton, List.not_mem_nil, or_false, exists_eq_or_imp,
    exists_eq_left, exists_false]
  tauto

/-- C26. The pre-scan.  Constructing the tokenizer throws `SyntaxError` exactly when the
source contains a character that is not a letter, a digit, ASCII white space, one of
`<=>*#/?!-+().` or the apostrophe; otherwise it succeeds, positioned after the leading white space.  When the
source contains such a character `Interpreter::Run` throws `SyntaxError` and leaves the state
of the interpreter as it was, wherever the character stands, for example after a complete
expression. -/
theorem prescan_rejects (code : String) (gen : Nat → String) (fuel : Nat) (st : State) :
    (Tokenizer_new code.data = .error .SyntaxError ↔ ∃ c ∈ code.data, ¬ allowedChar c) ∧
    ((∀ c ∈ code.data, allowedChar c) →
      Tokenizer_new code.data = .ok (Tokenizer_SkipSpaces code.data)) ∧
    ((∃ c ∈ code.data, ¬ allowedChar c) →
      Interpreter_Run gen fuel code st = .throw .SyntaxError st) ∧
    Interpreter_Run gen fuel "(define x 1) @" st = .throw .SyntaxError st ∧
    Interpreter_Run gen fuel "(define x 1) ; x" st = .throw .SyntaxError st ∧
    Interpreter_Run gen fuel "[define x 1]" st = .throw .SyntaxError st := by
  have hall : code.data.all AvailableChars = true ↔ ∀ c ∈ code.data, allowedChar c := by
    rw [List.all_eq_true]
    exact forall_congr' fun c => by rw [AvailableChars_iff]
  refine ⟨?_, ?_, ?_, rfl, rfl, rfl⟩
  · unfold Tokenizer_new
    by_cases h : code.data.all AvailableChars = true
    · have h2 := hall.1 h
      simp only [h, if_true]
      constructor
      · intro hc; simp at hc
      · rintro ⟨c, hc, hbad⟩
        exact absurd (h2 c hc) hbad
    · simp only [h, if_false, true_iff, Bool.false_eq_true]
      by_contra hno
      exact h (hall.2 fun c hc => by
        by_contra hbad
        exact hno ⟨c, hc, hbad⟩)
  · intro h
    simp only [Tokenizer_new, hall.2 h, if_true]
  · rintro ⟨c, hc, hbad⟩
    have h : ¬ code.data.all AvailableChars = true := fun h => hbad (hall.1 h c hc)
    simp only [Interpreter_Run, String.toList, Tokenizer_new, h, if_false, Bool.false_eq_true]

/-! ## Integer lexemes -/

theorem isdigit_not_isspace (c : Char) (h : isdigit c = true) : isspace c = false := by
  by_contra hs
  have hs2 : isspace c = true := by simpa using hs
  simp only [isspace, Bool.or_eq_true, beq_iff_eq] at hs2
  rcases hs2 with ((((rfl | rfl) | rfl) | rfl) | rfl) | rfl <;> simp [isdigit] at h

theorem drop_length_cons {α : Type} (a : α) (l : List α) :
    ∃ c, (a :: l).drop l.length = [c] ∧ c ∈ a :: l := by
  induction l generalizing a with
  | nil => exact ⟨a, rfl, by simp⟩
  | cons b l ih =>
    obtain ⟨c, hc, hmem⟩ := ih b
    exact ⟨c, by simpa using hc, by simp at hmem ⊢; tauto⟩

/-- A lexeme with a leading zero: the token is right, but `Next` consumes only as many
characters as the canonical text of the value has, so one character is left. -/
theorem leading_zero (n : Int) (h0 : 0 ≤ n) (hn : isInt64 n) :
    Tokenizer_GetToken ('0' :: (to_string n).data) =
      .ok (.ConstantToken n, (to_string n).length) ∧
    ∃ c, Tokenizer_Next ('0' :: (to_string n).data) = .ok [c] := by
  obtain ⟨j, ds, hj, hds, hdig, hval⟩ := toDigits_spec n.natAbs
  have hdata : (to_string n).data = Nat.digitChar j :: ds := by
    rw [to_string_data, if_neg (by omega), hds]
  have hall : ∀ c ∈ Nat.digitChar j :: ds, isdigit c = true := by
    intro c hc
    rcases List.mem_cons.1 hc with rfl | hc
    · exact (digitChar_facts j hj).1
    · exact hdig c hc
  have hr := readDigits_digits (Nat.digitChar j :: ds) [] hall (by simp) 0
  have hfold : (Nat.digitChar j :: ds).foldl digitStep 0 = n := by
    have h2 : digitStep 0 (Nat.digitChar j) = (j : Int) := by
      simp [digitStep, (digitChar_facts j hj).2.1]
    rw [List.foldl_cons, h2, hval]
    omega
  have hnw : wrap64 n = n := wrap64_of_isInt64 hn
  have hw0 : wrap64 0 = 0 := by decide
  rw [List.append_nil, hw0, hfold, hnw] at hr
  have hg : Tokenizer_GetToken ('0' :: (to_string n).data) =
      .ok (.ConstantToken n, (to_string n).length) := by
    have := GetToken_digit 0 (by decide) (to_string n).data
    rw [hdata] at this ⊢
    simp only [Nat.cast_zero, hr, mul_one, hnw] at this
    exact this
  refine ⟨hg, ?_⟩
  obtain ⟨c, hc, hmem⟩ := drop_length_cons '0' (to_string n).data
  have hcd : isdigit c = true := by
    rcases List.mem_cons.1 hmem with rfl | hmem
    · decide
    · rw [hdata] at hmem
      exact hall c hmem
  have hlen : (to_string n).length = (to_string n).data.length := rfl
  refine ⟨c, ?_⟩
  simp only [Tokenizer_Next, hg, hlen, hc, Tokenizer_SkipSpaces, isdigit_not_isspace c hcd,
    Bool.false_eq_true, if_false]

/-- C27 (code defect). `Tokenizer::GetToken` sets the length of a number token to the length
of `std::to_string` of its value (plus one for a leading `+`), not to the length of the
lexeme.  For the canonical text of a 64-bit integer the two agree: the token is
`Constant(n)` and `Next` leaves the tokenizer at the end.  For a lexeme with a leading zero
the token is still `Constant(n)`, but `Next` leaves one character unread; likewise `-0` is
`Constant(0)` and `Next` leaves `0`.  So a source that is exactly `007` or `-0` is not the
single token the lexeme stands for, and `Interpreter::Run` rejects it with `SyntaxError`. -/
theorem integer_lexeme_length (gen : Nat → String) (fuel : Nat) (st : State) :
    (∀ n : Int, isInt64 n →
      Tokenizer_new (to_string n).data = .ok (to_string n).data ∧
      Tokenizer_GetToken (to_string n).data = .ok (.ConstantToken n, (to_string n).length) ∧
      Tokenizer_Next (to_string n).data = .ok []) ∧
    (∀ n : Int, 0 ≤ n → isInt64 n →
      Tokenizer_GetToken ('0' :: (to_string n).data) =
        .ok (.ConstantToken n, (to_string n).length) ∧
      ∃ c, Tokenizer_Next ('0' :: (to_string n).data) = .ok [c]) ∧
    Tokenizer_new "007".data = .ok "007".data ∧
    Tokenizer_GetToken "007".data = .ok (.ConstantToken 7, 1) ∧
    Tokenizer_Next "007".data = .ok "07".data ∧
    Tokenizer_GetToken "-0".data = .ok (.ConstantToken 0, 1) ∧
    Tokenizer_Next "-0".data = .ok "0".data ∧
    Tokenizer_GetToken "+5".data = .ok (.ConstantToken 5, 2) ∧
    Tokenizer_Next "+5".data = .ok [] ∧
    Tokenizer_Next "+05".data = .ok "5".data ∧
    Interpreter_Run gen (fuel + 1) "007" st = .throw .SyntaxError st ∧
    Interpreter_Run gen (fuel + 1) "-0" st = .throw .SyntaxError st ∧
    Interpreter_Run gen (fuel + 1) "7" st = .ok "7" st := by
  refine ⟨?_, ?_, by decide, by decide, by decide, by decide, by decide, by decide, by decide,
    by decide, rfl, rfl, rfl⟩
  · intro n hn
    have hg := GetToken_to_string n hn [] (by simp)
    have hx := Next_to_string n hn [] (by simp)
    rw [List.append_nil] at hg hx
    exact ⟨Tokenizer_new_to_string n, hg, hx⟩
  · intro n h0 hn
    exact leading_zero n h0 hn

/-! ## The printer -/

theorem Stringify_ok_not_null (x : Obj) (s : String) (h : Stringify x = .ok s) :
    x.isNull = false := by
  cases x <;> first | rfl | simp [Stringify, Stringify_aux, Stringify_atom] at h

theorem Stringify_tail_proper (es : List Obj) (ss : List String)
    (h : List.Forall₂ (fun x s => Stringify x = .ok s) es ss) :
    Stringify_aux true (properList es) = .ok (ss.foldr (fun a r => " " ++ a ++ r) "") := by
  induction h with
  | nil => rfl
  | cons hx _ ih =>
    simp only [properList, List.foldr_cons] at ih ⊢
    simp only [Stringify] at hx
    simp only [Stringify_aux, hx, ih]

theorem Stringify_tail_improper (es : List Obj) (ss : List String) (last : Obj) (sl : String)
    (h : List.Forall₂ (fun x s => Stringify x = .ok s) es ss) (hc : last.isCell = false)
    (hl : Stringify last = .ok sl) :
    Stringify_aux true (es.foldr Obj.Cell last) =
      .ok (ss.foldr (fun a r => " " ++ a ++ r) (" . " ++ sl)) := by
  induction h with
  | nil =>
    simp only [List.foldr_nil]
    cases last with
    | Cell a d => simp [Obj.isCell] at hc
    | null => simp [Stringify, Stringify_aux, Stringify_atom] at hl
    | _ =>
      simp only [Stringify, Stringify_aux] at hl
      simp only [Stringify_aux, hl]
  | cons hx _ ih =>
    simp only [List.foldr_cons] at ih ⊢
    simp only [Stringify] at hx
    simp only [Stringify_aux, hx, ih]

theorem foldr_sep_append (ss : List String) (tail : String) :
    ss.foldr (fun a r => " " ++ a ++ r) tail = ss.foldr (fun a r => " " ++ a ++ r) "" ++ tail := by
  induction ss with
  | nil => simp
  | cons a ss ih =>
    simp only [List.foldr_cons]
    rw [ih]
    simp only [String.append_assoc]

/-- C28 (code defect). `Cell::Stringify` returns `(())` for every pair whose first field is
Nil, whatever follows, and calls `Stringify` through the null pointer for a Nil element
further down the list.  So the value read from `(() 1)` renders as `(())`, not as `(() 1)`,
and rendering the value read from `(1 ())` is undefined behaviour.  When no element is Nil
the rendering is as specified: a proper list whose elements render as `s1 ... sN` renders as
`(s1 ... sN)`, and an improper list with the last tail rendering as `t` renders as
`(s1 ... sN . t)`. -/
theorem printer_nil_element (gen : Nat → String) (fuel : Nat) (st : State) :
    Read 8 "(() 1)".data = .ok (.Cell .null (.Cell (.Number 1) .null), []) ∧
    Stringify (.Cell .null (.Cell (.Number 1) .null)) = .ok "(())" ∧
    Interpreter_Run gen (fuel + 2) "'(() 1)" st = .ok "(())" st ∧
    Read 8 "(1 ())".data = .ok (.Cell (.Number 1) (.Cell .null .null), []) ∧
    Stringify (.Cell (.Number 1) (.Cell .null .null)) = .error .UndefinedBehaviour ∧
    Interpreter_Run gen (fuel + 2) "'(1 ())" st = .throw .UndefinedBehaviour st ∧
    (∀ rest : Obj, Stringify (.Cell .null rest) = .ok "(())") ∧
    (∀ (e : Obj) (es : List Obj) (se : String) (ss : List String), Stringify e = .ok se →
      List.Forall₂ (fun x s => Stringify x = .ok s) es ss →
      Stringify (properList (e :: es)) = .ok ("(" ++ " ".intercalate (se :: ss) ++ ")")) ∧
    (∀ (e : Obj) (es : List Obj) (last : Obj) (se : String) (ss : List String) (sl : String),
      Stringify e = .ok se → List.Forall₂ (fun x s => Stringify x = .ok s) es ss →
      last.isCell = false → Stringify last = .ok sl →
      Stringify ((e :: es).foldr Obj.Cell last) =
        .ok ("(" ++ " ".intercalate (se :: ss) ++ " . " ++ sl ++ ")")) ∧
    Interpreter_Run gen (fuel + 2) "'((1 2) (3 . 4) a #t)" st = .ok "((1 2) (3 . 4) a #t)" st ∧
    Interpreter_Run gen (fuel + 2) "'()" st = .ok "()" st := by
  refine ⟨by decide, rfl, rfl, by decide, rfl, rfl, fun rest => rfl, ?_, ?_, rfl, rfl⟩
  · intro e es se ss he hes
    have hn := Stringify_ok_not_null e se he
    have ht := Stringify_tail_proper es ss hes
    simp only [Stringify] at he
    simp only [properList, List.foldr_cons] at ht ⊢
    simp only [Stringify, Stringify_aux, hn, he, ht, Bool.false_eq_true, if_false,
      String.intercalate, intercalate_go, String.append_assoc]
  · intro e es last se ss sl he hes hc hl
    have hn := Stringify_ok_not_null e se he
    have ht := Stringify_tail_improper es ss last sl hes hc hl
    rw [foldr_sep_append] at ht
    simp only [Stringify] at he
    simp only [List.foldr_cons] at ht ⊢
    simp only [Stringify, Stringify_aux, hn, he, ht, Bool.false_eq_true, if_false,
      String.intercalate, intercalate_go, String.append_assoc]

/-! ## Reading a quote -/

/-- A quote before anything that does not start with a parenthesis: the operand is put
directly in the second field. -/
theorem Read_Quote_other (f : Nat) (rest : List Char) (tok : Token) (len : Nat) (e : Obj)
    (t2 : Tokenizer)
    (hg : Tokenizer_GetToken (Tokenizer_SkipSpaces rest) = .ok (tok, len))
    (hb : ∀ b, tok ≠ .BracketToken b)
    (hr : Read (f + 1) (Tokenizer_SkipSpaces rest) = .ok (e, t2)) :
    Read (f + 2) (Char.ofNat 39 :: rest) = .ok (.Cell (.Symbol "quote") e, t2) := by
  have hgq : Tokenizer_GetToken (Char.ofNat 39 :: rest) = .ok (.QuoteToken, 1) := rfl
  have hnq : Tokenizer_Next (Char.ofNat 39 :: rest) = .ok (Tokenizer_SkipSpaces rest) := rfl
  have hne : Tokenizer_IsEnd (Tokenizer_SkipSpaces rest) = false := by
    cases hs : Tokenizer_SkipSpaces rest with
    | nil => rw [hs] at hg; simp [Tokenizer_GetToken] at hg
    | cons c cs => rfl
  rw [Read]
  simp only [Tokenizer_IsEnd, List.isEmpty_cons, hgq, hnq, Bool.false_eq_true, if_false]
  simp only [Tokenizer_IsEnd] at hne
  simp only [hne, hg, Bool.false_eq_true, if_false]
  cases tok with
  | BracketToken b => exact absurd rfl (hb b)
  | _ => simp only [hr]

/-- A quote before a parenthesised list: the list is wrapped in one more cell, unless it is
empty. -/
theorem Read_Quote_list (f : Nat) (rest : List Char) (list : Obj) (t2 : Tokenizer)
    (hr : ReadList (Read (f + 1)) (f + 1) (Tokenizer_SkipSpaces rest) = .ok (list, t2)) :
    Read (f + 2) (Char.ofNat 39 :: '(' :: rest) =
      .ok (if list.isNull then .Cell (.Symbol "quote") .null
        else .Cell (.Symbol "quote") (.Cell list .null), t2) := by
  have hgq : Tokenizer_GetToken (Char.ofNat 39 :: '(' :: rest) = .ok (.QuoteToken, 1) := rfl
  have hnq : Tokenizer_Next (Char.ofNat 39 :: '(' :: rest) = .ok ('(' :: rest) := rfl
  have hg2 : Tokenizer_GetToken ('(' :: rest) = .ok (.BracketToken .OPEN, 1) := rfl
  have hn2 : Tokenizer_Next ('(' :: rest) = .ok (Tokenizer_SkipSpaces rest) := rfl
  rw [Read]
  simp only [Tokenizer_IsEnd, List.isEmpty_cons, hgq, hnq, hg2, hn2, hr, Bool.false_eq_true,
    if_false, ne_eq, not_true_eq_false]
  split <;> rfl

/-- C29 (code defect). `Read` wraps the quoted expression in a cell only when the quote is
followed by a non-empty parenthesised list.  Before an atom or another quote the expression
itself becomes the second field, so `'x` reads as `Cell(quote, x)` where `(quote x)` reads as
`Cell(quote, Cell(x, Nil))`; and `'()` reads as `Cell(quote, Nil)` where `(quote ())` reads as
`Cell(quote, Cell(Nil, Nil))`.  The difference shows when run: `''a` prints `(quote . a)`
but `(quote (quote a))` prints `(quote a)`.  For a non-empty list the two readings agree. -/
theorem quote_reads_bare_operand (gen : Nat → String) (fuel : Nat) (st : State) :
    Read 9 "'x".data = .ok (.Cell (.Symbol "quote") (.Symbol "x"), []) ∧
    Read 9 "(quote x)".data = .ok (.Cell (.Symbol "quote") (.Cell (.Symbol "x") .null), []) ∧
    Read 9 "'5".data = .ok (.Cell (.Symbol "quote") (.Number 5), []) ∧
    Read 9 "'()".data = .ok (.Cell (.Symbol "quote") .null, []) ∧
    Read 11 "(quote ())".data = .ok (.Cell (.Symbol "quote") (.Cell .null .null), []) ∧
    Read 9 "''a".data =
      .ok (.Cell (.Symbol "quote") (.Cell (.Symbol "quote") (.Symbol "a")), []) ∧
    Read 19 "(quote (quote a))".data =
      .ok (.Cell (.Symbol "quote")
        (.Cell (.Cell (.Symbol "quote") (.Cell (.Symbol "a") .null)) .null), []) ∧
    Read 9 "'(1 2)".data = Read 15 "(quote (1 2))".data ∧
    Interpreter_Run gen (fuel + 2) "''a" st = .ok "(quote . a)" st ∧
    Interpreter_Run gen (fuel + 2) "(quote (quote a))" st = .ok "(quote a)" st ∧
    (∀ (f : Nat) (rest : List Char) (tok : Token) (len : Nat) (e : Obj) (t2 : Tokenizer),
      Tokenizer_GetToken (Tokenizer_SkipSpaces rest) = .ok (tok, len) →
      (∀ b, tok ≠ .BracketToken b) →
      Read (f + 1) (Tokenizer_SkipSpaces rest) = .ok (e, t2) →
      Read (f + 2) (Char.ofNat 39 :: rest) = .ok (.Cell (.Symbol "quote") e, t2)) ∧
    (∀ (f : Nat) (rest : List Char) (list : Obj) (t2 : Tokenizer),
      ReadList (Read (f + 1)) (f + 1) (Tokenizer_SkipSpaces rest) = .ok (list, t2) →
      Read (f + 2) (Char.ofNat 39 :: '(' :: rest) =
        .ok (if list.isNull then .Cell (.Symbol "quote") .null
          else .Cell (.Symbol "quote") (.Cell list .null), t2)) := by
  exact ⟨by decide, by decide, by decide, by decide, by decide, by decide, by decide, by decide,
    rfl, rfl, Read_Quote_other, Read_Quote_list⟩

/-! ## Creating a lambda -/

/-- C30 (code defect). `CreateLambda::Apply` draws a random name and assigns the new lambda to
it in the current scope.  Evaluating `(lambda params body...)` in the scope `scope` returns
the lambda, and in the state it leaves the name drawn is bound to that lambda in `scope`
(and one more scope is on the heap), so the set of names bound in the environment has
changed.  When the name drawn is `aaaaaaaaaa`: on a fresh interpreter `aaaaaaaaaa` is
unbound, and after `(define f (lambda (x) x))` the call `(aaaaaaaaaa 5)` returns `5`. -/
theorem lambda_binds_random_name (gen : Nat → String) (fuel : Nat) :
    (∀ (params body : Obj) (args : List String) (scope : Nat) (st : State),
      collect_args params = some args → scope < st.scopes.length →
      ∃ st2, Eval gen (fuel + 2) (.Cell (.Symbol "lambda") (.Cell params body)) scope st =
          .ok (.LambdaFunction st.scopes.length (As_Cell body) args) st2 ∧
        binding st2 scope (gen st.names) =
          some (.LambdaFunction st.scopes.length (As_Cell body) args) ∧
        st2.scopes.length = st.scopes.length + 1 ∧ st2.names = st.names + 1) ∧
    (Interpreter_RunAll (fun _ => "aaaaaaaaaa") (fuel + 3)
        ["aaaaaaaaaa", "(define f (lambda (x) x))", "(aaaaaaaaaa 5)"] State.init).1 =
      [.error .NameError, .ok "()", .ok "5"] := by
  refine ⟨?_, ?_⟩
  · intro params body args scope st hargs hscope
    rw [Eval_builtin_form gen fuel _ .CreateLambda (by decide)]
    simp only [Function_Apply, CreateLambda_Apply, hargs, Scope_new]
    refine ⟨_, rfl, ?_, ?_, ?_⟩
    · exact binding_Assign_same _ scope _ _ (by simp; omega)
    · rw [Scope_Assign_length]; simp
    · rw [names_Assign]
  · rfl

end Scheme
